import Mathlib

/-!
# wxWidgets generic widgets: info bar, splitter, sash window, pane manager

A shallow embedding of the parts of

* `src/generic/infobar.cpp` (`wxInfoBarGeneric`),
* `include/wx/generic/splitter.h` (`wxSplitterEvent`, `wxSplitterWindow`),
* `include/wx/generic/sashwin.h` (`wxSashEvent`, `wxSashWindow`),
* `interface/wx/aui/framemanager.h` (`wxAuiManager`, `wxAuiPaneInfo`)

that the verified properties talk about, followed by the properties.  The
headers declare some member functions without a body; each definition that
stands for such a function says so in its comment.

Conventions of the embedding.

* A window object is a record of its address (object identity, what a C++
  pointer comparison looks at) and its window id (`GetId()`).  A pointer is an
  `Option`, `none` being `nullptr`.
* A sizer is the list of its items (`wxSizer::GetChildren()`), first item
  first.  A node of that list is named by its position; the null
  `compatibility_iterator` is `none`.
* Dereferencing a null pointer or a null iterator is a `Fault`: such a call
  does not return.
* Geometry (`wxSizerFlags`, `Layout()`), labels, colours and tooltips have no
  influence on the functions below and are left out.
-/

namespace WxGeneric

/-! ## Toolkit types used by the info bar -/

/-- Standard window id `wxID_NONE` of `wx/defs.h`. -/
def wxID_NONE : Int := -3

/-- Standard window id `wxID_ANY` of `wx/defs.h`. -/
def wxID_ANY : Int := -1

/-- Standard window id `wxID_CLOSE` of `wx/defs.h`. -/
def wxID_CLOSE : Int := 5001

/-- The least automatic window id, `wxID_AUTO_LOWEST` of `wx/defs.h`. -/
def wxID_AUTO_LOWEST : Int := -1000000

/-- The greatest automatic window id, `wxID_AUTO_HIGHEST` of `wx/defs.h`. -/
def wxID_AUTO_HIGHEST : Int := -2000

/-- A call that does not return normally. -/
inductive Fault where
  /-- a null pointer or a null list iterator was dereferenced -/
  | nullDereference
  /-- the step budget of a modelled loop ran out (an artefact of the model,
  shown below never to happen with the budget the model uses) -/
  | outOfFuel
deriving DecidableEq, Repr

deriving instance DecidableEq for Except

/-- A window object: its address and its window id. -/
structure wxWindow where
  addr : Nat
  m_windowId : Int
deriving DecidableEq, Repr

/-- The sizers that `wxInfoBarGeneric::Create` nests inside the bar's own
sizer. -/
inductive NestedSizer where
  | defaultControlSizer
  | firstRowSizer
  | secondRowSizer
deriving DecidableEq, Repr

/-- A `wxSizerItem`: a window, a nested sizer or a spacer. -/
inductive wxSizerItem where
  | Item_Window (window : wxWindow)
  | Item_Sizer (sizer : NestedSizer)
  | Item_Spacer (size : Int)
deriving DecidableEq, Repr

/-- Translation of `wxSizerItem::IsSpacer`. -/
def wxSizerItem.IsSpacer : wxSizerItem → Bool
  | .Item_Spacer _ => true
  | _ => false

/-- Translation of `wxSizerItem::GetWindow`: the window of a window item,
`nullptr` for every other kind of item. -/
def wxSizerItem.GetWindow : wxSizerItem → Option wxWindow
  | .Item_Window w => some w
  | _ => none

/-- Modelled from the spec: `wxWindow::NewControlId()` is toolkit code outside
the sources at hand. It hands out an id from the range of the automatic ids,
`wxID_AUTO_LOWEST` to `wxID_AUTO_HIGHEST`; which one is the toolkit's choice,
here it is chosen by the address of the window that gets it. -/
def NewControlId (addr : Nat) : Int :=
  wxID_AUTO_LOWEST + (addr : Int) % (wxID_AUTO_HIGHEST - wxID_AUTO_LOWEST + 1)

/-- Modelled from the spec: the construction of a child window,
`new wxButton(this, id, ...)` and the like, is toolkit code outside the
sources at hand. The new window has a fresh address; its `GetId()` is the id
it was given, except that `wxID_ANY` asks the toolkit for an id of its own
choice, which `NewControlId()` generates. -/
def newWindow (addr : Nat) (id : Int) : wxWindow :=
  ⟨addr, if id = wxID_ANY then NewControlId addr else id⟩

/-- Pointer comparison `p == q` of two window pointers. -/
def ptrEq (p q : Option wxWindow) : Bool :=
  p.map (fun w => w.addr) == q.map (fun w => w.addr)

/-- Modelled from the spec: `wxSizer::Detach(wxWindow*)` is toolkit code outside
the sources at hand (the sizer is an external collaborator). It removes the
first item of this very sizer (nested sizers are not searched) whose window is
the given one and tells whether it found one. -/
def wxSizer.Detach : List wxSizerItem → Option wxWindow → List wxSizerItem × Bool
  | [], _ => ([], false)
  | item :: rest, window =>
    if ptrEq item.GetWindow window then (rest, true)
    else
      let r := wxSizer.Detach rest window
      (item :: r.1, r.2)

/-- Modelled from the spec: `wxSizer::Add(wxWindow*, flags)` is toolkit code
outside the sources at hand. It appends a window item to the sizer. -/
def wxSizer.Add (items : List wxSizerItem) (window : wxWindow) : List wxSizerItem :=
  items ++ [.Item_Window window]

/-- The enumeration `wxShowEffect` of `wx/window.h`. -/
inductive wxShowEffect where
  | wxSHOW_EFFECT_NONE
  | wxSHOW_EFFECT_ROLL_TO_LEFT
  | wxSHOW_EFFECT_ROLL_TO_RIGHT
  | wxSHOW_EFFECT_ROLL_TO_TOP
  | wxSHOW_EFFECT_ROLL_TO_BOTTOM
  | wxSHOW_EFFECT_SLIDE_TO_LEFT
  | wxSHOW_EFFECT_SLIDE_TO_RIGHT
  | wxSHOW_EFFECT_SLIDE_TO_TOP
  | wxSHOW_EFFECT_SLIDE_TO_BOTTOM
  | wxSHOW_EFFECT_BLEND
  | wxSHOW_EFFECT_EXPAND
  | wxSHOW_EFFECT_MAX
deriving DecidableEq, Repr

/-- The enumeration `wxInfoBarGeneric::BarPlacement`. -/
inductive BarPlacement where
  | BarPlacement_Top
  | BarPlacement_Bottom
  | BarPlacement_Unknown
deriving DecidableEq, Repr

/-! ## State of a `wxInfoBarGeneric` -/

/-- The members of a `wxInfoBarGeneric` and the toolkit state its member
functions read and write. -/
structure wxInfoBarGeneric where
  /-- address of the bar itself (`this`) -/
  self : Nat
  /-- the bar's own visibility flag (`IsShown()`) -/
  m_isShown : Bool
  m_icon : Option wxWindow
  m_text : Option wxWindow
  m_button : Option wxWindow
  m_checkbox : Option wxWindow
  m_showEffect : wxShowEffect
  m_hideEffect : wxShowEffect
  m_effectDuration : Int
  /-- items of the sizer returned by `GetSizer()`, `none` when the bar has no
  sizer -/
  m_windowSizer : Option (List wxSizerItem)
  /-- items of the nested sizer `defaultControlSizer` built by `Create` -/
  defaultControlSizer : List wxSizerItem
  /-- items of the nested sizer `firstRowSizer` built by `Create` -/
  firstRowSizer : List wxSizerItem
  /-- items of the nested sizer `secondRowSizer` built by `Create` -/
  secondRowSizer : List wxSizerItem
  /-- items of the sizer returned by `GetContainingSizer()`, the sizer of the
  parent that holds the bar, `none` when there is none -/
  m_containingSizer : Option (List wxSizerItem)
  /-- addresses of the child windows that are hidden -/
  hidden : List Nat
  /-- next free address for a newly created window -/
  heapTop : Nat
deriving DecidableEq, Repr

namespace wxInfoBarGeneric

/-- Items of one of the nested sizers. -/
def nested (bar : wxInfoBarGeneric) : NestedSizer → List wxSizerItem
  | .defaultControlSizer => bar.defaultControlSizer
  | .firstRowSizer => bar.firstRowSizer
  | .secondRowSizer => bar.secondRowSizer

/-- The visibility flag `IsShown()` of a child window. -/
def childShown (bar : wxInfoBarGeneric) (w : wxWindow) : Bool :=
  !bar.hidden.contains w.addr

/-- Effect of `w->Hide()` on a child window. -/
def hideChild (bar : wxInfoBarGeneric) (w : wxWindow) : wxInfoBarGeneric :=
  { bar with hidden := w.addr :: bar.hidden }

/-- Effect of `w->Show()` on a child window. -/
def showChild (bar : wxInfoBarGeneric) (w : wxWindow) : wxInfoBarGeneric :=
  { bar with hidden := bar.hidden.filter (fun a => a != w.addr) }

/-- A bar object before its constructor body ran: no sizer, no parent sizer,
every member pointer null. -/
def blank (self heapTop : Nat) : wxInfoBarGeneric :=
  { self := self, m_isShown := true,
    m_icon := none, m_text := none, m_button := none, m_checkbox := none,
    m_showEffect := .wxSHOW_EFFECT_NONE, m_hideEffect := .wxSHOW_EFFECT_NONE,
    m_effectDuration := 0,
    m_windowSizer := none,
    defaultControlSizer := [], firstRowSizer := [], secondRowSizer := [],
    m_containingSizer := none, hidden := [], heapTop := heapTop }

/-- Translation of `wxInfoBarGeneric::Init`. -/
def Init (bar : wxInfoBarGeneric) : wxInfoBarGeneric :=
  { bar with
    m_icon := none, m_text := none, m_button := none,
    m_showEffect := .wxSHOW_EFFECT_MAX, m_hideEffect := .wxSHOW_EFFECT_MAX,
    m_effectDuration := 0 }

/-- Translation of `wxInfoBarGeneric::Create`. The flag `baseCreated` is the
result of `wxWindow::Create(parent, winid)`. The four child windows get fresh
addresses and the ids `newWindow` gives them: the close button is created
with `wxID_CLOSE`, the other three with `wxID_ANY`. A child is shown when
created. The check box has an empty label,
so `defaultControlSizer->Show(m_checkbox, false, true)` hides it. -/
def Create (bar : wxInfoBarGeneric) (baseCreated : Bool) : wxInfoBarGeneric × Bool :=
  let bar := { bar with m_isShown := false }
  if !baseCreated then (bar, false)
  else
    let icon : wxWindow := newWindow bar.heapTop wxID_ANY
    let text : wxWindow := newWindow (bar.heapTop + 1) wxID_ANY
    let button : wxWindow := newWindow (bar.heapTop + 2) wxID_CLOSE
    let checkbox : wxWindow := newWindow (bar.heapTop + 3) wxID_ANY
    let firstRowSizer : List wxSizerItem :=
      wxSizer.Add ((wxSizer.Add (wxSizer.Add [] icon) text) ++ [.Item_Spacer 0]) button
    let secondRowSizer : List wxSizerItem := wxSizer.Add [] checkbox
    let defaultControlSizer : List wxSizerItem :=
      [.Item_Sizer .firstRowSizer, .Item_Sizer .secondRowSizer]
    let sizer : List wxSizerItem := [.Item_Sizer .defaultControlSizer]
    ({ bar with
        m_icon := some icon, m_text := some text, m_button := some button,
        m_checkbox := some checkbox,
        firstRowSizer := firstRowSizer, secondRowSizer := secondRowSizer,
        defaultControlSizer := defaultControlSizer,
        hidden := checkbox.addr :: bar.hidden,
        heapTop := bar.heapTop + 4,
        m_windowSizer := some sizer }, true)

/-- Translation of `wxInfoBarGeneric::AddButton`. `wxCHECK_RET` returns
without doing anything when there is no sizer. `m_button->Hide()` dereferences
the close button. `new wxButton(this, btnid, label)` is a new, shown window
with a fresh address whose `GetId()` is the `btnid` it was given or, for
`wxID_ANY`, an id the toolkit generates (`newWindow`). `sizer->Layout()` only
recomputes geometry. -/
def AddButton (bar : wxInfoBarGeneric) (btnid : Int) : Except Fault wxInfoBarGeneric :=
  match bar.m_windowSizer with
  | none => .ok bar
  | some sizer =>
    let d := wxSizer.Detach sizer bar.m_button
    let detached : Except Fault wxInfoBarGeneric :=
      if d.2 then
        match bar.m_button with
        | none => .error .nullDereference
        | some b => .ok (hideChild { bar with m_windowSizer := some d.1 } b)
      else .ok { bar with m_windowSizer := some d.1 }
    match detached with
    | .error f => .error f
    | .ok bar1 =>
      let button : wxWindow := newWindow bar1.heapTop btnid
      .ok { bar1 with
            m_windowSizer := some (wxSizer.Add d.1 button),
            heapTop := bar1.heapTop + 1 }

/-- The for-loop of `wxInfoBarGeneric::GetButtonCount`. The argument `node`
is the position of the current node, position `0` being `items.GetFirst()`,
where the loop stops. -/
def GetButtonCount.loop (items : List wxSizerItem) (m_button : Option wxWindow) :
    Nat → Nat → Nat
  | 0, count => count
  | node + 1, count =>
    match items[node + 1]? with
    | none => count
    | some item =>
      if item.IsSpacer then count
      else if ptrEq item.GetWindow m_button then 0
      else GetButtonCount.loop items m_button node (count + 1)

/-- Translation of `wxInfoBarGeneric::GetButtonCount`. The loop starts at
`items.GetLast()`; in an empty list this is the null iterator, equal to
`items.GetFirst()`, and the loop body does not run. -/
def GetButtonCount (bar : wxInfoBarGeneric) : Nat :=
  match bar.m_windowSizer with
  | none => 0
  | some items => GetButtonCount.loop items bar.m_button (items.length - 1) 0

/-- What the loop of `wxInfoBarGeneric::GetButtonCount` did: the value it left
in `count` and the positions of the nodes whose item it read with
`node->GetData()`, in the order it read them. -/
structure CountScan where
  count : Nat
  visited : List Nat
deriving DecidableEq, Repr

/-- The for-loop of `wxInfoBarGeneric::GetButtonCount` once more, this time
keeping the positions of the nodes it reads. The arguments are those of
`GetButtonCount.loop`: the position of the current node, where position `0`
is `items.GetFirst()` and ends the loop, and the counter. -/
def GetButtonCount.scan (items : List wxSizerItem) (m_button : Option wxWindow) :
    Nat → Nat → CountScan
  | 0, count => ⟨count, []⟩
  | node + 1, count =>
    match items[node + 1]? with
    | none => ⟨count, []⟩
    | some item =>
      if item.IsSpacer then ⟨count, [node + 1]⟩
      else if ptrEq item.GetWindow m_button then ⟨0, [node + 1]⟩
      else
        let rest := GetButtonCount.scan items m_button node (count + 1)
        ⟨rest.count, (node + 1) :: rest.visited⟩

/-- The body of `wxInfoBarGeneric::GetButtonCount` with the record of the
nodes its loop reads: nothing is read when the bar has no sizer. -/
def GetButtonCount.trace (bar : wxInfoBarGeneric) : CountScan :=
  match bar.m_windowSizer with
  | none => ⟨0, []⟩
  | some items => GetButtonCount.scan items bar.m_button (items.length - 1) 0

/-- The for-loop of `wxInfoBarGeneric::HasButtonId`; `node` as in
`GetButtonCount.loop`. `item->GetWindow()->GetId()` dereferences the window
pointer of the item. -/
def HasButtonId.loop (items : List wxSizerItem) (btnid : Int) : Nat → Except Fault Bool
  | 0 => .ok false
  | node + 1 =>
    match items[node + 1]? with
    | none => .ok false
    | some item =>
      if item.IsSpacer then .ok false
      else
        match item.GetWindow with
        | none => .error .nullDereference
        | some w =>
          if w.m_windowId == btnid then .ok true
          else HasButtonId.loop items btnid node

/-- Translation of `wxInfoBarGeneric::HasButtonId`. -/
def HasButtonId (bar : wxInfoBarGeneric) (btnid : Int) : Except Fault Bool :=
  match bar.m_windowSizer with
  | none => .ok false
  | some items => HasButtonId.loop items btnid (items.length - 1)

/-- What `wxInfoBarGeneric::GetButtonId` did: how the call ended and the
positions of the sizer nodes whose item was read, in the order they were
read. For the loop of the function these are the nodes the loop read; for the
call they are first the nodes read by the `GetButtonCount()` call of its
check and then the nodes read by its loop. -/
structure Scan where
  result : Except Fault Int
  visited : List Nat
deriving DecidableEq, Repr

/-- Record that the node at position `i` was read before the rest of the scan. -/
def Scan.visit (i : Nat) (s : Scan) : Scan :=
  { s with visited := i :: s.visited }

/-- The scan `s` after the nodes `pre` were read. -/
def Scan.after (pre : List Nat) (s : Scan) : Scan :=
  { s with visited := pre ++ s.visited }

/-- The iterator `items.GetFirst()`: null in an empty list. -/
def GetFirst (items : List wxSizerItem) : Option Nat :=
  if items.isEmpty then none else some 0

/-- The iterator `items.GetLast()`: null in an empty list. -/
def GetLast (items : List wxSizerItem) : Option Nat :=
  if items.isEmpty then none else some (items.length - 1)

/-- The iterator `node->GetPrevious()`: null before the first node. -/
def GetPrevious (node : Nat) : Option Nat :=
  if node = 0 then none else some (node - 1)

/-- The iterator `node->GetNext()`: null after the last node. -/
def GetNext (items : List wxSizerItem) (node : Nat) : Option Nat :=
  if node + 1 < items.length then some (node + 1) else none

/-- The for-loop of `wxInfoBarGeneric::GetButtonId`. Its state is the
iterator `node`, the flag `foundSpacer` and the counter `count`; the first
argument bounds the number of iterations. The loop goes on while
`node != items.GetFirst() || node != items.GetLast()`. -/
def GetButtonId.loop (items : List wxSizerItem) (m_button : Option wxWindow) (idx : Nat) :
    Nat → Option Nat → Bool → Nat → Scan
  | 0, _, _, _ => ⟨.error .outOfFuel, []⟩
  | fuel + 1, node, foundSpacer, count =>
    if node != GetFirst items || node != GetLast items then
      match node with
      | none => ⟨.error .nullDereference, []⟩
      | some i =>
        match items[i]? with
        | none => ⟨.error .nullDereference, []⟩
        | some item =>
          let foundSpacer := if item.IsSpacer then true else foundSpacer
          Scan.visit i <|
            if foundSpacer then
              if !item.IsSpacer then
                if count == idx then
                  if !ptrEq item.GetWindow m_button then
                    match item.GetWindow with
                    | none => ⟨.error .nullDereference, []⟩
                    | some w => ⟨.ok w.m_windowId, []⟩
                  else
                    GetButtonId.loop items m_button idx fuel (GetNext items i) foundSpacer (count + 1)
                else
                  GetButtonId.loop items m_button idx fuel (GetNext items i) foundSpacer (count + 1)
              else
                GetButtonId.loop items m_button idx fuel (GetNext items i) foundSpacer count
            else
              GetButtonId.loop items m_button idx fuel (GetPrevious i) foundSpacer count
    else ⟨.ok wxID_NONE, []⟩

/-- Translation of `wxInfoBarGeneric::GetButtonId`. `wxCHECK_MSG` evaluates
`idx < GetButtonCount()` and returns `wxID_NONE` when it fails; the call of
`GetButtonCount()` in this condition reads nodes of the sizer
(`GetButtonCount.trace`), which are the first nodes of the record. The loop
gets a budget of `2 * length + 2` iterations: it walks at most once towards
the front and at most once towards the back. -/
def GetButtonId (bar : wxInfoBarGeneric) (idx : Nat) : Scan :=
  let check := GetButtonCount.trace bar
  if !(idx < check.count) then ⟨.ok wxID_NONE, check.visited⟩
  else
    match bar.m_windowSizer with
    | none => ⟨.ok wxID_NONE, check.visited⟩
    | some items =>
      Scan.after check.visited
        (GetButtonId.loop items bar.m_button idx (2 * items.length + 2) (GetLast items) false 0)

/-- An upper bound on the iterations the loop of `GetButtonId` still makes
from the iterator `node` in a list of `len` items: forwards it reaches the
end of the list, backwards it reaches the front or turns round once. -/
def scanBudget (len : Nat) : Option Nat → Bool → Nat
  | none, _ => 0
  | some i, true => len - i
  | some i, false => i + 1 + len

/-- How the for-loop of `wxInfoBarGeneric::RemoveButton` ended. -/
inductive RemoveScan where
  /-- the loop reached `items.GetFirst()` without finding the button -/
  | finished
  /-- the loop met a spacer: `wxFAIL_MSG` and `return` -/
  | reachedSpacer
  /-- the loop found the button: `delete item->GetWindow()` and `break` -/
  | found (window : wxWindow)
  /-- the loop dereferenced the null window of an item that is not a window -/
  | fault
deriving DecidableEq, Repr

/-- The for-loop of `wxInfoBarGeneric::RemoveButton`; `node` as in
`GetButtonCount.loop`. -/
def RemoveButton.loop (items : List wxSizerItem) (btnid : Int) : Nat → RemoveScan
  | 0 => .finished
  | node + 1 =>
    match items[node + 1]? with
    | none => .finished
    | some item =>
      if item.IsSpacer then .reachedSpacer
      else
        match item.GetWindow with
        | none => .fault
        | some w =>
          if w.m_windowId == btnid then .found w
          else RemoveButton.loop items btnid node

/-- The last statement of `wxInfoBarGeneric::RemoveButton`: when the last item
of the sizer is a spacer, the standard close button is added back and shown.
`GetLast()->GetData()` dereferences the last node, `m_button->Show()` the
button. -/
def RemoveButton.restore (bar : wxInfoBarGeneric) (items : List wxSizerItem) :
    Except Fault wxInfoBarGeneric :=
  match items.getLast? with
  | none => .error .nullDereference
  | some last =>
    if last.IsSpacer then
      match bar.m_button with
      | none => .error .nullDereference
      | some b => .ok (showChild { bar with m_windowSizer := some (wxSizer.Add items b) } b)
    else .ok { bar with m_windowSizer := some items }

/-- Translation of `wxInfoBarGeneric::RemoveButton`. Deleting a window runs
the window's destructor, which detaches the window from the sizer that holds
it (toolkit code, `wxSizer::Detach`). The member `m_button` is left as it is;
it would dangle if the deleted window were the close button itself, which
needs the close button to be an item of the bar's own sizer. -/
def RemoveButton (bar : wxInfoBarGeneric) (btnid : Int) : Except Fault wxInfoBarGeneric :=
  match bar.m_windowSizer with
  | none => .ok bar
  | some items =>
    match RemoveButton.loop items btnid (items.length - 1) with
    | .fault => .error .nullDereference
    | .reachedSpacer => .ok bar
    | .found w =>
      RemoveButton.restore { bar with hidden := bar.hidden.filter (fun a => a != w.addr) }
        (wxSizer.Detach items (some w)).1
    | .finished => RemoveButton.restore bar items

/-- Translation of `wxInfoBarGeneric::GetBarPlacement`. The first and the last
node of the sibling list are dereferenced. -/
def GetBarPlacement (bar : wxInfoBarGeneric) : Except Fault BarPlacement :=
  match bar.m_containingSizer with
  | none => .ok .BarPlacement_Unknown
  | some siblings =>
    match siblings.head? with
    | none => .error .nullDereference
    | some first =>
      if first.GetWindow.map (fun w => w.addr) == some bar.self then .ok .BarPlacement_Top
      else
        match siblings.getLast? with
        | none => .error .nullDereference
        | some last =>
          if last.GetWindow.map (fun w => w.addr) == some bar.self then .ok .BarPlacement_Bottom
          else .ok .BarPlacement_Unknown

/-- Translation of `wxInfoBarGeneric::GetShowEffect`. -/
def GetShowEffect (bar : wxInfoBarGeneric) : Except Fault wxShowEffect :=
  if bar.m_showEffect != .wxSHOW_EFFECT_MAX then .ok bar.m_showEffect
  else
    match bar.GetBarPlacement with
    | .error f => .error f
    | .ok .BarPlacement_Top => .ok .wxSHOW_EFFECT_SLIDE_TO_BOTTOM
    | .ok .BarPlacement_Bottom => .ok .wxSHOW_EFFECT_SLIDE_TO_TOP
    | .ok .BarPlacement_Unknown => .ok .wxSHOW_EFFECT_NONE

/-- Translation of `wxInfoBarGeneric::GetHideEffect`. -/
def GetHideEffect (bar : wxInfoBarGeneric) : Except Fault wxShowEffect :=
  if bar.m_hideEffect != .wxSHOW_EFFECT_MAX then .ok bar.m_hideEffect
  else
    match bar.GetBarPlacement with
    | .error f => .error f
    | .ok .BarPlacement_Top => .ok .wxSHOW_EFFECT_SLIDE_TO_TOP
    | .ok .BarPlacement_Bottom => .ok .wxSHOW_EFFECT_SLIDE_TO_BOTTOM
    | .ok .BarPlacement_Unknown => .ok .wxSHOW_EFFECT_NONE

/-! ### States reached through the public interface -/

/-- A bar whose constructor ran: the default constructor calls `Init()`. -/
def constructed (self heapTop : Nat) : wxInfoBarGeneric :=
  Init (blank self heapTop)

/-- A bar after a successful `Create()`. -/
def created (self heapTop : Nat) : wxInfoBarGeneric :=
  (Create (constructed self heapTop) true).1

/-- The window has the id that a call `AddButton(btnid)` gives its button:
`btnid` itself, or one of the automatic ids when `btnid` is `wxID_ANY`. -/
def idAsGiven (w : wxWindow) (btnid : Int) : Prop :=
  if btnid = wxID_ANY then wxID_AUTO_LOWEST ≤ w.m_windowId ∧ w.m_windowId ≤ wxID_AUTO_HIGHEST
  else w.m_windowId = btnid

/-- The calls `AddButton(i_0)`, ..., `AddButton(i_{n-1})` in this order. -/
def addButtons (bar : wxInfoBarGeneric) : List Int → Except Fault wxInfoBarGeneric
  | [] => .ok bar
  | btnid :: rest =>
    match bar.AddButton btnid with
    | .error f => .error f
    | .ok bar1 => addButtons bar1 rest

/-- States reached by `Create()` followed by calls of `AddButton` and
`RemoveButton` that returned. -/
inductive Reachable : wxInfoBarGeneric → Prop where
  | create (self heapTop : Nat) : Reachable (created self heapTop)
  | addButton {bar bar1 : wxInfoBarGeneric} (btnid : Int) :
      Reachable bar → bar.AddButton btnid = .ok bar1 → Reachable bar1
  | removeButton {bar bar1 : wxInfoBarGeneric} (btnid : Int) :
      Reachable bar → bar.RemoveButton btnid = .ok bar1 → Reachable bar1

/-- Whether the window `w` is an item of the sizer `items` or, going at most
`depth` levels down, of a sizer nested in it. -/
def holds (bar : wxInfoBarGeneric) (w : wxWindow) : Nat → List wxSizerItem → Bool
  | 0, items =>
    items.any fun item =>
      match item with
      | .Item_Window v => v.addr == w.addr
      | _ => false
  | depth + 1, items =>
    items.any fun item =>
      match item with
      | .Item_Window v => v.addr == w.addr
      | .Item_Spacer _ => false
      | .Item_Sizer s => holds bar w depth (bar.nested s)

/-- Whether the window `w` is part of the bar's layout: it is held by the
bar's sizer or by a sizer nested in it (there are three nested sizers, so
three levels reach all of them). -/
def inLayout (bar : wxInfoBarGeneric) (w : wxWindow) : Bool :=
  match bar.m_windowSizer with
  | none => false
  | some items => holds bar w 3 items

/-- The items of the bar's sizer in a reached state: the nested sizer that
`Create` put there, followed by the buttons added since, oldest first. -/
def layout (buttons : List wxWindow) : List wxSizerItem :=
  .Item_Sizer .defaultControlSizer :: buttons.map .Item_Window

/-- The shape of a reached state: the bar's sizer holds the nested sizer and
the added `buttons`; the close button `closeButton` is held by the nested
first row, is shown and is older than every added button; addresses grow with
the time of creation. -/
structure Shape (bar : wxInfoBarGeneric) (closeButton : wxWindow) (buttons : List wxWindow) :
    Prop where
  sizer : bar.m_windowSizer = some (layout buttons)
  button : bar.m_button = some closeButton
  outer : bar.defaultControlSizer = [.Item_Sizer .firstRowSizer, .Item_Sizer .secondRowSizer]
  row : wxSizerItem.Item_Window closeButton ∈ bar.firstRowSizer
  shown : closeButton.addr ∉ bar.hidden
  allocated : closeButton.addr < bar.heapTop
  older : ∀ w ∈ buttons, closeButton.addr < w.addr
  fresh : ∀ w ∈ buttons, w.addr < bar.heapTop
  sorted : buttons.Pairwise fun a b => a.addr < b.addr

/-- The placement-dependent default of `GetShowEffect`, as the switch of the
function gives it. -/
def defaultShowEffect : BarPlacement → wxShowEffect
  | .BarPlacement_Top => .wxSHOW_EFFECT_SLIDE_TO_BOTTOM
  | .BarPlacement_Bottom => .wxSHOW_EFFECT_SLIDE_TO_TOP
  | .BarPlacement_Unknown => .wxSHOW_EFFECT_NONE

/-- The placement-dependent default of `GetHideEffect`, as the switch of the
function gives it. -/
def defaultHideEffect : BarPlacement → wxShowEffect
  | .BarPlacement_Top => .wxSHOW_EFFECT_SLIDE_TO_TOP
  | .BarPlacement_Bottom => .wxSHOW_EFFECT_SLIDE_TO_BOTTOM
  | .BarPlacement_Unknown => .wxSHOW_EFFECT_NONE

end wxInfoBarGeneric

/-- The reverse of a show effect: the same kind of effect in the opposite
direction; an effect without a direction is its own reverse. -/
def reverseEffect : wxShowEffect → wxShowEffect
  | .wxSHOW_EFFECT_ROLL_TO_LEFT => .wxSHOW_EFFECT_ROLL_TO_RIGHT
  | .wxSHOW_EFFECT_ROLL_TO_RIGHT => .wxSHOW_EFFECT_ROLL_TO_LEFT
  | .wxSHOW_EFFECT_ROLL_TO_TOP => .wxSHOW_EFFECT_ROLL_TO_BOTTOM
  | .wxSHOW_EFFECT_ROLL_TO_BOTTOM => .wxSHOW_EFFECT_ROLL_TO_TOP
  | .wxSHOW_EFFECT_SLIDE_TO_LEFT => .wxSHOW_EFFECT_SLIDE_TO_RIGHT
  | .wxSHOW_EFFECT_SLIDE_TO_RIGHT => .wxSHOW_EFFECT_SLIDE_TO_LEFT
  | .wxSHOW_EFFECT_SLIDE_TO_TOP => .wxSHOW_EFFECT_SLIDE_TO_BOTTOM
  | .wxSHOW_EFFECT_SLIDE_TO_BOTTOM => .wxSHOW_EFFECT_SLIDE_TO_TOP
  | e => e

/-! ## Events of the splitter and of the sash window -/

/-- The event types the two event classes deal with. In the toolkit an event
type is a number handed out at start-up, a different one for each event type;
`other` stands for the event types not named here. -/
inductive wxEventType where
  | wxEVT_NULL
  | wxEVT_SPLITTER_SASH_POS_CHANGED
  | wxEVT_SPLITTER_SASH_POS_CHANGING
  | wxEVT_SPLITTER_SASH_POS_RESIZE
  | wxEVT_SPLITTER_DOUBLECLICKED
  | wxEVT_SPLITTER_UNSPLIT
  | wxEVT_SASH_DRAGGED
  | other (tag : Nat)
deriving DecidableEq, Repr

/-- The outcome of an accessor call: the values of the conditions the call
handed to `wxASSERT`, in order, and what the call computed. In a debug build
a condition that is false raises an assertion failure; in a release build the
conditions are not evaluated, and the value is the same. -/
structure Checked (α : Type) where
  assertions : List Bool
  value : α
deriving DecidableEq, Repr

/-- Whether the call raised an assertion failure in a debug build. -/
def Checked.failed {α : Type} (c : Checked α) : Bool :=
  c.assertions.any fun b => !b

/-- The call evaluates exactly one assertion, and the assertion holds exactly
when `p` does. -/
def Checked.guardedBy {α : Type} (c : Checked α) (p : Prop) : Prop :=
  c.assertions.length = 1 ∧ (c.failed = false ↔ p)

/-- The members of a `wxSplitterEvent`. The union `m_data` is kept as its
storage, the three ints of `m_data.resize`. The struct `m_data.pt` begins
with the same two ints as `m_data.resize`, so `m_data.pt.x` is the int
`m_data.resize.pos` and `m_data.pt.y` is the int `m_data.resize.oldSize`
under another name. The pointer `m_data.win` lies in the same storage; how
the bits of a pointer relate to the ints depends on the memory layout of the
platform, which the model does not represent: `win` is a field of its own,
and the model says nothing on reading the pointer after an int was written or
an int after the pointer was written. -/
structure wxSplitterEvent where
  m_eventType : wxEventType
  m_id : Int
  /-- `m_data.resize.pos`, which is also `m_data.pt.x` -/
  resize_pos : Int
  /-- `m_data.resize.oldSize`, which is also `m_data.pt.y` -/
  resize_oldSize : Int
  /-- `m_data.resize.newSize` -/
  resize_newSize : Int
  /-- `m_data.win`, the address of a window -/
  win : Option Nat
deriving DecidableEq, Repr

namespace wxSplitterEvent

/-- The condition asserted by `SetSashPosition` and `GetSashPosition`. -/
def isSashPosType (t : wxEventType) : Bool :=
  t == .wxEVT_SPLITTER_SASH_POS_CHANGED
    || t == .wxEVT_SPLITTER_SASH_POS_CHANGING
    || t == .wxEVT_SPLITTER_SASH_POS_RESIZE

/-- Translation of `wxSplitterEvent::SetSashPosition`. -/
def SetSashPosition (e : wxSplitterEvent) (pos : Int) : Checked wxSplitterEvent :=
  ⟨[isSashPosType e.m_eventType], { e with resize_pos := pos }⟩

/-- Translation of `wxSplitterEvent::GetSashPosition`. -/
def GetSashPosition (e : wxSplitterEvent) : Checked Int :=
  ⟨[isSashPosType e.m_eventType], e.resize_pos⟩

/-- Translation of `wxSplitterEvent::SetSize`. -/
def SetSize (e : wxSplitterEvent) (oldSize newSize : Int) : Checked wxSplitterEvent :=
  ⟨[e.m_eventType == .wxEVT_SPLITTER_SASH_POS_RESIZE],
    { e with resize_oldSize := oldSize, resize_newSize := newSize }⟩

/-- Translation of `wxSplitterEvent::GetOldSize`. -/
def GetOldSize (e : wxSplitterEvent) : Checked Int :=
  ⟨[e.m_eventType == .wxEVT_SPLITTER_SASH_POS_RESIZE], e.resize_oldSize⟩

/-- Translation of `wxSplitterEvent::GetNewSize`. -/
def GetNewSize (e : wxSplitterEvent) : Checked Int :=
  ⟨[e.m_eventType == .wxEVT_SPLITTER_SASH_POS_RESIZE], e.resize_newSize⟩

/-- Translation of `wxSplitterEvent::GetWindowBeingRemoved`. -/
def GetWindowBeingRemoved (e : wxSplitterEvent) : Checked (Option Nat) :=
  ⟨[e.m_eventType == .wxEVT_SPLITTER_UNSPLIT], e.win⟩

/-- Translation of `wxSplitterEvent::GetX`: `m_data.pt.x` is the first int of
the union. -/
def GetX (e : wxSplitterEvent) : Checked Int :=
  ⟨[e.m_eventType == .wxEVT_SPLITTER_DOUBLECLICKED], e.resize_pos⟩

/-- Translation of `wxSplitterEvent::GetY`: `m_data.pt.y` is the second int of
the union. -/
def GetY (e : wxSplitterEvent) : Checked Int :=
  ⟨[e.m_eventType == .wxEVT_SPLITTER_DOUBLECLICKED], e.resize_oldSize⟩

end wxSplitterEvent

/-- The enumeration `wxSashEdgePosition`. -/
inductive wxSashEdgePosition where
  | wxSASH_TOP
  | wxSASH_RIGHT
  | wxSASH_BOTTOM
  | wxSASH_LEFT
  | wxSASH_NONE
deriving DecidableEq, Repr

/-- The enumeration `wxSashDragStatus`. -/
inductive wxSashDragStatus where
  | wxSASH_STATUS_OK
  | wxSASH_STATUS_OUT_OF_RANGE
deriving DecidableEq, Repr

/-- A `wxRect`: position and size. -/
structure wxRect where
  x : Int
  y : Int
  width : Int
  height : Int
deriving DecidableEq, Repr

/-- The members of a `wxSashEvent`. -/
structure wxSashEvent where
  m_eventType : wxEventType
  m_id : Int
  m_edge : wxSashEdgePosition
  m_dragRect : wxRect
  m_dragStatus : wxSashDragStatus
deriving DecidableEq, Repr

namespace wxSashEvent

/-- Translation of the constructor `wxSashEvent(id, edge)`; the rectangle is
default-constructed. -/
def ctor (id : Int) (edge : wxSashEdgePosition) : wxSashEvent :=
  { m_eventType := .wxEVT_SASH_DRAGGED, m_id := id, m_edge := edge,
    m_dragRect := ⟨0, 0, 0, 0⟩, m_dragStatus := .wxSASH_STATUS_OK }

/-- The member function `SetEventType` every event inherits from `wxEvent`. -/
def SetEventType (e : wxSashEvent) (t : wxEventType) : wxSashEvent :=
  { e with m_eventType := t }

/-- Translation of `wxSashEvent::SetDragRect`: its body is the assignment
alone. -/
def SetDragRect (e : wxSashEvent) (rect : wxRect) : Checked wxSashEvent :=
  ⟨[], { e with m_dragRect := rect }⟩

/-- Translation of `wxSashEvent::GetDragRect`: its body is the return
statement alone. -/
def GetDragRect (e : wxSashEvent) : Checked wxRect :=
  ⟨[], e.m_dragRect⟩

end wxSashEvent

/-- A `wxString`, as the list of its characters. -/
abbrev wxString := List Char

/-- A `wxSize`. -/
structure wxSize where
  x : Int
  y : Int
deriving DecidableEq, Repr

/-- A `wxPoint`. -/
structure wxPoint where
  x : Int
  y : Int
deriving DecidableEq, Repr

/-! ## The splitter window -/

/-- The enumeration `wxSplitMode`. -/
inductive wxSplitMode where
  | wxSPLIT_HORIZONTAL
  | wxSPLIT_VERTICAL
deriving DecidableEq, Repr

/-- The members of a `wxSplitterWindow` that the functions below read and
write, and the geometry the toolkit supplies: the client size of the window,
the size of the sash and of the border. Windows are named by their
addresses. -/
structure wxSplitterWindow where
  m_windowId : Int
  m_splitMode : wxSplitMode
  m_windowOne : Option Nat
  m_windowTwo : Option Nat
  m_dragMode : Nat
  m_sashPosition : Int
  m_requestedSashPosition : Int
  m_ptStart : wxPoint
  m_sashStart : Int
  m_minimumPaneSize : Int
  m_permitUnsplitAlways : Bool
  clientWidth : Int
  clientHeight : Int
  sashSize : Int
  borderSize : Int
deriving DecidableEq, Repr

namespace wxSplitterWindow

/-- Translation of `wxSplitterWindow::GetWindow1`. -/
def GetWindow1 (w : wxSplitterWindow) : Option Nat := w.m_windowOne

/-- Translation of `wxSplitterWindow::GetWindow2`. -/
def GetWindow2 (w : wxSplitterWindow) : Option Nat := w.m_windowTwo

/-- Translation of `wxSplitterWindow::GetSplitMode`. -/
def GetSplitMode (w : wxSplitterWindow) : wxSplitMode := w.m_splitMode

/-- Translation of `wxSplitterWindow::IsSplit`: `m_windowTwo != nullptr`. -/
def IsSplit (w : wxSplitterWindow) : Bool := w.m_windowTwo != none

/-- Translation of `wxSplitterWindow::GetSashPosition`. -/
def GetSashPosition (w : wxSplitterWindow) : Int := w.m_sashPosition

/-- Translation of `wxSplitterWindow::GetMinimumPaneSize`. -/
def GetMinimumPaneSize (w : wxSplitterWindow) : Int := w.m_minimumPaneSize

/-- A call of `wxSplitterWindow::SashHitTest(int x, int y)`: the declaration
has two parameters and no tolerance; the body is not part of the header and
is the parameter `body`. -/
def SashHitTest (body : wxSplitterWindow → Int → Int → Bool) (w : wxSplitterWindow)
    (x y : Int) : Bool :=
  body w x y

/-- The drag mode `wxSPLIT_DRAG_NONE`. -/
def wxSPLIT_DRAG_NONE : Nat := 0

/-- The drag mode `wxSPLIT_DRAG_DRAGGING`. -/
def wxSPLIT_DRAG_DRAGGING : Nat := 1

/-- The drag mode `wxSPLIT_DRAG_LEFT_DOWN`. -/
def wxSPLIT_DRAG_LEFT_DOWN : Nat := 2

/-- Modelled from the spec: `wxSplitterWindow::GetWindowSize`, declared in
the header without a body: the width or the height of the window, depending
on the split mode. -/
def GetWindowSize (w : wxSplitterWindow) : Int :=
  if w.m_splitMode = .wxSPLIT_VERTICAL then w.clientWidth else w.clientHeight

/-- Modelled from the spec: `wxSplitterWindow::AdjustSashPosition`, declared
in the header without a body: the sash position adjusted with respect to the
minimum pane size and the window size. The first pane keeps the minimum pane
size (and the border); the second pane keeps it too, when the window is large
enough for that. -/
def AdjustSashPosition (w : wxSplitterWindow) (sashPos : Int) : Int :=
  let low :=
    if w.m_windowOne != none && decide (sashPos < w.m_minimumPaneSize + w.borderSize) then
      w.m_minimumPaneSize + w.borderSize
    else sashPos
  let maxSize := w.GetWindowSize - w.m_minimumPaneSize - w.borderSize - w.sashSize
  if w.m_windowTwo != none && decide (0 < maxSize) && decide (maxSize < low)
      && decide (w.m_minimumPaneSize ≤ maxSize) then maxSize
  else low

/-- Modelled from the spec: `wxSplitterWindow::DoSetSashPosition`, declared in
the header without a body: the real sash position is set; the result tells
whether the sash position has been changed. -/
def DoSetSashPosition (w : wxSplitterWindow) (sashPos : Int) : wxSplitterWindow × Bool :=
  let newSashPosition := w.AdjustSashPosition sashPos
  if newSashPosition = w.m_sashPosition then (w, false)
  else ({ w with m_sashPosition := newSashPosition }, true)

/-- Translation of the constructor `wxSplitterEvent(type, splitter)`: the id
is the id of the splitter, `oldSize` and `newSize` are set to 0. The position
is not initialised by the constructor; the model has `garbage` there. -/
def newEvent (w : wxSplitterWindow) (type : wxEventType) (garbage : Int) : wxSplitterEvent :=
  { m_eventType := type, m_id := w.m_windowId, resize_pos := garbage,
    resize_oldSize := 0, resize_newSize := 0, win := none }

/-- Modelled from the spec: `wxSplitterWindow::SetSashPositionAndNotify`,
declared in the header without a body: the sash position is set and an event
about it having been changed is sent. The event is a `wxSplitterEvent` of the
type `wxEVT_SPLITTER_SASH_POS_CHANGED`; the datum the event class has for the
events of this type is the position, which is the new sash position. The
result is the window and the events sent. -/
def SetSashPositionAndNotify (w : wxSplitterWindow) (sashPos : Int) (garbage : Int) :
    wxSplitterWindow × List wxSplitterEvent :=
  let w1 := (w.DoSetSashPosition sashPos).1
  (w1, [{ w1.newEvent .wxEVT_SPLITTER_SASH_POS_CHANGED garbage with
          resize_pos := w1.m_sashPosition }])

/-- Modelled from the spec: `wxSplitterWindow::Unsplit(toRemove)`, declared in
the header without a body: the given window, or the second one when none is
given, is removed from the view. The result tells whether a window was
removed; the events sent are the unsplit notification for the removed
window. -/
def Unsplit (w : wxSplitterWindow) (toRemove : Option Nat) (garbage : Int) :
    wxSplitterWindow × Bool × List wxSplitterEvent :=
  if w.m_windowTwo = none then (w, false, [])
  else if toRemove = none ∨ toRemove = w.m_windowTwo then
    ({ w with m_windowTwo := none }, true,
      [{ w.newEvent .wxEVT_SPLITTER_UNSPLIT garbage with win := w.m_windowTwo }])
  else if toRemove = w.m_windowOne then
    ({ w with m_windowOne := w.m_windowTwo, m_windowTwo := none }, true,
      [{ w.newEvent .wxEVT_SPLITTER_UNSPLIT garbage with win := w.m_windowOne }])
  else (w, false, [])

/-- Modelled from the spec: a pointer press on the sash arms the drag; the
mouse position and the sash position at the start are recorded. -/
def press (w : wxSplitterWindow) (pt : wxPoint) : wxSplitterWindow :=
  { w with m_dragMode := wxSPLIT_DRAG_DRAGGING, m_ptStart := pt,
           m_sashStart := w.m_sashPosition }

/-- Modelled from the spec: losing the mouse capture cancels the drag; the
window goes back to idle and nothing else changes. -/
def captureLost (w : wxSplitterWindow) : wxSplitterWindow :=
  { w with m_dragMode := wxSPLIT_DRAG_NONE }

/-- Modelled from the spec: the pointer release that ends a drag commits it.
The sash moves by the distance the pointer moved along the split axis. When
unsplitting is permitted and the minimum pane size is zero, a sash dragged to
an edge removes the pane that shrank to nothing and an unsplit notification
is sent; otherwise the position is clamped, committed and a
sash-position-changed notification is sent. Without a drag in progress
nothing happens. -/
def release (w : wxSplitterWindow) (pt : wxPoint) (garbage : Int) :
    wxSplitterWindow × List wxSplitterEvent :=
  if w.m_dragMode ≠ wxSPLIT_DRAG_DRAGGING then (w, [])
  else
    let idle := { w with m_dragMode := wxSPLIT_DRAG_NONE }
    let diff :=
      if w.m_splitMode = .wxSPLIT_VERTICAL then pt.x - w.m_ptStart.x else pt.y - w.m_ptStart.y
    let posSashNew := w.m_sashStart + diff
    if w.m_permitUnsplitAlways ∧ w.m_minimumPaneSize = 0 ∧ posSashNew ≤ 0 then
      let r := idle.Unsplit idle.m_windowOne garbage
      (r.1, r.2.2)
    else if w.m_permitUnsplitAlways ∧ w.m_minimumPaneSize = 0
        ∧ idle.GetWindowSize - idle.sashSize ≤ posSashNew then
      let r := idle.Unsplit idle.m_windowTwo garbage
      (r.1, r.2.2)
    else idle.SetSashPositionAndNotify posSashNew garbage

/-- The splitter of the drag scenario: split vertically, 800 wide, with the
minimum pane size 50 and the sash at 200. -/
def scenario : wxSplitterWindow :=
  { m_windowId := 1, m_splitMode := .wxSPLIT_VERTICAL, m_windowOne := some 10,
    m_windowTwo := some 11, m_dragMode := wxSPLIT_DRAG_NONE, m_sashPosition := 200,
    m_requestedSashPosition := 0, m_ptStart := ⟨0, 0⟩, m_sashStart := 0,
    m_minimumPaneSize := 50, m_permitUnsplitAlways := false,
    clientWidth := 800, clientHeight := 600, sashSize := 5, borderSize := 0 }

end wxSplitterWindow

/-! ## The sash window -/

/-- The class `wxSashEdge`: one of the four edges of a sash window. -/
structure wxSashEdge where
  m_show : Bool
  m_margin : Int
deriving DecidableEq, Repr

/-- The value of an enumerator of `wxSashEdgePosition`. -/
def wxSashEdgePosition.value : wxSashEdgePosition → Nat
  | .wxSASH_TOP => 0
  | .wxSASH_RIGHT => 1
  | .wxSASH_BOTTOM => 2
  | .wxSASH_LEFT => 3
  | .wxSASH_NONE => 100

/-- The members of a `wxSashWindow` that its inline accessors read. The
member `m_sashes` is an array of four edges. -/
structure wxSashWindow where
  m_sashes : Fin 4 → wxSashEdge
  m_borderSize : Int
  m_extraBorderSize : Int
  m_minimumPaneSizeX : Int
  m_minimumPaneSizeY : Int
  m_maximumPaneSizeX : Int
  m_maximumPaneSizeY : Int

namespace wxSashWindow

/-- Translation of `wxSashWindow::GetSashVisible`: `m_sashes[edge].m_show`.
The array is indexed with the value of the enumerator; for `wxSASH_NONE`, the
value 100, the element lies outside the array and the read has no defined
result (`none`). -/
def GetSashVisible (w : wxSashWindow) (edge : wxSashEdgePosition) : Option Bool :=
  if h : edge.value < 4 then some (w.m_sashes ⟨edge.value, h⟩).m_show else none

/-- Translation of `wxSashWindow::GetEdgeMargin`: `m_sashes[edge].m_margin`,
with the array indexed as in `GetSashVisible`. -/
def GetEdgeMargin (w : wxSashWindow) (edge : wxSashEdgePosition) : Option Int :=
  if h : edge.value < 4 then some (w.m_sashes ⟨edge.value, h⟩).m_margin else none

/-- The default argument of the parameter `tolerance` in the declaration
`SashHitTest(int x, int y, int tolerance = 2)`. -/
def SashHitTest.tolerance : Int := 2

/-- A call of `wxSashWindow::SashHitTest`. The body of the function is not
part of the header and is the parameter `body`. The third argument may be
left out at the call (`none`); the compiler then passes the default of the
declaration. -/
def SashHitTest (body : wxSashWindow → Int → Int → Int → wxSashEdgePosition)
    (w : wxSashWindow) (x y : Int) (tolerance : Option Int) : wxSashEdgePosition :=
  match tolerance with
  | some t => body w x y t
  | none => body w x y SashHitTest.tolerance

end wxSashWindow

/-! ## The pane manager -/

/-- The enumeration `wxAuiManagerDock`. -/
inductive wxAuiManagerDock where
  | wxAUI_DOCK_NONE
  | wxAUI_DOCK_TOP
  | wxAUI_DOCK_RIGHT
  | wxAUI_DOCK_BOTTOM
  | wxAUI_DOCK_LEFT
  | wxAUI_DOCK_CENTER
deriving DecidableEq, Repr

namespace wxAuiManagerDock

/-- The enumerator `wxAUI_DOCK_CENTRE = wxAUI_DOCK_CENTER`. -/
def wxAUI_DOCK_CENTRE : wxAuiManagerDock := wxAUI_DOCK_CENTER

/-- The value of an enumerator, as the declaration of the enumeration gives
it. -/
def value : wxAuiManagerDock → Int
  | wxAUI_DOCK_NONE => 0
  | wxAUI_DOCK_TOP => 1
  | wxAUI_DOCK_RIGHT => 2
  | wxAUI_DOCK_BOTTOM => 3
  | wxAUI_DOCK_LEFT => 4
  | wxAUI_DOCK_CENTER => 5

/-- All enumerators of the enumeration, by their distinct values. -/
def all : List wxAuiManagerDock :=
  [wxAUI_DOCK_NONE, wxAUI_DOCK_TOP, wxAUI_DOCK_RIGHT, wxAUI_DOCK_BOTTOM, wxAUI_DOCK_LEFT,
    wxAUI_DOCK_CENTER]

end wxAuiManagerDock

/-- The data members of a `wxAuiPaneInfo`, as the class declares them (the
icon, a bitmap, is left out). Windows and frames are named by their
addresses. -/
structure wxAuiPaneInfo where
  /-- name of the pane -/
  name : wxString
  /-- caption displayed on the window -/
  caption : wxString
  /-- window that is in this pane -/
  window : Option Nat
  /-- floating frame window that holds the pane -/
  frame : Option Nat
  /-- a combination of `wxPaneState` values -/
  state : Nat
  /-- dock direction (top, bottom, left, right, center) -/
  dock_direction : Int
  /-- layer number (0 = innermost layer) -/
  dock_layer : Int
  /-- row number on the docking bar (0 = first row) -/
  dock_row : Int
  /-- position inside the row (0 = first position) -/
  dock_pos : Int
  /-- size that the layout engine will prefer -/
  best_size : wxSize
  /-- minimum size the pane window can tolerate -/
  min_size : wxSize
  /-- maximum size the pane window can tolerate -/
  max_size : wxSize
  /-- position while floating -/
  floating_pos : wxPoint
  /-- size while floating -/
  floating_size : wxSize
  /-- proportion while docked -/
  dock_proportion : Int
  /-- current rectangle (populated by wxAUI) -/
  rect : wxRect
deriving DecidableEq, Repr

namespace wxAuiPaneInfo

/-- Modelled from the spec: the constructor `wxAuiPaneInfo()`, whose body is
not part of the interface header. A new pane info has no window and no frame,
an empty name, no flag set and no size given (a size that is not given is
`(-1, -1)`, the toolkit's default size). -/
def ctor : wxAuiPaneInfo :=
  { name := [], caption := [], window := none, frame := none, state := 0,
    dock_direction := wxAuiManagerDock.wxAUI_DOCK_LEFT.value,
    dock_layer := 0, dock_row := 0, dock_pos := 0,
    best_size := ⟨-1, -1⟩, min_size := ⟨-1, -1⟩, max_size := ⟨-1, -1⟩,
    floating_pos := ⟨-1, -1⟩, floating_size := ⟨-1, -1⟩,
    dock_proportion := 0, rect := ⟨0, 0, 0, 0⟩ }

/-- Modelled from the spec: `wxAuiPaneInfo::IsOk`, whose body is not part of
the interface header. Its documentation: the structure is valid if it has an
associated window. -/
def IsOk (p : wxAuiPaneInfo) : Bool := p.window != none

/-- Modelled from the spec: `wxAuiPaneInfo::SafeSet(source)`, whose body is
not part of the interface header. Its documentation: the safe parts of
`source`, all elements that are not pointers to the window or the frame, are
written into this pane info; the pointers are not modified. -/
def SafeSet (p source : wxAuiPaneInfo) : wxAuiPaneInfo :=
  { source with window := p.window, frame := p.frame }

/-- The layout fields of a pane info: direction, layer, row, position, the
sizes (best, minimum, maximum, floating position and size, proportion) and
the state flags, which hold the docked or floating state. -/
structure Layout where
  state : Nat
  dock_direction : Int
  dock_layer : Int
  dock_row : Int
  dock_pos : Int
  best_size : wxSize
  min_size : wxSize
  max_size : wxSize
  floating_pos : wxPoint
  floating_size : wxSize
  dock_proportion : Int
deriving DecidableEq, Repr

/-- The layout fields of a pane info. -/
def layoutFields (p : wxAuiPaneInfo) : Layout :=
  { state := p.state, dock_direction := p.dock_direction, dock_layer := p.dock_layer,
    dock_row := p.dock_row, dock_pos := p.dock_pos, best_size := p.best_size,
    min_size := p.min_size, max_size := p.max_size, floating_pos := p.floating_pos,
    floating_size := p.floating_size, dock_proportion := p.dock_proportion }

end wxAuiPaneInfo

/-- The sentinel `wxAuiNullPaneInfo` that a failed lookup returns: a pane
info as the constructor leaves it, without a window. -/
def wxAuiNullPaneInfo : wxAuiPaneInfo := wxAuiPaneInfo.ctor

/-- A fraction `num / den` of a length, as the dock size constraint uses
it. -/
structure Fraction where
  num : Nat
  den : Nat
deriving DecidableEq, Repr

/-- The state of a `wxAuiManager`: the panes it manages, in the order they
were added, and the dock size constraint (fractions of the width and of the
height of the managed window). -/
structure wxAuiManager where
  m_panes : List wxAuiPaneInfo
  m_dockConstraintX : Fraction
  m_dockConstraintY : Fraction
deriving DecidableEq, Repr

namespace wxAuiManager

/-- Modelled from the spec: the constructor `wxAuiManager()`, whose body is
not part of the interface header. The manager starts without panes; the dock
size constraint is 1/3 by default. -/
def ctor : wxAuiManager :=
  { m_panes := [], m_dockConstraintX := ⟨1, 3⟩, m_dockConstraintY := ⟨1, 3⟩ }

/-- Translation of `wxAuiManager::GetAllPanes`. -/
def GetAllPanes (mgr : wxAuiManager) : List wxAuiPaneInfo := mgr.m_panes

/-- Modelled from the spec: `wxAuiManager::GetPane(wxWindow*)`, whose body is
not part of the interface header. The pane of the window is looked up; a
failed lookup returns the sentinel, it does not fail. -/
def GetPane (mgr : wxAuiManager) (window : Option Nat) : wxAuiPaneInfo :=
  match mgr.m_panes.find? (fun p => p.window == window) with
  | some p => p
  | none => wxAuiNullPaneInfo

/-- Modelled from the spec: `wxAuiManager::GetPane(const wxString&)`, whose
body is not part of the interface header. The pane of the name is looked up;
a failed lookup returns the sentinel, it does not fail. -/
def GetPaneNamed (mgr : wxAuiManager) (name : wxString) : wxAuiPaneInfo :=
  match mgr.m_panes.find? (fun p => p.name == name) with
  | some p => p
  | none => wxAuiNullPaneInfo

/-- The length of the longest of the names. -/
def longest : List wxString → Nat
  | [] => 0
  | n :: rest => max n.length (longest rest)

/-- Modelled from the spec: the name generated for a pane that is added
without one. The spec asks for a unique name; the model takes a name longer
than every name in use. -/
def generatedName (names : List wxString) : wxString :=
  List.replicate (longest names + 1) 'p'

/-- Modelled from the spec: `wxAuiManager::AddPane(window, pane_info)`, whose
body is not part of the interface header. A null window and a window that is
already managed are rejected: the call returns false and changes nothing.
Otherwise the pane info is added with the window as its window; a pane with
an empty name, or with the name of a pane already there, gets a generated
unique name. -/
def AddPane (mgr : wxAuiManager) (window : Option Nat) (pane_info : wxAuiPaneInfo) :
    wxAuiManager × Bool :=
  match window with
  | none => (mgr, false)
  | some w =>
    if (mgr.GetPane (some w)).IsOk then (mgr, false)
    else
      let names := mgr.m_panes.map fun p => p.name
      let name :=
        if pane_info.name.isEmpty || names.contains pane_info.name then generatedName names
        else pane_info.name
      ({ mgr with m_panes := mgr.m_panes ++ [{ pane_info with window := some w, name := name }] },
        true)

/-! ### The perspective codec

Modelled from the spec. `SavePerspective` and `LoadPerspective` are declared
in the interface header; their bodies are not part of the sources. The spec
describes the format: one record for each pane (and one for the dock size
constraint), each field a `key=value` pair, the fields of a record separated
by a reserved separator, the records by another one, and the reserved
characters escaped inside the values. The model takes `;` between fields,
`|` after each record and a backslash as the escape, and the field names of
the toolkit's perspective strings. -/

/-- A token of a perspective string: a character that stands for itself (it
was escaped if it is reserved), or one of the reserved separators. -/
inductive Tok where
  | lit (c : Char)
  | bar
  | semi
  | eq
deriving DecidableEq, Repr

/-- The reserved characters: the escape character and the three
separators. -/
def isReserved (c : Char) : Bool :=
  c == '\\' || c == '|' || c == ';' || c == '='

/-- The characters that write a token: a reserved character that stands for
itself is preceded by the escape character. -/
def Tok.render : Tok → wxString
  | .lit c => if isReserved c then ['\\', c] else [c]
  | .bar => ['|']
  | .semi => [';']
  | .eq => ['=']

/-- The string that writes a list of tokens. -/
def render : List Tok → wxString
  | [] => []
  | t :: ts => t.render ++ render ts

/-- Reading a string as tokens; the flag tells that the character before was
an escape character. An escape character at the very end stands for
itself. -/
def tokenize.go : Bool → wxString → List Tok
  | true, [] => [.lit '\\']
  | false, [] => []
  | true, c :: rest => .lit c :: tokenize.go false rest
  | false, c :: rest =>
    if c = '\\' then tokenize.go true rest
    else if c = '|' then .bar :: tokenize.go false rest
    else if c = ';' then .semi :: tokenize.go false rest
    else if c = '=' then .eq :: tokenize.go false rest
    else .lit c :: tokenize.go false rest

/-- Reading a string as tokens. -/
def tokenize (s : wxString) : List Tok := tokenize.go false s

/-- The tokens of a text in which every character stands for itself. -/
def lits (s : wxString) : List Tok := s.map .lit

/-- The character a token stands for inside a value. -/
def Tok.char : Tok → Char
  | .lit c => c
  | .bar => '|'
  | .semi => ';'
  | .eq => '='

/-- The text of the tokens of a key or a value. -/
def detok (ts : List Tok) : wxString := ts.map Tok.char

/-- The pieces of a token list between the occurrences of a separator. -/
def splitOn (sep : Tok) : List Tok → List (List Tok)
  | [] => [[]]
  | t :: rest =>
    if t = sep then [] :: splitOn sep rest
    else
      match splitOn sep rest with
      | [] => [[t]]
      | piece :: more => (t :: piece) :: more

/-- The tokens before and after the first `=` of a field; `none` when the
field has no `=`. -/
def breakField : List Tok → Option (List Tok × List Tok)
  | [] => none
  | t :: rest =>
    if t = .eq then some ([], rest)
    else
      match breakField rest with
      | none => none
      | some (key, value) => some (t :: key, value)

/-- The tokens of the field `key=value`. -/
def mkField (kv : wxString × wxString) : List Tok :=
  lits kv.1 ++ .eq :: lits kv.2

/-- The tokens of a record: its fields, separated by `;`. -/
def joinFields : List (List Tok) → List Tok
  | [] => []
  | [f] => f
  | f :: g :: rest => f ++ .semi :: joinFields (g :: rest)

/-- The key and the value of a field; `none` when the field has no `=`. -/
def parseField (field : List Tok) : Option (wxString × wxString) :=
  match breakField field with
  | none => none
  | some (key, value) => some (detok key, detok value)

/-- The keys and values of the fields of a record; `none` when one of the
fields is malformed. -/
def parseFields : List (List Tok) → Option (List (wxString × wxString))
  | [] => some []
  | f :: rest =>
    match parseField f, parseFields rest with
    | some kv, some kvs => some (kv :: kvs)
    | _, _ => none

/-- The value of the first field with the key. -/
def lookupField (key : wxString) : List (wxString × wxString) → Option wxString
  | [] => none
  | (k, v) :: rest => if k = key then some v else lookupField key rest

/-- The decimal digit for a number below ten. -/
def digitChar (d : Nat) : Char := Char.ofNat (48 + d)

/-- The decimal digits of a number, most significant first; the first
argument bounds the number of digits. -/
def natDigits : Nat → Nat → wxString
  | 0, _ => []
  | fuel + 1, n =>
    if n < 10 then [digitChar n]
    else natDigits fuel (n / 10) ++ [digitChar (n % 10)]

/-- A natural number in decimal. -/
def printNat (n : Nat) : wxString := natDigits (n + 1) n

/-- An integer in decimal, with a minus sign when it is negative. -/
def printInt : Int → wxString
  | .ofNat n => printNat n
  | .negSucc n => '-' :: printNat (n + 1)

/-- The value of a decimal digit; `none` for another character. -/
def digitValue (c : Char) : Option Nat :=
  if 48 ≤ c.toNat ∧ c.toNat ≤ 57 then some (c.toNat - 48) else none

/-- Reading decimal digits, most significant first, onto the number read so
far; `none` when a character is not a digit. -/
def parseNat.go : Nat → wxString → Option Nat
  | acc, [] => some acc
  | acc, c :: rest =>
    match digitValue c with
    | none => none
    | some d => parseNat.go (acc * 10 + d) rest

/-- Reading a natural number in decimal; `none` when the text is empty or
holds a character that is not a digit. -/
def parseNat (s : wxString) : Option Nat :=
  match s with
  | [] => none
  | _ :: _ => parseNat.go 0 s

/-- Reading an integer in decimal, with an optional minus sign. -/
def parseInt (s : wxString) : Option Int :=
  match s with
  | [] => none
  | c :: rest =>
    if c = '-' then (parseNat rest).map fun n => -(n : Int)
    else (parseNat (c :: rest)).map fun n => (n : Int)

/-- The keys and values that `SavePaneInfo` writes for a pane: the name, the
caption and the layout fields. The pointers to the window and the frame are
not written. -/
def paneFields (p : wxAuiPaneInfo) : List (wxString × wxString) :=
  [ (['n', 'a', 'm', 'e'], p.name),
    (['c', 'a', 'p', 't', 'i', 'o', 'n'], p.caption),
    (['s', 't', 'a', 't', 'e'], printNat p.state),
    (['d', 'i', 'r'], printInt p.dock_direction),
    (['l', 'a', 'y', 'e', 'r'], printInt p.dock_layer),
    (['r', 'o', 'w'], printInt p.dock_row),
    (['p', 'o', 's'], printInt p.dock_pos),
    (['p', 'r', 'o', 'p'], printInt p.dock_proportion),
    (['b', 'e', 's', 't', 'w'], printInt p.best_size.x),
    (['b', 'e', 's', 't', 'h'], printInt p.best_size.y),
    (['m', 'i', 'n', 'w'], printInt p.min_size.x),
    (['m', 'i', 'n', 'h'], printInt p.min_size.y),
    (['m', 'a', 'x', 'w'], printInt p.max_size.x),
    (['m', 'a', 'x', 'h'], printInt p.max_size.y),
    (['f', 'l', 'o', 'a', 't', 'x'], printInt p.floating_pos.x),
    (['f', 'l', 'o', 'a', 't', 'y'], printInt p.floating_pos.y),
    (['f', 'l', 'o', 'a', 't', 'w'], printInt p.floating_size.x),
    (['f', 'l', 'o', 'a', 't', 'h'], printInt p.floating_size.y) ]

/-- The tokens of the record of a pane. -/
def paneRecord (p : wxAuiPaneInfo) : List Tok :=
  joinFields ((paneFields p).map mkField)

/-- Modelled from the spec: `wxAuiManager::SavePaneInfo(pane)`, whose body is
not part of the interface header: the record of the pane as a string. -/
def SavePaneInfo (p : wxAuiPaneInfo) : wxString :=
  render (paneRecord p)

/-- The tokens of the record of the dock size constraint. -/
def constraintRecord (mgr : wxAuiManager) : List Tok :=
  joinFields
    [ mkField (['d', 'o', 'c', 'k', 'w'],
        printNat mgr.m_dockConstraintX.num ++ '/' :: printNat mgr.m_dockConstraintX.den),
      mkField (['d', 'o', 'c', 'k', 'h'],
        printNat mgr.m_dockConstraintY.num ++ '/' :: printNat mgr.m_dockConstraintY.den) ]

/-- The tokens of the records of the panes, each followed by `|`. -/
def paneRecords : List wxAuiPaneInfo → List Tok
  | [] => []
  | p :: rest => paneRecord p ++ .bar :: paneRecords rest

/-- Modelled from the spec: `wxAuiManager::SavePerspective()`, whose body is
not part of the interface header: one record for each pane and one for the
dock size constraint, each followed by `|`. -/
def SavePerspective (mgr : wxAuiManager) : wxString :=
  render (paneRecords mgr.m_panes ++ (constraintRecord mgr ++ [.bar]))

/-- The keys of the integer fields of a pane record, in the order in which
`LoadPaneInfo` reads them. -/
def intKeys : List wxString :=
  [ ['d', 'i', 'r'], ['l', 'a', 'y', 'e', 'r'], ['r', 'o', 'w'], ['p', 'o', 's'],
    ['p', 'r', 'o', 'p'], ['b', 'e', 's', 't', 'w'], ['b', 'e', 's', 't', 'h'],
    ['m', 'i', 'n', 'w'], ['m', 'i', 'n', 'h'], ['m', 'a', 'x', 'w'], ['m', 'a', 'x', 'h'],
    ['f', 'l', 'o', 'a', 't', 'x'], ['f', 'l', 'o', 'a', 't', 'y'],
    ['f', 'l', 'o', 'a', 't', 'w'], ['f', 'l', 'o', 'a', 't', 'h'] ]

/-- The integers of the fields with the keys; `none` when a key is missing or
its value is not an integer. -/
def lookupInts (fields : List (wxString × wxString)) : List wxString → Option (List Int)
  | [] => some []
  | key :: rest =>
    match (lookupField key fields).bind parseInt, lookupInts fields rest with
    | some v, some vs => some (v :: vs)
    | _, _ => none

/-- Modelled from the spec: `wxAuiManager::LoadPaneInfo(pane_part, pane)`,
whose body is not part of the interface header: the fields of the record are
written into the pane, the pointers of the pane are not modified and the name
is changed as well. A record that lacks one of the keys, or in which a number
cannot be read, is malformed (`none`). -/
def LoadPaneInfo (fields : List (wxString × wxString)) (pane : wxAuiPaneInfo) :
    Option wxAuiPaneInfo :=
  match lookupField ['n', 'a', 'm', 'e'] fields,
    lookupField ['c', 'a', 'p', 't', 'i', 'o', 'n'] fields,
    (lookupField ['s', 't', 'a', 't', 'e'] fields).bind parseNat,
    lookupInts fields intKeys with
  | some name, some caption, some state,
    some [dir, layer, row, pos, prop, bestw, besth, minw, minh, maxw, maxh,
      floatx, floaty, floatw, floath] =>
    some { pane with
      name := name, caption := caption, state := state, dock_direction := dir,
      dock_layer := layer, dock_row := row, dock_pos := pos, dock_proportion := prop,
      best_size := ⟨bestw, besth⟩, min_size := ⟨minw, minh⟩, max_size := ⟨maxw, maxh⟩,
      floating_pos := ⟨floatx, floaty⟩, floating_size := ⟨floatw, floath⟩ }
  | _, _, _, _ => none

/-- What a record keeps of a pane: everything but the pointers to the window
and the frame and the current rectangle, which are as in a new pane info. -/
def kept (p : wxAuiPaneInfo) : wxAuiPaneInfo :=
  { p with window := none, frame := none, rect := ⟨0, 0, 0, 0⟩ }

/-- The pane info read from one record of a perspective string: the record is
split into its fields and loaded into a new pane info; `none` when the record
is malformed. -/
def parseRecord (record : List Tok) : Option wxAuiPaneInfo :=
  match parseFields (splitOn .semi record) with
  | none => none
  | some fields => LoadPaneInfo fields wxAuiPaneInfo.ctor

/-- The pane infos read from the well-formed records of a list of records;
a malformed record is skipped. -/
def parseRecords : List (List Tok) → List wxAuiPaneInfo
  | [] => []
  | record :: rest =>
    match parseRecord record with
    | none => parseRecords rest
    | some pane => pane :: parseRecords rest

/-- The pane infos read from the well-formed records of a perspective
string, in the order of the string. -/
def savedPanes (perspective : wxString) : List wxAuiPaneInfo :=
  parseRecords (splitOn .bar (tokenize perspective))

/-- One step of `LoadPerspective`: the pane read from a record is looked up
by its name among the existing panes; the pane found receives the safe parts
of the record (`SafeSet`); when no pane has the name, nothing changes. -/
def applySaved : List wxAuiPaneInfo → wxAuiPaneInfo → List wxAuiPaneInfo
  | [], _ => []
  | p :: rest, saved =>
    if p.name = saved.name then p.SafeSet saved :: rest
    else p :: applySaved rest saved

/-- One step of the merge seen from one existing pane: the pane receives
the safe parts of the saved pane when it has its name. -/
def mergeStep (saved p : wxAuiPaneInfo) : wxAuiPaneInfo :=
  if p.name = saved.name then p.SafeSet saved else p

/-- Modelled from the spec: `wxAuiManager::LoadPerspective(perspective)`,
whose body is not part of the interface header. The records of the string are
read one after the other and merged into the existing panes by name; a
malformed record is skipped, it does not stop the load. (The flag `update`
asks for a new layout on screen and is left out.) -/
def LoadPerspective (mgr : wxAuiManager) (perspective : wxString) : wxAuiManager × Bool :=
  ({ mgr with m_panes := (savedPanes perspective).foldl applySaved mgr.m_panes }, true)

/-- What the merge by name makes of one existing pane: the safe parts of the
last saved pane that has its name, or the pane itself when no saved pane has
its name. -/
def merged (saved : List wxAuiPaneInfo) (p : wxAuiPaneInfo) : wxAuiPaneInfo :=
  match saved.reverse.find? (fun r => r.name == p.name) with
  | some r => p.SafeSet r
  | none => p

/-- The manager of the persistence scenario whose panes are saved: the pane
"a" docked at the top with best size (200, 100) in layer 1, and the pane "z"
docked at the right. -/
def scenarioSaved : wxAuiManager :=
  ((ctor.AddPane (some 1)
      { wxAuiPaneInfo.ctor with
        name := ['a'], caption := ['t', '|', 'o', 'p'],
        dock_direction := wxAuiManagerDock.wxAUI_DOCK_TOP.value, dock_layer := 1,
        best_size := ⟨200, 100⟩ }).1.AddPane (some 2)
      { wxAuiPaneInfo.ctor with
        name := ['z'], dock_direction := wxAuiManagerDock.wxAUI_DOCK_RIGHT.value }).1

/-- The manager of the persistence scenario into which the saved string is
loaded: a pane "a" as the constructor leaves it, and a pane "x" that the
saved manager does not have. -/
def scenarioLive : wxAuiManager :=
  ((ctor.AddPane (some 7) { wxAuiPaneInfo.ctor with name := ['a'] }).1.AddPane (some 8)
      { wxAuiPaneInfo.ctor with name := ['x'], dock_pos := 3 }).1

/-- A manager with the pane names of `scenarioSaved`, in the other order and
with other windows and layouts. -/
def scenarioSameNames : wxAuiManager :=
  ((ctor.AddPane (some 5) { wxAuiPaneInfo.ctor with name := ['z'], dock_row := 2 }).1.AddPane
      (some 6) { wxAuiPaneInfo.ctor with name := ['a'] }).1

/-! ### The layout engine

Modelled from the spec. The layout code of the manager is not part of the
sources; the spec describes it: the docks are laid out layer by layer from
the outermost layer to the innermost, each dock taking its space from the
outer edge of the rectangle that is left; a dock is no thicker than a
fraction (1/3 by default) of the container; inside a dock the panes are
ordered by position and share the length of the dock by their proportions,
the shares are clamped to the minimum and maximum sizes and the excess is
redistributed; a fixed pane keeps its best size, clamped to its minimum and
maximum; what is left in the middle is the rectangle of the centre pane. The
rectangles of captions, grippers, buttons and sashes, which depend on metrics
supplied from outside, are left out. -/

/-- The flag `optionFloating` of the pane state, with the toolkit's value. -/
def optionFloating : Nat := 1

/-- The flag `optionHidden` of the pane state, with the toolkit's value. -/
def optionHidden : Nat := 2

/-- The flag `optionResizable` of the pane state, with the toolkit's
value. -/
def optionResizable : Nat := 256

/-- Modelled from the spec: `wxAuiPaneInfo::HasFlag`, declared in the
interface header: whether the property given by the flag is active. -/
def HasFlag (p : wxAuiPaneInfo) (flag : Nat) : Bool := (p.state &&& flag) != 0

/-- Modelled from the spec: `wxAuiPaneInfo::IsDocked`: the pane is not
floating. -/
def IsDocked (p : wxAuiPaneInfo) : Bool := !HasFlag p optionFloating

/-- Modelled from the spec: `wxAuiPaneInfo::IsShown`: the pane is not
hidden. -/
def IsShown (p : wxAuiPaneInfo) : Bool := !HasFlag p optionHidden

/-- Modelled from the spec: `wxAuiPaneInfo::IsFixed`: the pane cannot be
resized. -/
def IsFixed (p : wxAuiPaneInfo) : Bool := !HasFlag p optionResizable

/-- Whether a dock of the direction is horizontal (top or bottom): its panes
lie side by side along the width, and its thickness is a height. -/
def isHorizontal (direction : Int) : Bool :=
  direction == wxAuiManagerDock.wxAUI_DOCK_TOP.value
    || direction == wxAuiManagerDock.wxAUI_DOCK_BOTTOM.value

/-- The component of a size along a dock. -/
def lengthOf (horizontal : Bool) (s : wxSize) : Int := if horizontal then s.x else s.y

/-- The component of a size across a dock. -/
def thicknessOf (horizontal : Bool) (s : wxSize) : Int := if horizontal then s.y else s.x

/-- What a pane asks for along its dock: whether it is fixed, its weight in
the proportional sharing, and the least and the greatest length it takes. -/
structure Demand where
  fixed : Bool
  weight : Int
  lo : Int
  hi : Int
deriving DecidableEq, Repr

/-- A value brought into the range from `lo` to `hi`; the lower bound wins
when the bounds contradict each other. -/
def clampTo (lo hi v : Int) : Int := max lo (min hi v)

/-- The demand of a pane in a dock of the given length. A minimum that is not
given is 0; a pane without a maximum takes at most the whole dock. A fixed
pane takes its best size, clamped to its minimum and maximum, and nothing
else. -/
def demandOf (horizontal : Bool) (length : Int) (p : wxAuiPaneInfo) : Demand :=
  let lo := max 0 (lengthOf horizontal p.min_size)
  let hi :=
    if lengthOf horizontal p.max_size < 0 then max length lo
    else max (lengthOf horizontal p.max_size) lo
  if IsFixed p then
    let size := clampTo lo hi (lengthOf horizontal p.best_size)
    { fixed := true, weight := 0, lo := size, hi := size }
  else { fixed := false, weight := max 0 p.dock_proportion, lo := lo, hi := hi }

/-- The length the fixed panes take. -/
def fixedTotal (ds : List Demand) : Int :=
  ((ds.filter fun d => d.fixed).map fun d => d.lo).sum

/-- The sum of the weights of the panes that are not fixed. -/
def weightTotal (ds : List Demand) : Int :=
  ((ds.filter fun d => !d.fixed).map fun d => d.weight).sum

/-- The proportional share of a pane: a fixed pane bypasses the sharing, the
other panes divide what the fixed ones leave by their weights. -/
def shareOf (length : Int) (ds : List Demand) (d : Demand) : Int :=
  if d.fixed then d.lo
  else if weightTotal ds ≤ 0 then 0
  else (length - fixedTotal ds) * d.weight / weightTotal ds

/-- The shares after clamping, each with its demand. -/
def clampedShares (length : Int) (ds : List Demand) : List (Demand × Int) :=
  ds.map fun d => (d, clampTo d.lo d.hi (shareOf length ds d))

/-- Redistribution of an excess of length: the panes, in their order, grow as
far as their maximum allows until the excess is used up. -/
def grow : Int → List (Demand × Int) → List Int
  | _, [] => []
  | excess, (d, c) :: rest =>
    (c + min excess (d.hi - c)) :: grow (excess - min excess (d.hi - c)) rest

/-- Redistribution of a deficit of length: the panes, in their order, shrink
as far as their minimum allows until the deficit is made up. -/
def shrink : Int → List (Demand × Int) → List Int
  | _, [] => []
  | deficit, (d, c) :: rest =>
    (c - min deficit (c - d.lo)) :: shrink (deficit - min deficit (c - d.lo)) rest

/-- The lengths the panes of a dock get: proportional shares, clamped, and
the difference to the length of the dock redistributed. -/
def allocate (length : Int) (ds : List Demand) : List Int :=
  let start := clampedShares length ds
  let excess := length - (start.map fun x => x.2).sum
  if 0 ≤ excess then grow excess start else shrink (-excess) start

/-- The lengths the panes of a dock get, from the panes themselves. -/
def allocatePanes (horizontal : Bool) (length : Int) (panes : List wxAuiPaneInfo) : List Int :=
  allocate length (panes.map (demandOf horizontal length))

/-- The sum of the least lengths. -/
def sumLo (ds : List Demand) : Int := (ds.map fun d => d.lo).sum

/-- The sum of the greatest lengths. -/
def sumHi (ds : List Demand) : Int := (ds.map fun d => d.hi).sum

/-- A dock of the layout: the data members of `wxAuiDockInfo` that the layout
fills in (its flags are left out). The panes carry their rectangles. -/
structure wxAuiDockInfo where
  panes : List wxAuiPaneInfo
  rect : wxRect
  dock_direction : Int
  dock_layer : Int
  dock_row : Int
  size : Int
deriving DecidableEq, Repr

/-- The result of a layout: the docks in the order in which they were laid
out, and the rectangle that is left for the centre pane. -/
structure LayoutResult where
  docks : List wxAuiDockInfo
  center : wxRect
deriving DecidableEq, Repr

/-- Insertion of a pane into panes ordered by position, behind the panes of
the same position. -/
def insertByPos (p : wxAuiPaneInfo) : List wxAuiPaneInfo → List wxAuiPaneInfo
  | [] => [p]
  | q :: rest => if p.dock_pos < q.dock_pos then p :: q :: rest else q :: insertByPos p rest

/-- The panes ordered by position. -/
def sortByPos : List wxAuiPaneInfo → List wxAuiPaneInfo
  | [] => []
  | p :: rest => insertByPos p (sortByPos rest)

/-- The greatest of the numbers and 0. -/
def maxOf : List Int → Int
  | [] => 0
  | v :: rest => max v (maxOf rest)

/-- The greatest thickness a dock of the direction may have: the fraction of
the width of the container for a vertical dock, of its height for a
horizontal one. -/
def dockLimit (container : wxSize) (cx cy : Fraction) (direction : Int) : Int :=
  if isHorizontal direction then container.y * cy.num / cy.den
  else container.x * cx.num / cx.den

/-- The dock cut from the outer edge of a rectangle, and the rectangle that
is left. -/
def carve (r : wxRect) (direction : Int) (size : Int) : wxRect × wxRect :=
  if direction = wxAuiManagerDock.wxAUI_DOCK_TOP.value then
    (⟨r.x, r.y, r.width, size⟩, ⟨r.x, r.y + size, r.width, r.height - size⟩)
  else if direction = wxAuiManagerDock.wxAUI_DOCK_BOTTOM.value then
    (⟨r.x, r.y + r.height - size, r.width, size⟩, ⟨r.x, r.y, r.width, r.height - size⟩)
  else if direction = wxAuiManagerDock.wxAUI_DOCK_LEFT.value then
    (⟨r.x, r.y, size, r.height⟩, ⟨r.x + size, r.y, r.width - size, r.height⟩)
  else
    (⟨r.x + r.width - size, r.y, size, r.height⟩, ⟨r.x, r.y, r.width - size, r.height⟩)

/-- The panes of a dock with their rectangles: one after the other along the
dock, each as thick as the dock. -/
def placeAlong (horizontal : Bool) (dock : wxRect) :
    Int → List (wxAuiPaneInfo × Int) → List wxAuiPaneInfo
  | _, [] => []
  | offset, (p, size) :: rest =>
    { p with
      rect :=
        if horizontal then ⟨dock.x + offset, dock.y, size, dock.height⟩
        else ⟨dock.x, dock.y + offset, dock.width, size⟩ }
      :: placeAlong horizontal dock (offset + size) rest

/-- One dock laid out in the rectangle that is left: its thickness is the
greatest best size of its panes across the dock, at most the limit of the
dock size constraint and at most what is left; the panes share its length. -/
def layoutDock (container : wxSize) (cx cy : Fraction) (left : wxRect)
    (direction layer row : Int) (panes : List wxAuiPaneInfo) : wxAuiDockInfo × wxRect :=
  let horizontal := isHorizontal direction
  let room := if horizontal then left.height else left.width
  let wanted := maxOf (panes.map fun p => thicknessOf horizontal p.best_size)
  let size := max 0 (min (min wanted (dockLimit container cx cy direction)) room)
  let cut := carve left direction size
  let length := if horizontal then cut.1.width else cut.1.height
  let sorted := sortByPos panes
  let placed := placeAlong horizontal cut.1 0 (sorted.zip (allocatePanes horizontal length sorted))
  ({ panes := placed, rect := cut.1, dock_direction := direction, dock_layer := layer,
     dock_row := row, size := size }, cut.2)

/-- The order of the four dock directions inside a layer. -/
def directions : List Int :=
  [wxAuiManagerDock.wxAUI_DOCK_TOP.value, wxAuiManagerDock.wxAUI_DOCK_BOTTOM.value,
    wxAuiManagerDock.wxAUI_DOCK_LEFT.value, wxAuiManagerDock.wxAUI_DOCK_RIGHT.value]

/-- The rows `0, ..., n - 1` of one direction in one layer, as keys
(direction, layer, row). -/
def rowKeys (direction : Int) (layer : Nat) : Nat → List (Int × Int × Int)
  | 0 => []
  | n + 1 => rowKeys direction layer n ++ [(direction, (layer : Int), (n : Int))]

/-- The keys of the docks of one layer: each direction by rows. -/
def layerKeys (layer rows : Nat) : List (Int × Int × Int) :=
  (directions.map fun d => rowKeys d layer rows).foldr (fun a b => a ++ b) []

/-- The keys of the docks of the layers `n - 1, ..., 0`, outermost layer
first. -/
def dockKeys (rows : Nat) : Nat → List (Int × Int × Int)
  | 0 => []
  | n + 1 => layerKeys n rows ++ dockKeys rows n

/-- One step of the layout: the dock of the key, when it has panes, is laid
out in the rectangle that is left. -/
def layoutStep (container : wxSize) (cx cy : Fraction) (panes : List wxAuiPaneInfo)
    (state : List wxAuiDockInfo × wxRect) (key : Int × Int × Int) :
    List wxAuiDockInfo × wxRect :=
  let members := panes.filter fun p =>
    p.dock_direction == key.1 && p.dock_layer == key.2.1 && p.dock_row == key.2.2
  if members.isEmpty then state
  else
    let r := layoutDock container cx cy state.2 key.1 key.2.1 key.2.2 members
    (state.1 ++ [r.1], r.2)

/-- Modelled from the spec: `ComputeLayout(paneSet, containerRect)`. The
panes that are shown and docked are laid out dock by dock, from the outermost
layer to the innermost; the rectangle that is left is the one of the centre
pane. A container without area gives empty rectangles. -/
def ComputeLayout (panes : List wxAuiPaneInfo) (container : wxSize) (cx cy : Fraction) :
    LayoutResult :=
  if container.x ≤ 0 ∨ container.y ≤ 0 then { docks := [], center := ⟨0, 0, 0, 0⟩ }
  else
    let docked := panes.filter fun p => IsShown p && IsDocked p
    let layers := (maxOf (docked.map fun p => p.dock_layer)).toNat + 1
    let rows := (maxOf (docked.map fun p => p.dock_row)).toNat + 1
    let r := (dockKeys rows layers).foldl (layoutStep container cx cy docked)
      ([], ⟨0, 0, container.x, container.y⟩)
    { docks := r.1, center := r.2 }

/-- Modelled from the spec: the layout that `wxAuiManager::Update()` commits
for a managed window of the given client size. -/
def Update (mgr : wxAuiManager) (container : wxSize) : LayoutResult :=
  ComputeLayout mgr.m_panes container mgr.m_dockConstraintX mgr.m_dockConstraintY

/-- The manager of the layout scenario: one pane added with the direction
left and the best size (200, 100). -/
def scenarioLeftPane : wxAuiManager :=
  (ctor.AddPane (some 1)
    { wxAuiPaneInfo.ctor with
      dock_direction := wxAuiManagerDock.wxAUI_DOCK_LEFT.value,
      best_size := ⟨200, 100⟩ }).1

/-- The panes of the allocation scenario, in a vertical dock: a resizable
pane of proportion 1 with a minimum height of 100, a resizable pane of
proportion 2 with a maximum height of 150, and a fixed pane of best height
50. -/
def scenarioDockPanes : List wxAuiPaneInfo :=
  [ { wxAuiPaneInfo.ctor with
      name := ['a'], state := optionResizable, dock_proportion := 1, min_size := ⟨-1, 100⟩ },
    { wxAuiPaneInfo.ctor with
      name := ['b'], state := optionResizable, dock_proportion := 2, max_size := ⟨-1, 150⟩ },
    { wxAuiPaneInfo.ctor with name := ['c'], best_size := ⟨80, 50⟩ } ]

/-- A fixed pane of best size (200, 100), a pane with the flag
`optionResizable` not set. -/
def scenarioFixedPane : wxAuiPaneInfo :=
  { wxAuiPaneInfo.ctor with name := ['f'], state := 0, best_size := ⟨200, 100⟩ }

/-- A resizable pane of proportion 1 with the maximum height 150. -/
def scenarioCappedPane : wxAuiPaneInfo :=
  { wxAuiPaneInfo.ctor with
    name := ['m'], state := optionResizable, dock_proportion := 1, max_size := ⟨-1, 150⟩ }

/-- Two resizable panes of the proportions 1 and 2 without minimum and
maximum sizes. -/
def scenarioSharingPanes : List wxAuiPaneInfo :=
  [ { wxAuiPaneInfo.ctor with name := ['a'], state := optionResizable, dock_proportion := 1 },
    { wxAuiPaneInfo.ctor with name := ['b'], state := optionResizable, dock_proportion := 2 } ]

/-- The managers reached from a new manager by calls of `AddPane`. -/
inductive Managed : wxAuiManager → Prop where
  | ctor : Managed ctor
  | addPane {mgr : wxAuiManager} (window : Option Nat) (pane_info : wxAuiPaneInfo) :
      Managed mgr → Managed (mgr.AddPane window pane_info).1

end wxAuiManager

namespace wxInfoBarGeneric

/-! ### The nodes the counting loop reads -/

/-- The test `item->IsSpacer()` of the loops at the node in position `i`. -/
def isSpacerAt (items : List wxSizerItem) (i : Nat) : Bool :=
  match items[i]? with
  | some item => item.IsSpacer
  | none => false

/-- The test `item->GetWindow() == m_button` of `GetButtonCount` at the node
in position `i`; the loop makes it on items that are not spacers. -/
def isCloseButtonAt (items : List wxSizerItem) (m_button : Option wxWindow) (i : Nat) : Bool :=
  match items[i]? with
  | some item => !item.IsSpacer && ptrEq item.GetWindow m_button
  | none => false

/-- A sequence of sizer items: a text window, the spacer and two buttons. -/
def spacerItems : List wxSizerItem :=
  [.Item_Window (newWindow 2 wxID_ANY), .Item_Spacer 0, .Item_Window ⟨3, 10⟩,
    .Item_Window ⟨4, 11⟩]

/-- A bar whose sizer holds `spacerItems`, with a close button that is not in
this sizer. -/
def spacerBar : wxInfoBarGeneric :=
  { blank 0 9 with m_button := some ⟨1, wxID_CLOSE⟩, m_windowSizer := some spacerItems }

/-- A bar whose sizer holds the spacer first and one button after it. -/
def spacerFirstBar : wxInfoBarGeneric :=
  { blank 0 9 with
    m_button := some ⟨1, wxID_CLOSE⟩,
    m_windowSizer := some [.Item_Spacer 0, .Item_Window ⟨3, 10⟩] }

end wxInfoBarGeneric

namespace wxInfoBarGeneric

/-! ## Lemmas on the sizer primitives and the scans -/

/-- A new window has the address it was created at. -/
theorem newWindow_addr (addr : Nat) (id : Int) : (newWindow addr id).addr = addr := rfl

/-- A new window keeps an id other than `wxID_ANY`. -/
theorem newWindow_id (addr : Nat) (id : Int) (h : id ≠ wxID_ANY) :
    newWindow addr id = ⟨addr, id⟩ := by
  simp [newWindow, h]

/-- A generated id is one of the automatic ids. -/
theorem NewControlId_range (addr : Nat) :
    wxID_AUTO_LOWEST ≤ NewControlId addr ∧ NewControlId addr ≤ wxID_AUTO_HIGHEST := by
  unfold NewControlId
  rw [show wxID_AUTO_HIGHEST - wxID_AUTO_LOWEST + 1 = (998001 : Int) from by decide]
  simp only [wxID_AUTO_LOWEST, wxID_AUTO_HIGHEST]
  omega

/-- A new window has the id it was asked to have, in the sense of `idAsGiven`. -/
theorem newWindow_idAsGiven (addr : Nat) (id : Int) : idAsGiven (newWindow addr id) id := by
  unfold idAsGiven newWindow
  split
  · exact NewControlId_range addr
  · rfl

/-- No window has the id `wxID_ANY` after its creation. -/
theorem idAsGiven_ne_any {w : wxWindow} {id : Int} (h : idAsGiven w id) :
    w.m_windowId ≠ wxID_ANY := by
  unfold idAsGiven at h
  split at h
  · simp only [wxID_AUTO_LOWEST, wxID_AUTO_HIGHEST, wxID_ANY] at h ⊢
    omega
  · rw [h]; assumption

/-- No button created by `AddButton` has the id `wxID_ANY`. -/
theorem forall₂_idAsGiven_ne_any {ws : List wxWindow} {ids : List Int}
    (h : List.Forall₂ idAsGiven ws ids) : ∀ w ∈ ws, w.m_windowId ≠ wxID_ANY := by
  induction h with
  | nil => intro w hw; cases hw
  | cons h _ ih =>
    intro w hw
    rcases List.mem_cons.mp hw with rfl | hw
    · exact idAsGiven_ne_any h
    · exact ih w hw

theorem layout_length (bs : List wxWindow) : (layout bs).length = bs.length + 1 := by
  simp [layout]

/-- Adding a button appends its window item. -/
theorem layout_concat (bs : List wxWindow) (b : wxWindow) :
    layout (bs ++ [b]) = layout bs ++ [.Item_Window b] := by
  simp [layout]

/-- The last node of the sizer holds the button added last. -/
theorem layout_getElem_last (bs : List wxWindow) (b : wxWindow) :
    (layout (bs ++ [b]))[bs.length + 1]? = some (.Item_Window b) := by
  rw [layout_concat]
  have h := List.getElem?_concat_length (layout bs) (wxSizerItem.Item_Window b)
  rwa [layout_length] at h

/-- `Detach` leaves a sizer alone that does not hold the window. -/
theorem Detach_absent (items : List wxSizerItem) (w : Option wxWindow)
    (h : ∀ item ∈ items, ptrEq item.GetWindow w = false) :
    wxSizer.Detach items w = (items, false) := by
  induction items with
  | nil => rfl
  | cons item rest ih =>
    have h1 := h item (List.mem_cons_self _ _)
    have h2 := ih (fun it hit => h it (List.mem_cons_of_mem _ hit))
    simp [wxSizer.Detach, h1, h2]

/-- `Detach` removes the first item that holds the window. -/
theorem Detach_present (pre post : List wxSizerItem) (b : wxWindow)
    (h : ∀ item ∈ pre, ptrEq item.GetWindow (some b) = false) :
    wxSizer.Detach (pre ++ .Item_Window b :: post) (some b) = (pre ++ post, true) := by
  induction pre with
  | nil => simp [wxSizer.Detach, ptrEq, wxSizerItem.GetWindow]
  | cons item rest ih =>
    have h1 := h item (List.mem_cons_self _ _)
    have h2 := ih (fun it hit => h it (List.mem_cons_of_mem _ hit))
    simp [wxSizer.Detach, h1, h2]

/-- The loop of `GetButtonCount` reads no node behind the one it starts at. -/
theorem GetButtonCount_loop_append (xs ys : List wxSizerItem) (mb : Option wxWindow) :
    ∀ node count, node < xs.length →
      GetButtonCount.loop (xs ++ ys) mb node count = GetButtonCount.loop xs mb node count := by
  intro node
  induction node with
  | zero => intro count _; simp [GetButtonCount.loop]
  | succ n ih =>
    intro count hn
    simp only [GetButtonCount.loop, List.getElem?_append_left hn]
    cases xs[n + 1]? with
    | none => rfl
    | some item =>
      simp only []
      rw [ih (count + 1) (by omega)]

/-- The loop of `HasButtonId` reads no node behind the one it starts at. -/
theorem HasButtonId_loop_append (xs ys : List wxSizerItem) (btnid : Int) :
    ∀ node, node < xs.length →
      HasButtonId.loop (xs ++ ys) btnid node = HasButtonId.loop xs btnid node := by
  intro node
  induction node with
  | zero => intro _; simp [HasButtonId.loop]
  | succ n ih =>
    intro hn
    simp only [HasButtonId.loop, List.getElem?_append_left hn]
    cases xs[n + 1]? with
    | none => rfl
    | some item =>
      simp only []
      rw [ih (by omega)]

/-- The loop of `RemoveButton` reads no node behind the one it starts at. -/
theorem RemoveButton_loop_append (xs ys : List wxSizerItem) (btnid : Int) :
    ∀ node, node < xs.length →
      RemoveButton.loop (xs ++ ys) btnid node = RemoveButton.loop xs btnid node := by
  intro node
  induction node with
  | zero => intro _; simp [RemoveButton.loop]
  | succ n ih =>
    intro hn
    simp only [RemoveButton.loop, List.getElem?_append_left hn]
    cases xs[n + 1]? with
    | none => rfl
    | some item =>
      simp only []
      rw [ih (by omega)]

/-- On the sizer of a reached state the loop of `GetButtonCount` counts every button. -/
theorem GetButtonCount_loop_layout (mb : wxWindow) (bs : List wxWindow) :
    (∀ w ∈ bs, mb.addr < w.addr) → ∀ count,
      GetButtonCount.loop (layout bs) (some mb) bs.length count = count + bs.length := by
  induction bs using List.reverseRecOn with
  | nil => intro _ count; simp [GetButtonCount.loop]
  | append_singleton bs b ih =>
    intro h count
    have hb : mb.addr ≠ b.addr := Nat.ne_of_lt (h b (by simp))
    have ihb := ih (fun w hw => h w (by simp [hw])) (count + 1)
    rw [List.length_append, List.length_singleton]
    simp only [GetButtonCount.loop, layout_getElem_last]
    rw [layout_concat, GetButtonCount_loop_append _ _ _ _ _ (by simp [layout_length]), ihb]
    simp [wxSizerItem.IsSpacer, wxSizerItem.GetWindow, ptrEq, Ne.symm hb]
    omega

/-- On the sizer of a reached state the loop of `HasButtonId` tells whether a button has the id. -/
theorem HasButtonId_loop_layout (btnid : Int) (bs : List wxWindow) :
    HasButtonId.loop (layout bs) btnid bs.length
      = .ok (bs.any fun w => w.m_windowId == btnid) := by
  induction bs using List.reverseRecOn with
  | nil => simp [HasButtonId.loop]
  | append_singleton bs b ih =>
    rw [List.length_append, List.length_singleton]
    simp only [HasButtonId.loop, layout_getElem_last]
    rw [layout_concat, HasButtonId_loop_append _ _ _ _ (by simp [layout_length]), ih]
    by_cases hb : b.m_windowId = btnid
    · simp [wxSizerItem.IsSpacer, wxSizerItem.GetWindow, hb]
    · simp [wxSizerItem.IsSpacer, wxSizerItem.GetWindow, hb]

/-- The loop of `RemoveButton` runs to the first node when no button has the id. -/
theorem RemoveButton_loop_absent (btnid : Int) (bs : List wxWindow) :
    (∀ w ∈ bs, w.m_windowId ≠ btnid) →
      RemoveButton.loop (layout bs) btnid bs.length = .finished := by
  induction bs using List.reverseRecOn with
  | nil => intro _; simp [RemoveButton.loop]
  | append_singleton bs b ih =>
    intro h
    have hb : b.m_windowId ≠ btnid := h b (by simp)
    have ihb := ih (fun w hw => h w (by simp [hw]))
    rw [List.length_append, List.length_singleton]
    simp only [RemoveButton.loop, layout_getElem_last]
    rw [layout_concat, RemoveButton_loop_append _ _ _ _ (by simp [layout_length]), ihb]
    simp [wxSizerItem.IsSpacer, wxSizerItem.GetWindow, hb]

/-- The loop of `RemoveButton` stops at the last button that has the id. -/
theorem RemoveButton_loop_found (btnid : Int) (pre : List wxWindow) (b : wxWindow)
    (hb : b.m_windowId = btnid) (post : List wxWindow) :
    (∀ w ∈ post, w.m_windowId ≠ btnid) →
      RemoveButton.loop (layout (pre ++ b :: post)) btnid (pre ++ b :: post).length = .found b := by
  induction post using List.reverseRecOn with
  | nil =>
    intro _
    rw [List.length_append, List.length_singleton]
    simp only [RemoveButton.loop, layout_getElem_last]
    simp [wxSizerItem.IsSpacer, wxSizerItem.GetWindow, hb]
  | append_singleton post c ih =>
    intro h
    have hc : c.m_windowId ≠ btnid := h c (by simp)
    have ihb := ih (fun w hw => h w (by simp [hw]))
    have e : pre ++ b :: (post ++ [c]) = (pre ++ b :: post) ++ [c] := by simp
    rw [e, List.length_append, List.length_singleton]
    simp only [RemoveButton.loop, layout_getElem_last]
    rw [layout_concat, RemoveButton_loop_append _ _ _ _ (by simp [layout_length]), ihb]
    simp [wxSizerItem.IsSpacer, wxSizerItem.GetWindow, hc]


/-- The buttons can be read off the sizer. -/
theorem layout_injective {xs ys : List wxWindow} (h : layout xs = layout ys) : xs = ys := by
  simp only [layout, List.cons.injEq, true_and] at h
  exact List.map_injective_iff.mpr (fun a b hab => by cases hab; rfl) h

/-! ## The shape of the reached states -/

theorem Shape_created (self heapTop : Nat) :
    Shape (created self heapTop) ⟨heapTop + 2, wxID_CLOSE⟩ [] := by
  refine ⟨rfl, rfl, rfl, ?_, ?_, ?_, ?_, ?_, List.Pairwise.nil⟩
  · simp [created, constructed, Create, Init, blank, wxSizer.Add, newWindow, wxID_CLOSE,
      wxID_ANY]
  · simp [created, constructed, Create, Init, blank, newWindow]
  · simp [created, constructed, Create, Init, blank]
  · intro w hw; cases hw
  · intro w hw; cases hw

/-- The close button is not an item of the bar's own sizer. -/
theorem layout_no_window (mb : wxWindow) (bs : List wxWindow)
    (h : ∀ w ∈ bs, mb.addr < w.addr) :
    ∀ item ∈ layout bs, ptrEq item.GetWindow (some mb) = false := by
  intro item hitem
  simp only [layout, List.mem_cons, List.mem_map] at hitem
  rcases hitem with rfl | ⟨w, hw, rfl⟩
  · rfl
  · have := h w hw
    simp [ptrEq, wxSizerItem.GetWindow]
    omega

/-- `AddButton` returns and appends one button with the id and a fresh address. -/
theorem AddButton_Shape {bar : wxInfoBarGeneric} {mb : wxWindow} {bs : List wxWindow}
    (h : Shape bar mb bs) (btnid : Int) :
    ∃ bar1, bar.AddButton btnid = .ok bar1 ∧
      Shape bar1 mb (bs ++ [newWindow bar.heapTop btnid]) := by
  have hd := Detach_absent (layout bs) (some mb) (layout_no_window mb bs h.older)
  refine ⟨{ bar with m_windowSizer := some (layout (bs ++ [newWindow bar.heapTop btnid])),
                     heapTop := bar.heapTop + 1 }, ?_, ?_⟩
  · simp [AddButton, h.sizer, h.button, hd, wxSizer.Add, layout_concat]
  · refine ⟨rfl, h.button, h.outer, h.row, h.shown, Nat.lt_succ_of_lt h.allocated, ?_, ?_, ?_⟩
    · intro w hw
      rcases List.mem_append.mp hw with hw | hw
      · exact h.older w hw
      · simp at hw
        subst hw
        exact h.allocated
    · intro w hw
      rcases List.mem_append.mp hw with hw | hw
      · exact Nat.lt_succ_of_lt (h.fresh w hw)
      · simp at hw
        subst hw
        exact Nat.lt_succ_self _
    · rw [List.pairwise_append]
      refine ⟨h.sorted, List.pairwise_singleton _ _, ?_⟩
      intro a ha b hb
      simp at hb
      subst hb
      exact h.fresh a ha

/-- The last item of the sizer of a reached state is not a spacer. -/
theorem getLast_layout_not_spacer (bs : List wxWindow) :
    ∃ last, (layout bs).getLast? = some last ∧ last.IsSpacer = false := by
  induction bs using List.reverseRecOn with
  | nil => exact ⟨_, rfl, rfl⟩
  | append_singleton bs b _ =>
    exact ⟨.Item_Window b, by rw [layout_concat, List.getLast?_concat], rfl⟩

/-- `RemoveButton` changes nothing when no button has the id. -/
theorem RemoveButton_absent {bar : wxInfoBarGeneric} {mb : wxWindow} {bs : List wxWindow}
    (h : Shape bar mb bs) (btnid : Int) (hno : ∀ w ∈ bs, w.m_windowId ≠ btnid) :
    bar.RemoveButton btnid = .ok bar := by
  obtain ⟨last, hl, hs⟩ := getLast_layout_not_spacer bs
  have hlen : (layout bs).length - 1 = bs.length := by simp [layout_length]
  simp [RemoveButton, h.sizer, hlen, RemoveButton_loop_absent btnid bs hno,
    RemoveButton.restore, hl, hs]
  rw [← h.sizer]

/-- `RemoveButton` removes the last button that has the id and nothing else. -/
theorem RemoveButton_present {bar : wxInfoBarGeneric} {mb : wxWindow}
    {pre post : List wxWindow} {b : wxWindow}
    (h : Shape bar mb (pre ++ b :: post)) (btnid : Int) (hb : b.m_windowId = btnid)
    (hpost : ∀ w ∈ post, w.m_windowId ≠ btnid) :
    ∃ bar1, bar.RemoveButton btnid = .ok bar1 ∧ Shape bar1 mb (pre ++ post) ∧
      bar1.heapTop = bar.heapTop := by
  obtain ⟨last, hl, hs⟩ := getLast_layout_not_spacer (pre ++ post)
  have hlen : (layout (pre ++ b :: post)).length - 1 = (pre ++ b :: post).length := by
    simp [layout_length]
  have hsorted := h.sorted
  rw [List.pairwise_append] at hsorted
  have hdet : wxSizer.Detach (layout (pre ++ b :: post)) (some b) = (layout (pre ++ post), true) := by
    have e1 : layout (pre ++ b :: post) = layout pre ++ .Item_Window b :: post.map .Item_Window := by
      simp [layout]
    have e2 : layout (pre ++ post) = layout pre ++ post.map .Item_Window := by
      simp [layout]
    rw [e1, e2]
    apply Detach_present
    intro item hitem
    simp only [layout, List.mem_cons, List.mem_map] at hitem
    rcases hitem with rfl | ⟨w, hw, rfl⟩
    · rfl
    · have := hsorted.2.2 w hw b (List.mem_cons_self _ _)
      simp [ptrEq, wxSizerItem.GetWindow]
      omega
  refine ⟨{ bar with hidden := bar.hidden.filter (fun a => a != b.addr),
                     m_windowSizer := some (layout (pre ++ post)) }, ?_, ?_, rfl⟩
  · unfold RemoveButton
    rw [h.sizer]
    simp only [hlen, RemoveButton_loop_found btnid pre b hb post hpost, hdet,
      RemoveButton.restore, hl, hs]
    simp
  · refine ⟨rfl, h.button, h.outer, h.row, ?_, h.allocated, ?_, ?_, ?_⟩
    · intro hmem
      exact h.shown (List.mem_filter.mp hmem).1
    · intro w hw
      apply h.older
      rcases List.mem_append.mp hw with hw | hw
      · exact List.mem_append_left _ hw
      · exact List.mem_append_right _ (List.mem_cons_of_mem _ hw)
    · intro w hw
      apply h.fresh
      rcases List.mem_append.mp hw with hw | hw
      · exact List.mem_append_left _ hw
      · exact List.mem_append_right _ (List.mem_cons_of_mem _ hw)
    · rw [List.pairwise_append]
      refine ⟨hsorted.1, (List.pairwise_cons.mp hsorted.2.1).2, ?_⟩
      intro x hx y hy
      exact hsorted.2.2 x hx y (List.mem_cons_of_mem _ hy)

/-- Either no button has the id or there is a last one that has it. -/
theorem split_last_with_id (btnid : Int) (bs : List wxWindow) :
    (∀ w ∈ bs, w.m_windowId ≠ btnid) ∨
    ∃ pre b post, bs = pre ++ b :: post ∧ b.m_windowId = btnid ∧
      ∀ w ∈ post, w.m_windowId ≠ btnid := by
  induction bs using List.reverseRecOn with
  | nil => left; intro w hw; cases hw
  | append_singleton bs c ih =>
    by_cases hc : c.m_windowId = btnid
    · right
      exact ⟨bs, c, [], rfl, hc, by intro w hw; cases hw⟩
    · rcases ih with ih | ⟨pre, b, post, rfl, hb, hpost⟩
      · left
        intro w hw
        rcases List.mem_append.mp hw with hw | hw
        · exact ih w hw
        · simp at hw; subst hw; exact hc
      · right
        refine ⟨pre, b, post ++ [c], by simp, hb, ?_⟩
        intro w hw
        rcases List.mem_append.mp hw with hw | hw
        · exact hpost w hw
        · simp at hw; subst hw; exact hc

/-- Every reached state has the shape described by `Shape`. -/
theorem Reachable_Shape {bar : wxInfoBarGeneric} (h : Reachable bar) :
    ∃ mb bs, Shape bar mb bs := by
  induction h with
  | create self heapTop => exact ⟨_, _, Shape_created self heapTop⟩
  | addButton btnid _ hadd ih =>
    obtain ⟨mb, bs, hs⟩ := ih
    obtain ⟨bar1, h1, hs1⟩ := AddButton_Shape hs btnid
    rw [h1] at hadd
    cases hadd
    exact ⟨_, _, hs1⟩
  | removeButton btnid _ hrem ih =>
    obtain ⟨mb, bs, hs⟩ := ih
    rcases split_last_with_id btnid bs with hno | ⟨pre, b, post, rfl, hb, hpost⟩
    · rw [RemoveButton_absent hs btnid hno] at hrem
      cases hrem
      exact ⟨_, _, hs⟩
    · obtain ⟨bar1, h1, hs1, _⟩ := RemoveButton_present hs btnid hb hpost
      rw [h1] at hrem
      cases hrem
      exact ⟨_, _, hs1⟩

/-- A run of `AddButton` calls returns and appends one button for each id. -/
theorem addButtons_Shape (ids : List Int) :
    ∀ {bar : wxInfoBarGeneric} {mb : wxWindow} {bs : List wxWindow}, Shape bar mb bs →
    ∃ bar1 ws, addButtons bar ids = .ok bar1 ∧ Shape bar1 mb (bs ++ ws) ∧
      List.Forall₂ idAsGiven ws ids := by
  induction ids with
  | nil =>
    intro bar mb bs h
    exact ⟨bar, [], rfl, by simpa using h, List.Forall₂.nil⟩
  | cons btnid rest ih =>
    intro bar mb bs h
    obtain ⟨bar1, h1, hs1⟩ := AddButton_Shape h btnid
    obtain ⟨bar2, ws, h2, hs2, hids⟩ := ih hs1
    refine ⟨bar2, newWindow bar.heapTop btnid :: ws, ?_, ?_, ?_⟩
    · simp [addButtons, h1, h2]
    · simpa using hs2
    · exact List.Forall₂.cons (newWindow_idAsGiven _ _) hids

/-- In a reached state `GetButtonCount` is the number of buttons. -/
theorem GetButtonCount_Shape {bar : wxInfoBarGeneric} {mb : wxWindow} {bs : List wxWindow}
    (h : Shape bar mb bs) : bar.GetButtonCount = bs.length := by
  simp [GetButtonCount, h.sizer, h.button, layout_length,
    GetButtonCount_loop_layout mb bs h.older 0]

/-- In a reached state `HasButtonId` tells whether a button has the id. -/
theorem HasButtonId_Shape {bar : wxInfoBarGeneric} {mb : wxWindow} {bs : List wxWindow}
    (h : Shape bar mb bs) (btnid : Int) :
    bar.HasButtonId btnid = .ok (bs.any fun w => w.m_windowId == btnid) := by
  simp [HasButtonId, h.sizer, layout_length, HasButtonId_loop_layout btnid bs]

/-- The recording loop counts what `GetButtonCount.loop` counts. -/
theorem GetButtonCount_scan_count (items : List wxSizerItem) (mb : Option wxWindow) :
    ∀ node count, (GetButtonCount.scan items mb node count).count
      = GetButtonCount.loop items mb node count := by
  intro node
  induction node with
  | zero => intro count; rfl
  | succ n ih =>
    intro count
    unfold GetButtonCount.scan GetButtonCount.loop
    cases items[n + 1]? with
    | none => rfl
    | some item =>
      simp only []
      split
      · rfl
      · split
        · rfl
        · exact ih (count + 1)

/-- The recording body returns what `GetButtonCount` returns. -/
theorem GetButtonCount_trace_count (bar : wxInfoBarGeneric) :
    (GetButtonCount.trace bar).count = bar.GetButtonCount := by
  unfold GetButtonCount.trace GetButtonCount
  cases bar.m_windowSizer with
  | none => rfl
  | some items => exact GetButtonCount_scan_count items bar.m_button _ _

/-- Reading nodes first does not change how the scan ended. -/
theorem Scan_after_result (pre : List Nat) (s : Scan) : (Scan.after pre s).result = s.result :=
  rfl

/-- The loop of `GetButtonCount` reads positions from `1` up to its start. -/
theorem GetButtonCount_scan_positions (items : List wxSizerItem) (mb : Option wxWindow) :
    ∀ node count, ∀ i ∈ (GetButtonCount.scan items mb node count).visited,
      1 ≤ i ∧ i ≤ node := by
  intro node
  induction node with
  | zero => intro count i hi; simp [GetButtonCount.scan] at hi
  | succ n ih =>
    intro count i hi
    unfold GetButtonCount.scan at hi
    cases hget : items[n + 1]? with
    | none => rw [hget] at hi; simp at hi
    | some item =>
      rw [hget] at hi
      simp only [] at hi
      split at hi
      · simp at hi; omega
      · split at hi
        · simp at hi; omega
        · simp only [List.mem_cons] at hi
          rcases hi with h | h
          · omega
          · have := ih (count + 1) i h
            omega

/-- The loop of `GetButtonCount` never reads the first node. -/
theorem GetButtonCount_trace_skips_first (bar : wxInfoBarGeneric) :
    0 ∉ (GetButtonCount.trace bar).visited := by
  unfold GetButtonCount.trace
  cases bar.m_windowSizer with
  | none => simp
  | some items =>
    intro h
    have := (GetButtonCount_scan_positions items bar.m_button _ 0 0 h).1
    omega

/-- Recording a visit does not change how the scan ended. -/
theorem Scan_visit_result (i : Nat) (s : Scan) : (Scan.visit i s).result = s.result := rfl

/-- The loop of `GetButtonId` ends within the iterations `scanBudget` counts. -/
theorem GetButtonId_loop_fuel (items : List wxSizerItem) (mb : Option wxWindow) (idx : Nat) :
    ∀ fuel node foundSpacer count, scanBudget items.length node foundSpacer < fuel →
      (GetButtonId.loop items mb idx fuel node foundSpacer count).result ≠ .error .outOfFuel := by
  intro fuel
  induction fuel with
  | zero => intro node fs count h; exact absurd h (Nat.not_lt_zero _)
  | succ fuel ih =>
    intro node fs count h
    unfold GetButtonId.loop
    split
    · cases node with
      | none => simp
      | some i =>
        simp only []
        cases hi : items[i]? with
        | none => simp
        | some item =>
          have hlt : i < items.length := by
            by_contra hc
            rw [List.getElem?_eq_none (Nat.le_of_not_lt hc)] at hi
            cases hi
          have hfwd : ∀ c, (GetButtonId.loop items mb idx fuel (GetNext items i) true c).result
              ≠ .error .outOfFuel := by
            intro c
            apply ih
            unfold GetNext
            cases fs <;> split <;> simp only [scanBudget] at h ⊢ <;> omega
          simp only [Scan_visit_result]
          cases hsp : item.IsSpacer with
          | true => simpa using hfwd count
          | false =>
            cases fs with
            | true =>
              simp only [if_true, Bool.not_false, Bool.false_eq_true, if_false]
              split
              · split
                · split <;> simp
                · exact hfwd _
              · exact hfwd _
            | false =>
              simp only [Bool.false_eq_true, if_false]
              apply ih
              unfold GetPrevious
              split <;> simp only [scanBudget] at h ⊢ <;> omega
    · simp

/-- The budget `GetButtonId` gives its loop is never used up. -/
theorem GetButtonId_budget (bar : wxInfoBarGeneric) (idx : Nat) :
    (bar.GetButtonId idx).result ≠ .error .outOfFuel := by
  unfold GetButtonId
  simp only []
  split
  · simp
  · cases hs : bar.m_windowSizer with
    | none => simp
    | some items =>
      simp only [Scan_after_result]
      apply GetButtonId_loop_fuel
      unfold GetLast
      split <;> simp only [scanBudget] <;> omega

/-- In a sizer of two or more items without a spacer the loop of `GetButtonId`
walks back past the first node and dereferences the null iterator. -/
theorem GetButtonId_loop_no_spacer (items : List wxSizerItem) (mb : Option wxWindow) (idx : Nat)
    (hlen : 2 ≤ items.length) (hns : ∀ item ∈ items, item.IsSpacer = false) :
    ∀ i fuel count, i < items.length → i + 2 ≤ fuel →
      (GetButtonId.loop items mb idx fuel (some i) false count).result
        = .error .nullDereference := by
  have hfirst : GetFirst items = some 0 := by
    cases items with
    | nil => simp at hlen
    | cons a t => rfl
  have hlast : GetLast items = some (items.length - 1) := by
    cases items with
    | nil => simp at hlen
    | cons a t => rfl
  intro i
  induction i with
  | zero =>
    intro fuel count _ hf
    obtain ⟨f, rfl⟩ : ∃ f, fuel = f + 2 := ⟨fuel - 2, by omega⟩
    have h0 : ∃ item, items[0]? = some item ∧ item.IsSpacer = false := by
      cases items with
      | nil => simp at hlen
      | cons a t => exact ⟨a, by simp, hns a (List.mem_cons_self _ _)⟩
    obtain ⟨item, hi, hsp⟩ := h0
    have hne : (some 0 != some (items.length - 1)) = true := by
      simp; omega
    unfold GetButtonId.loop
    simp only [hfirst, hlast, hne, Bool.or_true, if_true, hi, hsp, Bool.false_eq_true, if_false,
      Scan_visit_result, GetPrevious]
    unfold GetButtonId.loop
    simp [hfirst]
  | succ n ih =>
    intro fuel count hn hf
    obtain ⟨f, rfl⟩ : ∃ f, fuel = f + 1 := ⟨fuel - 1, by omega⟩
    have hi : ∃ item, items[n + 1]? = some item ∧ item.IsSpacer = false := by
      refine ⟨items[n + 1], List.getElem?_eq_getElem hn, hns _ (List.getElem_mem _)⟩
    obtain ⟨item, hi, hsp⟩ := hi
    have hne : (some (n + 1) != some 0) = true := by simp
    unfold GetButtonId.loop
    simp only [hfirst, hne, Bool.true_or, if_true, hi, hsp, Bool.false_eq_true, if_false,
      Scan_visit_result, GetPrevious, Nat.add_sub_cancel, Nat.succ_ne_zero]
    exact ih f count (by omega) (by omega)

/-- In a reached state `GetButtonId` faults for every index below the count. -/
theorem GetButtonId_Shape {bar : wxInfoBarGeneric} {mb : wxWindow} {bs : List wxWindow}
    (h : Shape bar mb bs) (idx : Nat) (hidx : idx < bs.length) :
    (bar.GetButtonId idx).result = .error .nullDereference := by
  have hlayout : ∀ item ∈ layout bs, item.IsSpacer = false := by
    intro item hitem
    simp only [layout, List.mem_cons, List.mem_map] at hitem
    rcases hitem with rfl | ⟨w, _, rfl⟩ <;> rfl
  have hlen := layout_length bs
  unfold GetButtonId
  simp only [GetButtonCount_trace_count]
  rw [GetButtonCount_Shape h]
  simp only [hidx, decide_True, Bool.not_true, Bool.false_eq_true, if_false, h.sizer,
    Scan_after_result]
  have hlast : GetLast (layout bs) = some bs.length := by
    simp [GetLast, layout]
  rw [hlast]
  exact GetButtonId_loop_no_spacer (layout bs) _ idx (by omega) hlayout bs.length _ 0
    (by omega) (by omega)


/-- In a reached state `AddButton` and `RemoveButton` return, whatever the id. -/
theorem Reachable_calls_return {bar : wxInfoBarGeneric} (h : Reachable bar) (btnid : Int) :
    (∃ bar1, bar.AddButton btnid = .ok bar1) ∧ (∃ bar1, bar.RemoveButton btnid = .ok bar1) := by
  obtain ⟨mb, bs, hs⟩ := Reachable_Shape h
  constructor
  · obtain ⟨bar1, h1, _⟩ := AddButton_Shape hs btnid
    exact ⟨bar1, h1⟩
  · rcases split_last_with_id btnid bs with hno | ⟨pre, b, post, rfl, hb, hpost⟩
    · exact ⟨bar, RemoveButton_absent hs btnid hno⟩
    · obtain ⟨bar1, h1, _⟩ := RemoveButton_present hs btnid hb hpost
      exact ⟨bar1, h1⟩

/-- The scan of `GetButtonId` on the layout the comment in `Create` describes
(icon, text, spacer, then the buttons in one sizer): the check reads the
nodes 4, 3 and 2, then the loop walks back to the spacer, then forwards, and
returns the id of the button at the index. -/
theorem GetButtonId_one_sizer_example :
    ({ created 0 1 with
        m_windowSizer := some [.Item_Window (newWindow 1 wxID_ANY),
          .Item_Window (newWindow 2 wxID_ANY),
          .Item_Spacer 0, .Item_Window ⟨5, 100⟩, .Item_Window ⟨6, 200⟩] } :
      wxInfoBarGeneric).GetButtonId 1 = ⟨.ok 200, [4, 3, 2] ++ [4, 3, 2, 3, 4]⟩ := by
  decide

/-! ## The verified properties -/

/-- Claim C1 (the code departs from it): after `Create()`, the first
`AddButton(id, label)` is said to detach the standard close button from the
sizer that holds it and to hide it. In the code `Detach` is asked of the bar's
own sizer, whose only item is the nested `defaultControlSizer`, while the
close button is an item of the nested `firstRowSizer`: the nested sizers are
left as they were, the close button is still the last item of the first row,
still part of the layout and still shown, and the new button (with the id
`newWindow` gives it) is added after the nested sizer. -/
theorem AddButton_after_Create_keeps_close_button (self heapTop : Nat) (btnid : Int) :
    ∃ bar b, (created self heapTop).AddButton btnid = .ok bar ∧
      bar.m_button = some b ∧
      bar.firstRowSizer = (created self heapTop).firstRowSizer ∧
      bar.firstRowSizer.getLast? = some (.Item_Window b) ∧
      bar.inLayout b = true ∧
      bar.childShown b = true ∧
      bar.m_windowSizer
        = some [.Item_Sizer .defaultControlSizer,
            .Item_Window (newWindow (heapTop + 4) btnid)] := by
  refine ⟨_, ⟨heapTop + 2, wxID_CLOSE⟩, rfl, rfl, rfl, rfl, ?_, ?_, rfl⟩
  · simp [inLayout, holds, nested, created, constructed, Create, Init, blank, AddButton,
      wxSizer.Detach, wxSizer.Add, ptrEq, wxSizerItem.GetWindow, newWindow]
  · simp [childShown, created, constructed, Create, Init, blank, AddButton, wxSizer.Detach,
      wxSizer.Add, ptrEq, wxSizerItem.GetWindow, newWindow]

/-- Claim C2 (the code departs from it): after `Create()` and the calls
`AddButton(i_0)`, ..., `AddButton(i_{n-1})`, `GetButtonId(idx)` with `idx < n`
is said to return `i_idx`. In the code the bar's sizer then holds no spacer,
so the loop of `GetButtonId` walks from the last node back past the first one
and dereferences the null iterator: the call does not return, for every `n`,
every ids and every `idx < n`. -/
theorem GetButtonId_after_AddButton_faults (self heapTop : Nat) (ids : List Int) (idx : Nat)
    (hidx : idx < ids.length) :
    ∃ bar, addButtons (created self heapTop) ids = .ok bar ∧
      bar.GetButtonCount = ids.length ∧
      (bar.GetButtonId idx).result = .error .nullDereference := by
  obtain ⟨bar, ws, hrun, hshape, hids⟩ := addButtons_Shape ids (Shape_created self heapTop)
  have hlen : ([] ++ ws).length = ids.length := by
    rw [List.nil_append]; exact hids.length_eq
  refine ⟨bar, hrun, ?_, ?_⟩
  · rw [GetButtonCount_Shape hshape, hlen]
  · exact GetButtonId_Shape hshape idx (by rw [hlen]; exact hidx)

/-- The failing call of claim C2 at one button: `Create()`, `AddButton(100)`,
`GetButtonId(0)`. -/
theorem GetButtonId_after_AddButton_faults_witness :
    0 < [(100 : Int)].length ∧
    ∃ bar, addButtons (created 0 1) [100] = .ok bar ∧
      bar.GetButtonCount = [(100 : Int)].length ∧
      (bar.GetButtonId 0).result = .error .nullDereference :=
  ⟨by decide, GetButtonId_after_AddButton_faults 0 1 [100] 0 (by decide)⟩

/-- Claim C3: for every `n`, after `Create()` followed by `n` calls of
`AddButton` (with any ids), all calls return and `GetButtonCount()` returns
`n`; directly after `Create()` it returns 0, and it returns 0 for a bar
without a sizer. -/
theorem GetButtonCount_after_AddButton (self heapTop : Nat) (ids : List Int)
    (bar0 : wxInfoBarGeneric) :
    (∃ bar, addButtons (created self heapTop) ids = .ok bar ∧
      bar.GetButtonCount = ids.length) ∧
    (created self heapTop).GetButtonCount = 0 ∧
    ({ bar0 with m_windowSizer := none } : wxInfoBarGeneric).GetButtonCount = 0 := by
  refine ⟨?_, rfl, rfl⟩
  obtain ⟨bar, ws, hrun, hshape, hids⟩ := addButtons_Shape ids (Shape_created self heapTop)
  refine ⟨bar, hrun, ?_⟩
  rw [GetButtonCount_Shape hshape, List.nil_append, hids.length_eq]

/-- Claim C4: in every state reached by `Create()` followed by calls of
`AddButton`, the bar's sizer holds, after the nested sizer, one button window
for each call, in the order of the calls; the window id of a button is the id
given to its call or, when that is `wxID_ANY`, an automatic id generated by
the toolkit. `HasButtonId(id)` returns true exactly when one of these windows
has the window id `id` (so it returns false for `wxID_ANY`, which no window
has); for a bar without a sizer it returns false. -/
theorem HasButtonId_after_AddButton (self heapTop : Nat) (ids : List Int) (btnid : Int)
    (bar0 : wxInfoBarGeneric) :
    (∃ bar ws, addButtons (created self heapTop) ids = .ok bar ∧
      bar.m_windowSizer = some (layout ws) ∧
      List.Forall₂ idAsGiven ws ids ∧
      bar.HasButtonId btnid = .ok (decide (∃ w ∈ ws, w.m_windowId = btnid)) ∧
      bar.HasButtonId wxID_ANY = .ok false) ∧
    ({ bar0 with m_windowSizer := none } : wxInfoBarGeneric).HasButtonId btnid = .ok false := by
  refine ⟨?_, rfl⟩
  obtain ⟨bar, ws, hrun, hshape, hids⟩ := addButtons_Shape ids (Shape_created self heapTop)
  rw [List.nil_append] at hshape
  refine ⟨bar, ws, hrun, hshape.sizer, hids, ?_, ?_⟩
  · rw [HasButtonId_Shape hshape]
    congr 1
    rw [Bool.eq_iff_iff]
    simp [List.any_eq_true]
  · rw [HasButtonId_Shape hshape]
    congr 1
    rw [Bool.eq_false_iff]
    intro hany
    obtain ⟨w, hw, hwid⟩ := List.any_eq_true.mp hany
    exact forall₂_idAsGiven_ne_any hids w hw (by simpa using hwid)

/-- Claim C6: in a reached state whose added buttons are `pre`, then `b`, then
`post`, where `b` has the id `id`, no button of `post` has it (so `b` is the
one with this id that was added last) and some button of `pre` has it too,
`RemoveButton(id)` returns and removes `b` alone: the other buttons stay in
their order, `HasButtonId(id)` is still true and `GetButtonCount()` is one
less than before. -/
theorem RemoveButton_removes_last_added (bar : wxInfoBarGeneric) (hreach : Reachable bar)
    (btnid : Int) (pre post : List wxWindow) (b : wxWindow)
    (hsizer : bar.m_windowSizer = some (layout (pre ++ b :: post)))
    (hb : b.m_windowId = btnid)
    (hpost : ∀ w ∈ post, w.m_windowId ≠ btnid)
    (hpre : ∃ w ∈ pre, w.m_windowId = btnid) :
    ∃ bar1, bar.RemoveButton btnid = .ok bar1 ∧
      bar1.m_windowSizer = some (layout (pre ++ post)) ∧
      bar1.HasButtonId btnid = .ok true ∧
      bar1.GetButtonCount + 1 = bar.GetButtonCount := by
  obtain ⟨mb, bs, hs⟩ := Reachable_Shape hreach
  have hbs : bs = pre ++ b :: post := by
    have h := hs.sizer
    rw [hsizer] at h
    exact (layout_injective (Option.some.inj h)).symm
  subst hbs
  obtain ⟨bar1, h1, hs1, _⟩ := RemoveButton_present hs btnid hb hpost
  refine ⟨bar1, h1, hs1.sizer, ?_, ?_⟩
  · rw [HasButtonId_Shape hs1]
    congr 1
    obtain ⟨w, hw, hwid⟩ := hpre
    exact List.any_eq_true.mpr ⟨w, List.mem_append_left _ hw, by simp [hwid]⟩
  · rw [GetButtonCount_Shape hs1, GetButtonCount_Shape hs]
    simp
    omega

/-- Claim C6 at the state after `Create()`, `AddButton(7)`, `AddButton(8)`,
`AddButton(7)`: `RemoveButton(7)` removes the third button. -/
theorem RemoveButton_removes_last_added_witness :
    ∃ bar1,
      ({ created 0 1 with
          m_windowSizer := some (layout [⟨5, 7⟩, ⟨6, 8⟩, ⟨7, 7⟩]),
          heapTop := 8 } : wxInfoBarGeneric).RemoveButton 7 = .ok bar1 ∧
      bar1.m_windowSizer = some (layout ([⟨5, 7⟩, ⟨6, 8⟩] ++ [])) ∧
      bar1.HasButtonId 7 = .ok true ∧
      bar1.GetButtonCount + 1
        = ({ created 0 1 with
              m_windowSizer := some (layout [⟨5, 7⟩, ⟨6, 8⟩, ⟨7, 7⟩]),
              heapTop := 8 } : wxInfoBarGeneric).GetButtonCount :=
  RemoveButton_removes_last_added _
    (Reachable.addButton 7
      (Reachable.addButton 8
        (Reachable.addButton 7 (Reachable.create 0 1) rfl :
          Reachable { created 0 1 with
            m_windowSizer := some (layout [⟨5, 7⟩]), heapTop := 6 })
        rfl :
        Reachable { created 0 1 with
          m_windowSizer := some (layout [⟨5, 7⟩, ⟨6, 8⟩]), heapTop := 7 })
      rfl)
    7 [⟨5, 7⟩, ⟨6, 8⟩] [] ⟨7, 7⟩ rfl rfl (by intro w hw; cases hw)
    ⟨⟨5, 7⟩, by decide, rfl⟩

/-- Claim C7 as stated fails: `GetButtonId(idx)` with `idx` not below
`GetButtonCount()` does scan the sizer, because its check calls
`GetButtonCount()`. After `Create()` and `AddButton(7)` the count is 1 and
`GetButtonId(1)` returns `wxID_NONE` having read the node 1; on a sizer that
holds a text window, the spacer and two buttons the count is 2 and
`GetButtonId(2)` returns `wxID_NONE` having read the nodes 3, 2 and 1. -/
theorem GetButtonId_out_of_range_reads_nodes :
    (∃ bar, addButtons (created 0 1) [7] = .ok bar ∧ bar.GetButtonCount ≤ 1 ∧
      bar.GetButtonId 1 = ⟨.ok wxID_NONE, [1]⟩) ∧
    spacerBar.GetButtonCount ≤ 2 ∧
    spacerBar.GetButtonId 2 = ⟨.ok wxID_NONE, [3, 2, 1]⟩ :=
  ⟨⟨_, rfl, by decide, by decide⟩, by decide, by decide⟩

/-- Claim C7 as amended: for every state of the bar and every `idx` that is
not below `GetButtonCount()`, and for every `idx` when the bar has no sizer,
`GetButtonId(idx)` returns `wxID_NONE` without entering its loop: the nodes
of the sizer that the call reads are exactly those that the `GetButtonCount()`
call of its check reads, the first node is not among them, and no node is
read when the bar has no sizer. The function only reads the bar (it yields no
new state). -/
theorem GetButtonId_out_of_range (bar : wxInfoBarGeneric) (idx : Nat)
    (h : bar.m_windowSizer = none ∨ bar.GetButtonCount ≤ idx) :
    bar.GetButtonId idx = ⟨.ok wxID_NONE, (GetButtonCount.trace bar).visited⟩ ∧
    0 ∉ (bar.GetButtonId idx).visited ∧
    (bar.m_windowSizer = none → bar.GetButtonId idx = ⟨.ok wxID_NONE, []⟩) := by
  have hc : bar.GetButtonCount ≤ idx := by
    rcases h with h | h
    · simp [GetButtonCount, h]
    · exact h
  have hcall : bar.GetButtonId idx = ⟨.ok wxID_NONE, (GetButtonCount.trace bar).visited⟩ := by
    simp [GetButtonId, GetButtonCount_trace_count, Nat.not_lt.mpr hc]
  refine ⟨hcall, ?_, ?_⟩
  · rw [hcall]
    exact GetButtonCount_trace_skips_first bar
  · intro hnone
    rw [hcall]
    simp [GetButtonCount.trace, hnone]

/-- Claim C7 as amended, at a bar without a sizer and at a created bar with
one button. -/
theorem GetButtonId_out_of_range_witness :
    ((constructed 0 1).m_windowSizer = none ∧
      (constructed 0 1).GetButtonId 0 = ⟨.ok wxID_NONE, []⟩) ∧
    (({ created 0 1 with m_windowSizer := some (layout [⟨5, 7⟩]) } :
        wxInfoBarGeneric).GetButtonCount ≤ 1 ∧
      ({ created 0 1 with m_windowSizer := some (layout [⟨5, 7⟩]) } :
        wxInfoBarGeneric).GetButtonId 1
        = ⟨.ok wxID_NONE,
            (GetButtonCount.trace ({ created 0 1 with m_windowSizer := some (layout [⟨5, 7⟩]) } :
              wxInfoBarGeneric)).visited⟩) :=
  ⟨⟨rfl, (GetButtonId_out_of_range _ 0 (Or.inl rfl)).2.2 rfl⟩,
   ⟨by decide, (GetButtonId_out_of_range _ 1 (Or.inr (by decide))).1⟩⟩

/-- Claim C8: `GetShowEffect()` and `GetHideEffect()` return the stored effect
when it is not `wxSHOW_EFFECT_MAX`; otherwise (as after `Init()`, which stores
`wxSHOW_EFFECT_MAX` in both) the result is a function of `GetBarPlacement()`
alone: (slide to bottom, slide to top) at the top, (slide to top, slide to
bottom) at the bottom, (none, none) for an unknown placement, the default hide
effect being the reverse of the default show effect. -/
theorem show_hide_effect_defaults (bar : wxInfoBarGeneric) :
    bar.GetShowEffect =
      (if bar.m_showEffect ≠ .wxSHOW_EFFECT_MAX then .ok bar.m_showEffect
       else bar.GetBarPlacement.map defaultShowEffect) ∧
    bar.GetHideEffect =
      (if bar.m_hideEffect ≠ .wxSHOW_EFFECT_MAX then .ok bar.m_hideEffect
       else bar.GetBarPlacement.map defaultHideEffect) ∧
    (Init bar).m_showEffect = .wxSHOW_EFFECT_MAX ∧
    (Init bar).m_hideEffect = .wxSHOW_EFFECT_MAX ∧
    (defaultShowEffect .BarPlacement_Top, defaultHideEffect .BarPlacement_Top)
      = (.wxSHOW_EFFECT_SLIDE_TO_BOTTOM, .wxSHOW_EFFECT_SLIDE_TO_TOP) ∧
    (defaultShowEffect .BarPlacement_Bottom, defaultHideEffect .BarPlacement_Bottom)
      = (.wxSHOW_EFFECT_SLIDE_TO_TOP, .wxSHOW_EFFECT_SLIDE_TO_BOTTOM) ∧
    (defaultShowEffect .BarPlacement_Unknown, defaultHideEffect .BarPlacement_Unknown)
      = (.wxSHOW_EFFECT_NONE, .wxSHOW_EFFECT_NONE) ∧
    (∀ p, defaultHideEffect p = reverseEffect (defaultShowEffect p)) := by
  refine ⟨?_, ?_, rfl, rfl, rfl, rfl, rfl, ?_⟩
  · unfold GetShowEffect
    by_cases h : bar.m_showEffect = .wxSHOW_EFFECT_MAX
    · simp [h]
      cases hp : bar.GetBarPlacement with
      | error f => rfl
      | ok p => cases p <;> rfl
    · simp [h]
  · unfold GetHideEffect
    by_cases h : bar.m_hideEffect = .wxSHOW_EFFECT_MAX
    · simp [h]
      cases hp : bar.GetBarPlacement with
      | error f => rfl
      | ok p => cases p <;> rfl
    · simp [h]
  · intro p; cases p <;> rfl

end wxInfoBarGeneric

/-- Claim C9: each type-specific accessor of `wxSplitterEvent` evaluates one
assertion, and the assertion holds exactly for the event types the accessor
is meant for: `SetSashPosition` and `GetSashPosition` for the three sash
position types, `SetSize`, `GetOldSize` and `GetNewSize` for
`SASH_POS_RESIZE`, `GetWindowBeingRemoved` for `UNSPLIT`, `GetX` and `GetY`
for `DOUBLECLICKED`. -/
theorem wxSplitterEvent_accessor_assertions (e : wxSplitterEvent) (pos oldSize newSize : Int) :
    (e.SetSashPosition pos).guardedBy
      (e.m_eventType = .wxEVT_SPLITTER_SASH_POS_CHANGED
        ∨ e.m_eventType = .wxEVT_SPLITTER_SASH_POS_CHANGING
        ∨ e.m_eventType = .wxEVT_SPLITTER_SASH_POS_RESIZE) ∧
    e.GetSashPosition.guardedBy
      (e.m_eventType = .wxEVT_SPLITTER_SASH_POS_CHANGED
        ∨ e.m_eventType = .wxEVT_SPLITTER_SASH_POS_CHANGING
        ∨ e.m_eventType = .wxEVT_SPLITTER_SASH_POS_RESIZE) ∧
    (e.SetSize oldSize newSize).guardedBy
      (e.m_eventType = .wxEVT_SPLITTER_SASH_POS_RESIZE) ∧
    e.GetOldSize.guardedBy (e.m_eventType = .wxEVT_SPLITTER_SASH_POS_RESIZE) ∧
    e.GetNewSize.guardedBy (e.m_eventType = .wxEVT_SPLITTER_SASH_POS_RESIZE) ∧
    e.GetWindowBeingRemoved.guardedBy (e.m_eventType = .wxEVT_SPLITTER_UNSPLIT) ∧
    e.GetX.guardedBy (e.m_eventType = .wxEVT_SPLITTER_DOUBLECLICKED) ∧
    e.GetY.guardedBy (e.m_eventType = .wxEVT_SPLITTER_DOUBLECLICKED) := by
  obtain ⟨t, id, p, o, n, w⟩ := e
  cases t <;>
    simp [Checked.guardedBy, Checked.failed, wxSplitterEvent.SetSashPosition,
      wxSplitterEvent.GetSashPosition, wxSplitterEvent.SetSize, wxSplitterEvent.GetOldSize,
      wxSplitterEvent.GetNewSize, wxSplitterEvent.GetWindowBeingRemoved, wxSplitterEvent.GetX,
      wxSplitterEvent.GetY, wxSplitterEvent.isSashPosType]

/-- Claim C10 as stated fails: a sash event whose type was set to
`wxEVT_NULL` is of the wrong type, and neither `GetDragRect` nor
`SetDragRect` raises an assertion failure on it. -/
theorem wxSashEvent_drag_rect_wrong_type_not_caught :
    ((wxSashEvent.ctor 0 .wxSASH_NONE).SetEventType .wxEVT_NULL).m_eventType
      ≠ .wxEVT_SASH_DRAGGED ∧
    ((wxSashEvent.ctor 0 .wxSASH_NONE).SetEventType .wxEVT_NULL).GetDragRect.failed = false ∧
    (((wxSashEvent.ctor 0 .wxSASH_NONE).SetEventType .wxEVT_NULL).SetDragRect
      ⟨1, 2, 3, 4⟩).failed = false := by
  decide

/-- Claim C10 as amended: `wxSashEvent::GetDragRect` and `SetDragRect`
evaluate no assertion at all; for every event, of whatever type,
`GetDragRect` returns the stored rectangle and `SetDragRect` stores its
argument and changes nothing else. -/
theorem wxSashEvent_drag_rect_unguarded (e : wxSashEvent) (rect : wxRect) :
    e.GetDragRect.assertions = [] ∧
    e.GetDragRect.failed = false ∧
    e.GetDragRect.value = e.m_dragRect ∧
    (e.SetDragRect rect).assertions = [] ∧
    (e.SetDragRect rect).failed = false ∧
    (e.SetDragRect rect).value = { e with m_dragRect := rect } ∧
    (e.SetDragRect rect).value.GetDragRect.value = rect :=
  ⟨rfl, rfl, rfl, rfl, rfl, rfl, rfl⟩

/-- Claim C11: for every splitter window, `IsSplit()` is true exactly when
`GetWindow2()` is not null, and it does not change when the first window, the
split mode or the sash position are replaced by anything else. -/
theorem wxSplitterWindow_IsSplit_iff (w : wxSplitterWindow) (one : Option Nat)
    (mode : wxSplitMode) (pos : Int) :
    (w.IsSplit = true ↔ w.GetWindow2 ≠ none) ∧
    ({ w with m_windowOne := one, m_splitMode := mode, m_sashPosition := pos } :
      wxSplitterWindow).IsSplit = w.IsSplit := by
  constructor
  · simp [wxSplitterWindow.IsSplit, wxSplitterWindow.GetWindow2]
  · rfl

/-- Claim C12: the dock direction enumeration has six values, none = 0,
top = 1, right = 2, bottom = 3, left = 4, center = 5; they are pairwise
distinct, every direction is one of the six, and `wxAUI_DOCK_CENTRE` is
`wxAUI_DOCK_CENTER`. -/
theorem wxAuiManagerDock_values :
    wxAuiManagerDock.all.map wxAuiManagerDock.value = [0, 1, 2, 3, 4, 5] ∧
    wxAuiManagerDock.all.length = 6 ∧
    (wxAuiManagerDock.all.map wxAuiManagerDock.value).Nodup ∧
    (∀ d : wxAuiManagerDock, d ∈ wxAuiManagerDock.all) ∧
    (∀ d e : wxAuiManagerDock, d.value = e.value ↔ d = e) ∧
    wxAuiManagerDock.wxAUI_DOCK_CENTRE = wxAuiManagerDock.wxAUI_DOCK_CENTER ∧
    wxAuiManagerDock.wxAUI_DOCK_CENTRE.value = 5 := by
  refine ⟨rfl, rfl, by decide, ?_, ?_, rfl, rfl⟩
  · intro d; cases d <;> decide
  · intro d e; cases d <;> cases e <;> decide

/-- Claim C13: a call of `wxSashWindow::SashHitTest(x, y)` that leaves the
tolerance out is the call `SashHitTest(x, y, 2)`, whatever the body of the
function does. (`wxSplitterWindow::SashHitTest(x, y)` is declared without a
tolerance parameter.) -/
theorem wxSashWindow_SashHitTest_default
    (body : wxSashWindow → Int → Int → Int → wxSashEdgePosition) (w : wxSashWindow)
    (x y : Int) :
    wxSashWindow.SashHitTest body w x y none = wxSashWindow.SashHitTest body w x y (some 2) ∧
    wxSashWindow.SashHitTest body w x y none = body w x y 2 ∧
    wxSashWindow.SashHitTest.tolerance = 2 :=
  ⟨rfl, rfl, rfl⟩

namespace wxAuiManager

/-- A pane found by `find?` satisfies the test and is managed. -/
theorem GetPane_found (mgr : wxAuiManager) (window : Option Nat) (p : wxAuiPaneInfo)
    (h : mgr.m_panes.find? (fun q => q.window == window) = some p) :
    p ∈ mgr.m_panes ∧ p.window = window := by
  refine ⟨List.mem_of_find?_eq_some h, ?_⟩
  have := List.find?_some h
  simpa using this

/-- Claim C19: a lookup by a window or by a name that no managed pane has
returns the sentinel pane info, whose `IsOk()` is false; a lookup that
succeeds returns the managed pane; and `IsOk()` is true exactly for a pane
info that has a window. -/
theorem GetPane_not_found (mgr : wxAuiManager) (window : Option Nat) (name : wxString)
    (hw : ∀ p ∈ mgr.m_panes, p.window ≠ window)
    (hn : ∀ p ∈ mgr.m_panes, p.name ≠ name) :
    mgr.GetPane window = wxAuiNullPaneInfo ∧
    (mgr.GetPane window).IsOk = false ∧
    mgr.GetPaneNamed name = wxAuiNullPaneInfo ∧
    (mgr.GetPaneNamed name).IsOk = false ∧
    (∀ p : wxAuiPaneInfo, p.IsOk = true ↔ p.window ≠ none) := by
  have h1 : mgr.m_panes.find? (fun p => p.window == window) = none := by
    rw [List.find?_eq_none]
    intro p hp
    simpa using hw p hp
  have h2 : mgr.m_panes.find? (fun p => p.name == name) = none := by
    rw [List.find?_eq_none]
    intro p hp
    simpa using hn p hp
  refine ⟨?_, ?_, ?_, ?_, ?_⟩
  · simp [GetPane, h1]
  · simp [GetPane, h1, wxAuiNullPaneInfo, wxAuiPaneInfo.ctor, wxAuiPaneInfo.IsOk]
  · simp [GetPaneNamed, h2]
  · simp [GetPaneNamed, h2, wxAuiNullPaneInfo, wxAuiPaneInfo.ctor, wxAuiPaneInfo.IsOk]
  · intro p
    simp [wxAuiPaneInfo.IsOk]

/-- Claim C19 at a new manager with one pane added for the window 7 under the
name "a": the window 8 and the name "b" are looked up. -/
theorem GetPane_not_found_witness :
    (∀ p ∈ (ctor.AddPane (some 7) { wxAuiPaneInfo.ctor with name := ['a'] }).1.m_panes,
      p.window ≠ some 8) ∧
    (∀ p ∈ (ctor.AddPane (some 7) { wxAuiPaneInfo.ctor with name := ['a'] }).1.m_panes,
      p.name ≠ ['b']) ∧
    (ctor.AddPane (some 7) { wxAuiPaneInfo.ctor with name := ['a'] }).1.GetPane (some 8)
      = wxAuiNullPaneInfo ∧
    ((ctor.AddPane (some 7) { wxAuiPaneInfo.ctor with name := ['a'] }).1.GetPane
      (some 8)).IsOk = false ∧
    (ctor.AddPane (some 7) { wxAuiPaneInfo.ctor with name := ['a'] }).1.GetPaneNamed ['b']
      = wxAuiNullPaneInfo ∧
    ((ctor.AddPane (some 7) { wxAuiPaneInfo.ctor with name := ['a'] }).1.GetPaneNamed
      ['b']).IsOk = false ∧
    (∀ p : wxAuiPaneInfo, p.IsOk = true ↔ p.window ≠ none) :=
  ⟨by decide, by decide,
    GetPane_not_found _ (some 8) ['b'] (by decide) (by decide)⟩

/-- Claim C20: adding a window that the manager already manages is rejected:
`AddPane` returns false and the manager, with its panes, is what it was. -/
theorem AddPane_managed_window_rejected (mgr : wxAuiManager) (w : Nat)
    (pane_info : wxAuiPaneInfo) (h : ∃ p ∈ mgr.m_panes, p.window = some w) :
    (mgr.AddPane (some w) pane_info).2 = false ∧
    (mgr.AddPane (some w) pane_info).1 = mgr ∧
    (mgr.AddPane (some w) pane_info).1.GetAllPanes = mgr.GetAllPanes := by
  obtain ⟨p, hp, hpw⟩ := h
  have hfind : ∃ q, mgr.m_panes.find? (fun q => q.window == some w) = some q := by
    cases hq : mgr.m_panes.find? (fun q => q.window == some w) with
    | some q => exact ⟨q, rfl⟩
    | none =>
      rw [List.find?_eq_none] at hq
      exact absurd (by simpa using hpw) (hq p hp)
  obtain ⟨q, hq⟩ := hfind
  have hqw := (GetPane_found mgr (some w) q hq).2
  have hok : (mgr.GetPane (some w)).IsOk = true := by
    simp [GetPane, hq, wxAuiPaneInfo.IsOk, hqw]
  simp [AddPane, hok]

/-- Claim C20 at a manager that manages the window 7: the window is added a
second time, under another name. -/
theorem AddPane_managed_window_rejected_witness :
    (∃ p ∈ (ctor.AddPane (some 7) { wxAuiPaneInfo.ctor with name := ['a'] }).1.m_panes,
      p.window = some 7) ∧
    ((ctor.AddPane (some 7) { wxAuiPaneInfo.ctor with name := ['a'] }).1.AddPane (some 7)
      { wxAuiPaneInfo.ctor with name := ['b'] }).2 = false ∧
    ((ctor.AddPane (some 7) { wxAuiPaneInfo.ctor with name := ['a'] }).1.AddPane (some 7)
      { wxAuiPaneInfo.ctor with name := ['b'] }).1
      = (ctor.AddPane (some 7) { wxAuiPaneInfo.ctor with name := ['a'] }).1 ∧
    ((ctor.AddPane (some 7) { wxAuiPaneInfo.ctor with name := ['a'] }).1.AddPane (some 7)
      { wxAuiPaneInfo.ctor with name := ['b'] }).1.GetAllPanes
      = (ctor.AddPane (some 7) { wxAuiPaneInfo.ctor with name := ['a'] }).1.GetAllPanes :=
  ⟨by decide,
    AddPane_managed_window_rejected _ 7 { wxAuiPaneInfo.ctor with name := ['b'] } (by decide)⟩

end wxAuiManager
namespace wxAuiManager

/-! ### Lemmas on the perspective codec -/

/-- Reading what was written gives the tokens back. -/
theorem tokenize_render (ts : List Tok) : tokenize (render ts) = ts := by
  unfold tokenize
  induction ts with
  | nil => rfl
  | cons t rest ih =>
    cases t with
    | lit c =>
      by_cases hc : isReserved c = true
      · simp [render, Tok.render, hc, tokenize.go, ih]
      · have h := hc
        simp only [isReserved, Bool.or_eq_true, beq_iff_eq, not_or] at h
        simp [render, Tok.render, hc, tokenize.go, ih, h.1.1.1, h.1.1.2, h.1.2, h.2]
    | bar => simp [render, Tok.render, tokenize.go, ih]
    | semi => simp [render, Tok.render, tokenize.go, ih]
    | eq => simp [render, Tok.render, tokenize.go, ih]

/-- Splitting never gives an empty list of pieces. -/
theorem splitOn_ne_nil (sep : Tok) (ts : List Tok) : splitOn sep ts ≠ [] := by
  cases ts with
  | nil => simp [splitOn]
  | cons t rest =>
    unfold splitOn
    split
    · simp
    · split <;> simp

/-- A piece without the separator, followed by the separator, is the first
piece of the split. -/
theorem splitOn_append (sep : Tok) (piece rest : List Tok) (h : sep ∉ piece) :
    splitOn sep (piece ++ sep :: rest) = piece :: splitOn sep rest := by
  induction piece with
  | nil => simp [splitOn]
  | cons t piece ih =>
    have ht : t ≠ sep := fun e => h (e ▸ List.mem_cons_self _ _)
    have hp : sep ∉ piece := fun m => h (List.mem_cons_of_mem _ m)
    simp [splitOn, ht, ih hp]

/-- A piece without the separator is the only piece of its split. -/
theorem splitOn_single (sep : Tok) (piece : List Tok) (h : sep ∉ piece) :
    splitOn sep piece = [piece] := by
  induction piece with
  | nil => simp [splitOn]
  | cons t piece ih =>
    have ht : t ≠ sep := fun e => h (e ▸ List.mem_cons_self _ _)
    have hp : sep ∉ piece := fun m => h (List.mem_cons_of_mem _ m)
    simp [splitOn, ht, ih hp]

/-- A field holds neither `;` nor `|`. -/
theorem mkField_clean (kv : wxString × wxString) :
    Tok.semi ∉ mkField kv ∧ Tok.bar ∉ mkField kv := by
  simp [mkField, lits]

/-- The text of the tokens of a text is the text. -/
theorem detok_lits (s : wxString) : detok (lits s) = s := by
  induction s with
  | nil => rfl
  | cons c s ih =>
    simp only [detok, lits, List.map_cons, List.map_map] at ih ⊢
    rw [ih]
    rfl

/-- Breaking a written field gives its key and its value. -/
theorem parseField_mkField (kv : wxString × wxString) : parseField (mkField kv) = some kv := by
  obtain ⟨k, v⟩ := kv
  have hb : breakField (mkField (k, v)) = some (lits k, lits v) := by
    simp only [mkField]
    induction k with
    | nil => simp [lits, breakField]
    | cons c k ih =>
      simp only [lits, List.map_cons, List.cons_append] at ih ⊢
      simp [breakField, ih]
  simp [parseField, hb, detok_lits]

/-- Reading the written fields of a record gives the keys and values. -/
theorem parseFields_map_mkField (kvs : List (wxString × wxString)) :
    parseFields (kvs.map mkField) = some kvs := by
  induction kvs with
  | nil => rfl
  | cons kv rest ih => simp [parseFields, parseField_mkField, ih]

/-- A record holds no `|`. -/
theorem joinFields_no_bar (kvs : List (wxString × wxString)) :
    Tok.bar ∉ joinFields (kvs.map mkField) := by
  induction kvs with
  | nil => simp [joinFields]
  | cons kv rest ih =>
    cases rest with
    | nil => simpa [joinFields] using (mkField_clean kv).2
    | cons kv2 rest2 =>
      simp only [List.map_cons, joinFields, List.mem_append, List.mem_cons, not_or] at ih ⊢
      exact ⟨(mkField_clean kv).2, by simp, ih⟩

/-- Splitting a record at `;` gives its fields. -/
theorem splitOn_joinFields (kvs : List (wxString × wxString)) (h : kvs ≠ []) :
    splitOn .semi (joinFields (kvs.map mkField)) = kvs.map mkField := by
  induction kvs with
  | nil => exact absurd rfl h
  | cons kv rest ih =>
    cases rest with
    | nil => simpa [joinFields] using splitOn_single .semi _ (mkField_clean kv).1
    | cons kv2 rest2 =>
      have ih2 := ih (by simp)
      simp only [List.map_cons, joinFields] at ih2 ⊢
      rw [splitOn_append _ _ _ (mkField_clean kv).1, ih2]

/-- The value of the digit of a number below ten is the number. -/
theorem digitValue_digitChar (d : Nat) (h : d < 10) : digitValue (digitChar d) = some d := by
  interval_cases d <;> decide

/-- A digit is not the minus sign. -/
theorem digitChar_ne_minus (d : Nat) (h : d < 10) : digitChar d ≠ '-' := by
  interval_cases d <;> decide

/-- Reading digits after more digits continues from the number read. -/
theorem parseNat_go_append (xs ys : wxString) :
    ∀ acc, parseNat.go acc (xs ++ ys) = (parseNat.go acc xs).bind fun a => parseNat.go a ys := by
  induction xs with
  | nil => intro acc; rfl
  | cons c xs ih =>
    intro acc
    simp only [List.cons_append, parseNat.go]
    cases digitValue c with
    | none => rfl
    | some d => exact ih _

/-- Reading the digits of a number gives the number. -/
theorem parseNat_go_natDigits :
    ∀ fuel n, n < fuel → parseNat.go 0 (natDigits fuel n) = some n := by
  intro fuel
  induction fuel with
  | zero => intro n h; exact absurd h (Nat.not_lt_zero _)
  | succ fuel ih =>
    intro n h
    unfold natDigits
    by_cases h10 : n < 10
    · simp [h10, parseNat.go, digitValue_digitChar n h10]
    · have hdiv : n / 10 < fuel := by omega
      have hmod : n % 10 < 10 := Nat.mod_lt _ (by decide)
      simp only [h10, if_false, parseNat_go_append, ih (n / 10) hdiv, Option.some_bind,
        parseNat.go, digitValue_digitChar _ hmod]
      congr 1
      omega

/-- The digits of a number are not empty and start with a digit. -/
theorem natDigits_head (fuel n : Nat) :
    ∃ d rest, d < 10 ∧ natDigits (fuel + 1) n = digitChar d :: rest := by
  induction fuel generalizing n with
  | zero =>
    unfold natDigits
    by_cases h10 : n < 10
    · exact ⟨n, [], h10, by simp [h10]⟩
    · exact ⟨n % 10, [], Nat.mod_lt _ (by decide), by simp [h10, natDigits]⟩
  | succ fuel ih =>
    unfold natDigits
    by_cases h10 : n < 10
    · exact ⟨n, [], h10, by simp [h10]⟩
    · obtain ⟨d, rest, hd, hrest⟩ := ih (n / 10)
      exact ⟨d, rest ++ [digitChar (n % 10)], hd, by simp [h10, hrest]⟩

/-- Reading a printed natural number gives the number. -/
theorem parseNat_printNat (n : Nat) : parseNat (printNat n) = some n := by
  obtain ⟨d, rest, _, hrest⟩ := natDigits_head n n
  have h := parseNat_go_natDigits (n + 1) n (Nat.lt_succ_self n)
  unfold printNat parseNat
  rw [hrest] at h ⊢
  exact h

/-- Reading a printed integer gives the integer. -/
theorem parseInt_printInt (z : Int) : parseInt (printInt z) = some z := by
  cases z with
  | ofNat n =>
    obtain ⟨d, rest, hd, hrest⟩ := natDigits_head n n
    have h := parseNat_printNat n
    unfold printNat at h
    simp only [printInt, printNat, hrest, parseInt] at h ⊢
    simp [digitChar_ne_minus d hd, h]
  | negSucc n =>
    simp only [printInt, parseInt, if_true, parseNat_printNat]
    rfl

/-- Loading the fields written for a pane gives what a record keeps of it. -/
theorem LoadPaneInfo_paneFields (p : wxAuiPaneInfo) :
    LoadPaneInfo (paneFields p) wxAuiPaneInfo.ctor = some (kept p) := by
  have hints : lookupInts (paneFields p) intKeys
      = some [p.dock_direction, p.dock_layer, p.dock_row, p.dock_pos, p.dock_proportion,
          p.best_size.x, p.best_size.y, p.min_size.x, p.min_size.y, p.max_size.x,
          p.max_size.y, p.floating_pos.x, p.floating_pos.y, p.floating_size.x,
          p.floating_size.y] := by
    simp [lookupInts, intKeys, paneFields, lookupField, parseInt_printInt]
  have hname : lookupField ['n', 'a', 'm', 'e'] (paneFields p) = some p.name := by
    simp [paneFields, lookupField]
  have hcap : lookupField ['c', 'a', 'p', 't', 'i', 'o', 'n'] (paneFields p)
      = some p.caption := by
    simp [paneFields, lookupField]
  have hstate : (lookupField ['s', 't', 'a', 't', 'e'] (paneFields p)).bind parseNat
      = some p.state := by
    simp [paneFields, lookupField, parseNat_printNat]
  unfold LoadPaneInfo
  rw [hname, hcap, hstate, hints]
  rfl

/-- Reading the record written for a pane gives what a record keeps of it. -/
theorem parseRecord_paneRecord (p : wxAuiPaneInfo) :
    parseRecord (paneRecord p) = some (kept p) := by
  unfold parseRecord paneRecord
  rw [splitOn_joinFields _ (by simp [paneFields]), parseFields_map_mkField]
  exact LoadPaneInfo_paneFields p

/-- The record of the dock size constraint is not the record of a pane. -/
theorem parseRecord_constraintRecord (mgr : wxAuiManager) :
    parseRecord (constraintRecord mgr) = none := by
  have h := splitOn_joinFields
    [ ((['d', 'o', 'c', 'k', 'w'] : wxString),
        printNat mgr.m_dockConstraintX.num ++ '/' :: printNat mgr.m_dockConstraintX.den),
      ((['d', 'o', 'c', 'k', 'h'] : wxString),
        printNat mgr.m_dockConstraintY.num ++ '/' :: printNat mgr.m_dockConstraintY.den) ]
    (by simp)
  unfold parseRecord constraintRecord
  simp only [List.map_cons, List.map_nil] at h
  rw [h]
  simp [parseFields, parseField_mkField, LoadPaneInfo, lookupField]

/-- The empty record is malformed. -/
theorem parseRecord_nil : parseRecord [] = none := by
  simp [parseRecord, splitOn, parseFields, parseField, breakField]

/-- Splitting the written records at `|` gives the records. -/
theorem splitOn_paneRecords (panes : List wxAuiPaneInfo) (rest : List Tok) :
    splitOn .bar (paneRecords panes ++ rest) = panes.map paneRecord ++ splitOn .bar rest := by
  induction panes with
  | nil => rfl
  | cons p panes ih =>
    simp only [paneRecords, List.append_assoc, List.cons_append, List.map_cons]
    have hp : Tok.bar ∉ paneRecord p := joinFields_no_bar (paneFields p)
    rw [splitOn_append _ _ _ hp, ih]

/-- Reading the written records of panes gives what the records keep. -/
theorem parseRecords_paneRecords (panes : List wxAuiPaneInfo) (rest : List (List Tok)) :
    parseRecords (panes.map paneRecord ++ rest) = panes.map kept ++ parseRecords rest := by
  induction panes with
  | nil => rfl
  | cons p panes ih =>
    have e : parseRecords (paneRecord p :: (panes.map paneRecord ++ rest))
        = kept p :: parseRecords (panes.map paneRecord ++ rest) := by
      simp only [parseRecords, parseRecord_paneRecord]
    simp only [List.map_cons, List.cons_append]
    rw [e, ih]

/-- The panes read from a saved perspective are what the records keep of the
panes of the manager, in their order. -/
theorem savedPanes_SavePerspective (mgr : wxAuiManager) :
    savedPanes (SavePerspective mgr) = mgr.m_panes.map kept := by
  have hbar : Tok.bar ∉ constraintRecord mgr := by
    unfold constraintRecord
    exact joinFields_no_bar
      [ ((['d', 'o', 'c', 'k', 'w'] : wxString),
          printNat mgr.m_dockConstraintX.num ++ '/' :: printNat mgr.m_dockConstraintX.den),
        ((['d', 'o', 'c', 'k', 'h'] : wxString),
          printNat mgr.m_dockConstraintY.num ++ '/' :: printNat mgr.m_dockConstraintY.den) ]
  unfold savedPanes SavePerspective
  rw [tokenize_render, splitOn_paneRecords, parseRecords_paneRecords]
  have hrest : splitOn .bar (constraintRecord mgr ++ [.bar]) = [constraintRecord mgr, []] := by
    rw [splitOn_append _ _ _ hbar]
    rfl
  rw [hrest]
  simp [parseRecords, parseRecord_constraintRecord, parseRecord_nil]

end wxAuiManager
namespace wxAuiManager

/-! ### Lemmas on the merge by name -/

/-- `SafeSet` keeps the pointers of the receiver and takes the name and the
layout fields of the source. -/
theorem SafeSet_fields (p r : wxAuiPaneInfo) :
    (p.SafeSet r).window = p.window ∧ (p.SafeSet r).frame = p.frame ∧
    (p.SafeSet r).name = r.name ∧ (p.SafeSet r).layoutFields = r.layoutFields :=
  ⟨rfl, rfl, rfl, rfl⟩

/-- A merge step keeps the name of the pane. -/
theorem mergeStep_name (r p : wxAuiPaneInfo) : (mergeStep r p).name = p.name := by
  unfold mergeStep
  split
  · next h => exact h.symm
  · rfl

/-- A merge step changes no pane whose name is not the saved one. -/
theorem map_mergeStep_absent (r : wxAuiPaneInfo) (panes : List wxAuiPaneInfo)
    (h : r.name ∉ panes.map fun p => p.name) : panes.map (mergeStep r) = panes := by
  induction panes with
  | nil => rfl
  | cons p rest ih =>
    simp only [List.map_cons, List.mem_cons, not_or] at h
    have hp : ¬ p.name = r.name := fun e => h.1 e.symm
    simp [mergeStep, hp]
    exact ih h.2

/-- Among panes with distinct names, one step of `LoadPerspective` is the
merge step on each pane. -/
theorem applySaved_eq_map (r : wxAuiPaneInfo) (panes : List wxAuiPaneInfo)
    (h : (panes.map fun p => p.name).Nodup) : applySaved panes r = panes.map (mergeStep r) := by
  induction panes with
  | nil => rfl
  | cons p rest ih =>
    simp only [List.map_cons, List.nodup_cons] at h
    by_cases hp : p.name = r.name
    · have hrest := map_mergeStep_absent r rest (hp ▸ h.1)
      simp [applySaved, mergeStep, hp, hrest]
    · simp [applySaved, mergeStep, hp, ih h.2]

/-- Merging the saved panes one after the other, seen from one pane. -/
theorem merged_cons (r : wxAuiPaneInfo) (rs : List wxAuiPaneInfo) (p : wxAuiPaneInfo) :
    merged rs (mergeStep r p) = merged (r :: rs) p := by
  unfold merged
  rw [mergeStep_name, List.reverse_cons, List.find?_append]
  cases hfind : rs.reverse.find? (fun x => x.name == p.name) with
  | some s =>
    simp only [Option.or_some]
    unfold mergeStep
    split <;> rfl
  | none =>
    simp only [Option.none_or, List.find?_cons, List.find?_nil]
    unfold mergeStep
    by_cases hp : p.name = r.name
    · simp [hp]
    · have hr : (r.name == p.name) = false := by
        simpa using fun e : r.name = p.name => hp e.symm
      simp [hp, hr]

/-- Among panes with distinct names, `LoadPerspective` is the merge on each
pane. -/
theorem foldl_applySaved (rs : List wxAuiPaneInfo) :
    ∀ panes : List wxAuiPaneInfo, (panes.map fun p => p.name).Nodup →
      rs.foldl applySaved panes = panes.map (merged rs) := by
  induction rs with
  | nil =>
    intro panes _
    have hm : merged [] = id := funext fun _ => rfl
    rw [hm, List.map_id]
    rfl
  | cons r rs ih =>
    intro panes h
    have hnames : ((panes.map (mergeStep r)).map fun p => p.name) = panes.map fun p => p.name := by
      simp [Function.comp_def, mergeStep_name]
    rw [List.foldl_cons, applySaved_eq_map r panes h, ih _ (hnames ▸ h), List.map_map]
    apply List.map_congr_left
    intro p _
    exact merged_cons r rs p

/-- A saved pane whose name no existing pane has changes nothing. -/
theorem applySaved_absent (r : wxAuiPaneInfo) (panes : List wxAuiPaneInfo)
    (h : r.name ∉ panes.map fun p => p.name) : applySaved panes r = panes := by
  induction panes with
  | nil => rfl
  | cons p rest ih =>
    simp only [List.map_cons, List.mem_cons, not_or] at h
    have hp : ¬ p.name = r.name := fun e => h.1 e.symm
    simp [applySaved, hp, ih h.2]

/-- A step of `LoadPerspective` keeps the names of the panes. -/
theorem applySaved_names (r : wxAuiPaneInfo) (panes : List wxAuiPaneInfo) :
    ((applySaved panes r).map fun p => p.name) = panes.map fun p => p.name := by
  induction panes with
  | nil => rfl
  | cons p rest ih =>
    by_cases hp : p.name = r.name
    · simp [applySaved, hp, wxAuiPaneInfo.SafeSet]
    · simp [applySaved, hp, ih]

/-- Loading only the saved panes whose names are in use gives the same. -/
theorem foldl_applySaved_filter (names : List wxString) (rs : List wxAuiPaneInfo) :
    ∀ panes : List wxAuiPaneInfo, (panes.map fun p => p.name) = names →
      rs.foldl applySaved panes
        = (rs.filter fun r => names.contains r.name).foldl applySaved panes := by
  induction rs with
  | nil => intro panes _; rfl
  | cons r rs ih =>
    intro panes h
    by_cases hr : r.name ∈ names
    · have hc : names.contains r.name = true := by simpa using hr
      simp only [List.foldl_cons, List.filter_cons, hc, if_true]
      exact ih _ ((applySaved_names r panes).trans h)
    · have hc : names.contains r.name = false := by simpa using hr
      simp only [List.foldl_cons, List.filter_cons, hc, Bool.false_eq_true, if_false]
      rw [applySaved_absent r panes (h ▸ hr)]
      exact ih _ h

end wxAuiManager
namespace wxAuiManager

/-- Claim C14: loading a perspective is a merge by pane name. For every
string and every existing pane set with distinct names: the load returns;
each existing pane that has the name of a saved record becomes the `SafeSet`
of the last such record, that is, it receives the layout fields of the record
and keeps its window and its frame; an existing pane whose name no record has
stays as it is; the windows, frames and names of the panes are those from
before, in the same order; and the records whose name no existing pane has
are ignored: loading only the other records gives the same panes. -/
theorem LoadPerspective_merges_by_name (mgr : wxAuiManager) (perspective : wxString)
    (hnames : (mgr.m_panes.map fun p => p.name).Nodup) :
    (mgr.LoadPerspective perspective).2 = true ∧
    (mgr.LoadPerspective perspective).1.m_panes
      = mgr.m_panes.map (fun p =>
          match (savedPanes perspective).reverse.find? (fun r => r.name == p.name) with
          | some r => p.SafeSet r
          | none => p) ∧
    ((mgr.LoadPerspective perspective).1.m_panes.map fun p => p.window)
      = (mgr.m_panes.map fun p => p.window) ∧
    ((mgr.LoadPerspective perspective).1.m_panes.map fun p => p.frame)
      = (mgr.m_panes.map fun p => p.frame) ∧
    ((mgr.LoadPerspective perspective).1.m_panes.map fun p => p.name)
      = (mgr.m_panes.map fun p => p.name) ∧
    (mgr.LoadPerspective perspective).1.m_panes
      = ((savedPanes perspective).filter fun r =>
          (mgr.m_panes.map fun p => p.name).contains r.name).foldl applySaved mgr.m_panes ∧
    (∀ p r : wxAuiPaneInfo,
      (p.SafeSet r).window = p.window ∧ (p.SafeSet r).frame = p.frame ∧
      (p.SafeSet r).layoutFields = r.layoutFields) := by
  have hfold := foldl_applySaved (savedPanes perspective) mgr.m_panes hnames
  have hwin : ∀ p, (merged (savedPanes perspective) p).window = p.window := by
    intro p
    unfold merged
    split <;> rfl
  have hframe : ∀ p, (merged (savedPanes perspective) p).frame = p.frame := by
    intro p
    unfold merged
    split <;> rfl
  have hname : ∀ p, (merged (savedPanes perspective) p).name = p.name := by
    intro p
    unfold merged
    split
    · next r hr => simpa [wxAuiPaneInfo.SafeSet] using List.find?_some hr
    · rfl
  refine ⟨rfl, ?_, ?_, ?_, ?_, ?_, fun p r => ⟨rfl, rfl, rfl⟩⟩
  · exact hfold
  · simp only [LoadPerspective, hfold, List.map_map]
    exact List.map_congr_left fun p _ => hwin p
  · simp only [LoadPerspective, hfold, List.map_map]
    exact List.map_congr_left fun p _ => hframe p
  · simp only [LoadPerspective, hfold, List.map_map]
    exact List.map_congr_left fun p _ => hname p
  · exact foldl_applySaved_filter _ (savedPanes perspective) mgr.m_panes rfl

set_option maxRecDepth 100000 in
/-- Claim C14 in the persistence scenario of the spec: two panes, "a" and
"z", are saved and the string is loaded into the panes "a" and "x". The pane
"a" receives the saved layout and keeps its window 7, the record of "z" is
dropped and the pane "x" is as before. -/
theorem LoadPerspective_merges_by_name_witness :
    (scenarioLive.m_panes.map fun p => p.name).Nodup ∧
    (scenarioLive.LoadPerspective (SavePerspective scenarioSaved)).1.m_panes
      = scenarioLive.m_panes.map (fun p =>
          match (savedPanes (SavePerspective scenarioSaved)).reverse.find?
              (fun r => r.name == p.name) with
          | some r => p.SafeSet r
          | none => p) ∧
    (scenarioLive.LoadPerspective (SavePerspective scenarioSaved)).1.m_panes
      = [ { wxAuiPaneInfo.ctor with
            name := ['a'], caption := ['t', '|', 'o', 'p'], window := some 7,
            dock_direction := 1, dock_layer := 1, best_size := ⟨200, 100⟩ },
          { wxAuiPaneInfo.ctor with name := ['x'], window := some 8, dock_pos := 3 } ] :=
  ⟨by decide,
    (LoadPerspective_merges_by_name scenarioLive (SavePerspective scenarioSaved)
      (by decide)).2.1,
    by decide⟩

/-- Claim C15: the round trip of the perspective codec. When the panes of
`saved` are saved and the string is loaded into the panes of `existing`,
which have distinct names, each of them the name of a pane of `saved` (as
when the two sets have the same names), then every pane of `existing` keeps
its name, its window and its frame and has exactly the layout fields
(direction, layer, row, position, sizes, state flags) of a pane of `saved`
with its name. -/
theorem LoadPerspective_SavePerspective (saved existing : wxAuiManager)
    (hnames : (existing.m_panes.map fun p => p.name).Nodup)
    (hsame : ∀ p ∈ existing.m_panes, ∃ s ∈ saved.m_panes, s.name = p.name) :
    List.Forall₂
      (fun p q =>
        q.name = p.name ∧ q.window = p.window ∧ q.frame = p.frame ∧
        ∃ s ∈ saved.m_panes, s.name = p.name ∧ q.layoutFields = s.layoutFields)
      existing.m_panes
      (existing.LoadPerspective (SavePerspective saved)).1.m_panes := by
  have hfold := foldl_applySaved (savedPanes (SavePerspective saved)) existing.m_panes hnames
  rw [savedPanes_SavePerspective] at hfold
  simp only [LoadPerspective, savedPanes_SavePerspective, hfold]
  rw [List.forall₂_map_right_iff, List.forall₂_same]
  intro p hp
  obtain ⟨s, hs, hsp⟩ := hsame p hp
  unfold merged
  cases hfind : (saved.m_panes.map kept).reverse.find? (fun r => r.name == p.name) with
  | none =>
    rw [List.find?_eq_none] at hfind
    have := hfind (kept s) (by simpa using ⟨s, hs, rfl⟩)
    simp [kept, hsp] at this
  | some r =>
    have hr := List.find?_some hfind
    have hmem := List.mem_of_find?_eq_some hfind
    simp only [List.mem_reverse, List.mem_map] at hmem
    obtain ⟨t, ht, rfl⟩ := hmem
    have hname : t.name = p.name := by simpa [kept] using hr
    exact ⟨hname, rfl, rfl, t, ht, hname, rfl⟩

set_option maxRecDepth 100000 in
/-- Claim C15 at the panes of `scenarioSaved`, saved and loaded into the panes
of `scenarioSameNames`, which has the same names in the other order. -/
theorem LoadPerspective_SavePerspective_witness :
    (scenarioSameNames.m_panes.map fun p => p.name).Nodup ∧
    (∀ p ∈ scenarioSameNames.m_panes, ∃ s ∈ scenarioSaved.m_panes, s.name = p.name) ∧
    List.Forall₂
      (fun p q =>
        q.name = p.name ∧ q.window = p.window ∧ q.frame = p.frame ∧
        ∃ s ∈ scenarioSaved.m_panes, s.name = p.name ∧ q.layoutFields = s.layoutFields)
      scenarioSameNames.m_panes
      (scenarioSameNames.LoadPerspective (SavePerspective scenarioSaved)).1.m_panes ∧
    ((scenarioSameNames.LoadPerspective (SavePerspective scenarioSaved)).1.m_panes.map
        fun p => (p.name, p.window, p.dock_direction, p.dock_layer, p.best_size))
      = [(['z'], some 5, 2, 0, ⟨-1, -1⟩), (['a'], some 6, 1, 1, ⟨200, 100⟩)] :=
  ⟨by decide, by decide,
    LoadPerspective_SavePerspective scenarioSaved scenarioSameNames (by decide) (by decide),
    by decide⟩

end wxAuiManager
namespace wxAuiManager

/-! ### The panes of a manager -/

/-- No name in use is as long as the generated name. -/
theorem generatedName_fresh (names : List wxString) : generatedName names ∉ names := by
  have hlen : ∀ n ∈ names, n.length ≤ longest names := by
    induction names with
    | nil => intro n hn; cases hn
    | cons m rest ih =>
      intro n hn
      simp only [longest]
      rcases List.mem_cons.mp hn with rfl | hrest
      · exact Nat.le_max_left _ _
      · exact Nat.le_trans (ih n hrest) (Nat.le_max_right _ _)
  intro hmem
  have := hlen _ hmem
  simp [generatedName] at this

/-- The panes of a manager built by `AddPane` have distinct names and
distinct windows, and each of them has a window. -/
theorem Managed_panes {mgr : wxAuiManager} (h : Managed mgr) :
    (mgr.m_panes.map fun p => p.name).Nodup ∧
    (mgr.m_panes.map fun p => p.window).Nodup ∧
    ∀ p ∈ mgr.m_panes, p.IsOk = true := by
  induction h with
  | ctor => exact ⟨List.nodup_nil, List.nodup_nil, fun p hp => by cases hp⟩
  | @addPane mgr0 window pane_info _ ih =>
    obtain ⟨hn, hw, hok⟩ := ih
    unfold AddPane
    cases window with
    | none => exact ⟨hn, hw, hok⟩
    | some w =>
      simp only []
      split
      · exact ⟨hn, hw, hok⟩
      · next hnot =>
        have hfresh : ∀ p ∈ mgr0.m_panes, p.window ≠ some w := by
          intro p hp hpw
          cases hq : mgr0.m_panes.find? (fun q => q.window == some w) with
          | none =>
            rw [List.find?_eq_none] at hq
            exact hq p hp (by simpa using hpw)
          | some q =>
            have hqw := (GetPane_found mgr0 (some w) q hq).2
            apply hnot
            simp [GetPane, hq, wxAuiPaneInfo.IsOk, hqw]
        refine ⟨?_, ?_, ?_⟩
        · simp only [List.map_append, List.map_cons, List.map_nil]
          rw [List.nodup_append]
          refine ⟨hn, List.nodup_singleton _, ?_⟩
          intro n hn1 hn2
          simp only [List.mem_singleton] at hn2
          subst hn2
          split at hn1
          · exact generatedName_fresh _ hn1
          · next hc =>
            simp only [Bool.or_eq_true, not_or] at hc
            apply hc.2
            simpa using hn1
        · simp only [List.map_append, List.map_cons, List.map_nil]
          rw [List.nodup_append]
          refine ⟨hw, List.nodup_singleton _, ?_⟩
          intro v hv1 hv2
          simp only [List.mem_singleton] at hv2
          subst hv2
          simp only [List.mem_map] at hv1
          obtain ⟨p, hp, hpw⟩ := hv1
          exact hfresh p hp hpw
        · intro p hp
          rcases List.mem_append.mp hp with hp | hp
          · exact hok p hp
          · simp only [List.mem_singleton] at hp
            subst hp
            simp [wxAuiPaneInfo.IsOk]

end wxAuiManager
namespace wxAuiManager

/-! ### Lemmas on the allocation inside a dock -/

/-- Clamping puts a value between bounds that do not contradict each other. -/
theorem clampTo_bounds (lo hi v : Int) (h : lo ≤ hi) :
    lo ≤ clampTo lo hi v ∧ clampTo lo hi v ≤ hi := by
  unfold clampTo
  omega

/-- The least length a pane takes is at most its greatest. -/
theorem demandOf_lo_le_hi (horizontal : Bool) (length : Int) (p : wxAuiPaneInfo) :
    (demandOf horizontal length p).lo ≤ (demandOf horizontal length p).hi := by
  unfold demandOf
  simp only []
  split
  · exact le_refl _
  · simp only []
    split <;> omega

/-- Growing by an excess adds to the sum what the panes have room for. -/
theorem grow_sum (items : List (Demand × Int)) :
    ∀ excess : Int, 0 ≤ excess → (∀ x ∈ items, x.2 ≤ x.1.hi) →
      (grow excess items).sum
        = (items.map fun x => x.2).sum + min excess (items.map fun x => x.1.hi - x.2).sum := by
  induction items with
  | nil => intro excess h _; simp [grow]; omega
  | cons x rest ih =>
    intro excess h hx
    obtain ⟨d, c⟩ := x
    have hc : c ≤ d.hi := hx (d, c) (List.mem_cons_self _ _)
    have hrest : ∀ y ∈ rest, y.2 ≤ y.1.hi := fun y hy => hx y (List.mem_cons_of_mem _ hy)
    have hroom : 0 ≤ (rest.map fun x => x.1.hi - x.2).sum := by
      apply List.sum_nonneg
      intro v hv
      simp only [List.mem_map] at hv
      obtain ⟨y, hy, rfl⟩ := hv
      have := hrest y hy
      omega
    have ih2 := ih (excess - min excess (d.hi - c)) (by omega) hrest
    simp only [grow, List.sum_cons, List.map_cons, ih2]
    omega

/-- Shrinking by a deficit takes from the sum what the panes can give. -/
theorem shrink_sum (items : List (Demand × Int)) :
    ∀ deficit : Int, 0 ≤ deficit → (∀ x ∈ items, x.1.lo ≤ x.2) →
      (shrink deficit items).sum
        = (items.map fun x => x.2).sum - min deficit (items.map fun x => x.2 - x.1.lo).sum := by
  induction items with
  | nil => intro deficit h _; simp [shrink]; omega
  | cons x rest ih =>
    intro deficit h hx
    obtain ⟨d, c⟩ := x
    have hc : d.lo ≤ c := hx (d, c) (List.mem_cons_self _ _)
    have hrest : ∀ y ∈ rest, y.1.lo ≤ y.2 := fun y hy => hx y (List.mem_cons_of_mem _ hy)
    have hroom : 0 ≤ (rest.map fun x => x.2 - x.1.lo).sum := by
      apply List.sum_nonneg
      intro v hv
      simp only [List.mem_map] at hv
      obtain ⟨y, hy, rfl⟩ := hv
      have := hrest y hy
      omega
    have ih2 := ih (deficit - min deficit (c - d.lo)) (by omega) hrest
    simp only [shrink, List.sum_cons, List.map_cons, ih2]
    omega

/-- A grown pane stays between its bounds. -/
theorem grow_bounds (items : List (Demand × Int)) :
    ∀ excess : Int, 0 ≤ excess → (∀ x ∈ items, x.1.lo ≤ x.2 ∧ x.2 ≤ x.1.hi) →
      List.Forall₂ (fun x v => x.1.lo ≤ v ∧ v ≤ x.1.hi) items (grow excess items) := by
  induction items with
  | nil => intro _ _ _; exact List.Forall₂.nil
  | cons x rest ih =>
    intro excess h hx
    obtain ⟨d, c⟩ := x
    have hc := hx (d, c) (List.mem_cons_self _ _)
    simp only at hc
    have hrest : ∀ y ∈ rest, y.1.lo ≤ y.2 ∧ y.2 ≤ y.1.hi :=
      fun y hy => hx y (List.mem_cons_of_mem _ hy)
    exact List.Forall₂.cons (by constructor <;> simp only <;> omega)
      (ih (excess - min excess (d.hi - c)) (by omega) hrest)

/-- A shrunk pane stays between its bounds. -/
theorem shrink_bounds (items : List (Demand × Int)) :
    ∀ deficit : Int, 0 ≤ deficit → (∀ x ∈ items, x.1.lo ≤ x.2 ∧ x.2 ≤ x.1.hi) →
      List.Forall₂ (fun x v => x.1.lo ≤ v ∧ v ≤ x.1.hi) items (shrink deficit items) := by
  induction items with
  | nil => intro _ _ _; exact List.Forall₂.nil
  | cons x rest ih =>
    intro deficit h hx
    obtain ⟨d, c⟩ := x
    have hc := hx (d, c) (List.mem_cons_self _ _)
    simp only at hc
    have hrest : ∀ y ∈ rest, y.1.lo ≤ y.2 ∧ y.2 ≤ y.1.hi :=
      fun y hy => hx y (List.mem_cons_of_mem _ hy)
    exact List.Forall₂.cons (by constructor <;> simp only <;> omega)
      (ih (deficit - min deficit (c - d.lo)) (by omega) hrest)

/-- The clamped shares lie between the bounds of their panes. -/
theorem clampedShares_bounds (length : Int) (ds : List Demand) (h : ∀ d ∈ ds, d.lo ≤ d.hi) :
    ∀ x ∈ clampedShares length ds, x.1.lo ≤ x.2 ∧ x.2 ≤ x.1.hi := by
  intro x hx
  simp only [clampedShares, List.mem_map] at hx
  obtain ⟨d, hd, rfl⟩ := hx
  exact clampTo_bounds _ _ _ (h d hd)

/-- The sum of the room the panes have to grow. -/
theorem sum_room_up (items : List (Demand × Int)) :
    (items.map fun x => x.1.hi - x.2).sum
      = (items.map fun x => x.1.hi).sum - (items.map fun x => x.2).sum := by
  induction items with
  | nil => rfl
  | cons x rest ih => simp only [List.map_cons, List.sum_cons, ih]; omega

/-- The sum of the room the panes have to shrink. -/
theorem sum_room_down (items : List (Demand × Int)) :
    (items.map fun x => x.2 - x.1.lo).sum
      = (items.map fun x => x.2).sum - (items.map fun x => x.1.lo).sum := by
  induction items with
  | nil => rfl
  | cons x rest ih => simp only [List.map_cons, List.sum_cons, ih]; omega

/-- The sum of the lengths the panes get: the length of the dock, brought
between the sum of the least and the sum of the greatest lengths. -/
theorem allocate_sum (length : Int) (ds : List Demand) (h : ∀ d ∈ ds, d.lo ≤ d.hi) :
    (allocate length ds).sum = max (sumLo ds) (min (sumHi ds) length) := by
  have hb := clampedShares_bounds length ds h
  have hhi : ((clampedShares length ds).map fun x => x.1.hi).sum = sumHi ds := by
    simp [clampedShares, sumHi, Function.comp_def]
  have hlo : ((clampedShares length ds).map fun x => x.1.lo).sum = sumLo ds := by
    simp [clampedShares, sumLo, Function.comp_def]
  have hle : sumLo ds ≤ sumHi ds := by
    unfold sumLo sumHi
    apply List.sum_le_sum
    intro d hd
    exact h d hd
  have h1 : sumLo ds ≤ ((clampedShares length ds).map fun x => x.2).sum := by
    rw [← hlo]
    have := sum_room_down (clampedShares length ds)
    have hnn : 0 ≤ ((clampedShares length ds).map fun x => x.2 - x.1.lo).sum := by
      apply List.sum_nonneg
      intro v hv
      simp only [List.mem_map] at hv
      obtain ⟨y, hy, rfl⟩ := hv
      have := (hb y hy).1
      omega
    omega
  have h2 : ((clampedShares length ds).map fun x => x.2).sum ≤ sumHi ds := by
    rw [← hhi]
    have := sum_room_up (clampedShares length ds)
    have hnn : 0 ≤ ((clampedShares length ds).map fun x => x.1.hi - x.2).sum := by
      apply List.sum_nonneg
      intro v hv
      simp only [List.mem_map] at hv
      obtain ⟨y, hy, rfl⟩ := hv
      have := (hb y hy).2
      omega
    omega
  unfold allocate
  simp only []
  split
  · next hex =>
    rw [grow_sum _ _ hex (fun x hx => (hb x hx).2), sum_room_up, hhi]
    omega
  · next hex =>
    rw [shrink_sum _ _ (by omega) (fun x hx => (hb x hx).1), sum_room_down, hlo]
    omega

/-- Every pane gets a length between its bounds, whatever the length of the
dock. -/
theorem allocate_bounds (length : Int) (ds : List Demand) (h : ∀ d ∈ ds, d.lo ≤ d.hi) :
    List.Forall₂ (fun d v => d.lo ≤ v ∧ v ≤ d.hi) ds (allocate length ds) := by
  have hb := clampedShares_bounds length ds h
  have key : ∀ out, List.Forall₂ (fun (x : Demand × Int) v => x.1.lo ≤ v ∧ v ≤ x.1.hi)
      (clampedShares length ds) out → List.Forall₂ (fun d v => d.lo ≤ v ∧ v ≤ d.hi) ds out := by
    intro out hout
    unfold clampedShares at hout
    rw [List.forall₂_map_left_iff] at hout
    exact hout
  unfold allocate
  simp only []
  split
  · next hex => exact key _ (grow_bounds _ _ hex hb)
  · next hex => exact key _ (shrink_bounds _ _ (by omega) hb)

/-- Growing only adds to the lengths. -/
theorem grow_ge (items : List (Demand × Int)) :
    ∀ excess : Int, 0 ≤ excess → (∀ x ∈ items, x.2 ≤ x.1.hi) →
      List.Forall₂ (fun x v => x.2 ≤ v) items (grow excess items) := by
  induction items with
  | nil => intro _ _ _; exact List.Forall₂.nil
  | cons x rest ih =>
    intro excess h hx
    obtain ⟨d, c⟩ := x
    have hc : c ≤ d.hi := hx (d, c) (List.mem_cons_self _ _)
    have hrest : ∀ y ∈ rest, y.2 ≤ y.1.hi := fun y hy => hx y (List.mem_cons_of_mem _ hy)
    exact List.Forall₂.cons (by simp only; omega)
      (ih (excess - min excess (d.hi - c)) (by omega) hrest)

/-- Shrinking only takes from the lengths. -/
theorem shrink_le (items : List (Demand × Int)) :
    ∀ deficit : Int, 0 ≤ deficit → (∀ x ∈ items, x.1.lo ≤ x.2) →
      List.Forall₂ (fun x v => v ≤ x.2) items (shrink deficit items) := by
  induction items with
  | nil => intro _ _ _; exact List.Forall₂.nil
  | cons x rest ih =>
    intro deficit h hx
    obtain ⟨d, c⟩ := x
    have hc : d.lo ≤ c := hx (d, c) (List.mem_cons_self _ _)
    have hrest : ∀ y ∈ rest, y.1.lo ≤ y.2 := fun y hy => hx y (List.mem_cons_of_mem _ hy)
    exact List.Forall₂.cons (by simp only; omega)
      (ih (deficit - min deficit (c - d.lo)) (by omega) hrest)

/-- Without an excess nothing grows. -/
theorem grow_zero (items : List (Demand × Int)) (hx : ∀ x ∈ items, x.2 ≤ x.1.hi) :
    grow 0 items = items.map fun x => x.2 := by
  induction items with
  | nil => rfl
  | cons x rest ih =>
    obtain ⟨d, c⟩ := x
    have hc : c ≤ d.hi := hx (d, c) (List.mem_cons_self _ _)
    have hrest : ∀ y ∈ rest, y.2 ≤ y.1.hi := fun y hy => hx y (List.mem_cons_of_mem _ hy)
    have h0 : min (0 : Int) (d.hi - c) = 0 := by omega
    simp only [grow, h0, Int.add_zero, Int.sub_zero, List.map_cons, ih hrest]

/-- The lengths the panes get, compared with their clamped proportional
shares: when the shares leave an excess every pane gets its share or more,
when they exceed the length every pane gets its share or less, and when they
add up to the length every pane gets its share. -/
theorem allocate_shares (length : Int) (ds : List Demand) (h : ∀ d ∈ ds, d.lo ≤ d.hi) :
    ((ds.map fun d => clampTo d.lo d.hi (shareOf length ds d)).sum ≤ length →
      List.Forall₂ (fun d v => clampTo d.lo d.hi (shareOf length ds d) ≤ v) ds
        (allocate length ds)) ∧
    (length ≤ (ds.map fun d => clampTo d.lo d.hi (shareOf length ds d)).sum →
      List.Forall₂ (fun d v => v ≤ clampTo d.lo d.hi (shareOf length ds d)) ds
        (allocate length ds)) ∧
    ((ds.map fun d => clampTo d.lo d.hi (shareOf length ds d)).sum = length →
      allocate length ds = ds.map fun d => clampTo d.lo d.hi (shareOf length ds d)) := by
  have hb := clampedShares_bounds length ds h
  have hsum : ((clampedShares length ds).map fun x => x.2).sum
      = (ds.map fun d => clampTo d.lo d.hi (shareOf length ds d)).sum := by
    simp [clampedShares, Function.comp_def]
  have hsnd : ((clampedShares length ds).map fun x => x.2)
      = ds.map fun d => clampTo d.lo d.hi (shareOf length ds d) := by
    simp [clampedShares, Function.comp_def]
  refine ⟨?_, ?_, ?_⟩
  · intro hle
    have hg := grow_ge (clampedShares length ds)
      (length - ((clampedShares length ds).map fun x => x.2).sum) (by omega)
      (fun x hx => (hb x hx).2)
    have hal : allocate length ds = grow
        (length - ((clampedShares length ds).map fun x => x.2).sum)
        (clampedShares length ds) := by
      unfold allocate
      simp only []
      rw [if_pos (by omega)]
    rw [hal]
    unfold clampedShares at hg ⊢
    rw [List.forall₂_map_left_iff] at hg
    exact hg
  · intro hge
    by_cases heq : (ds.map fun d => clampTo d.lo d.hi (shareOf length ds d)).sum = length
    · have hal : allocate length ds = grow 0 (clampedShares length ds) := by
        unfold allocate
        simp only []
        rw [if_pos (by omega)]
        congr 1
        omega
      rw [hal, grow_zero _ (fun x hx => (hb x hx).2), hsnd]
      rw [List.forall₂_map_right_iff]
      exact List.forall₂_same.mpr (fun d _ => le_refl _)
    · have hs := shrink_le (clampedShares length ds)
        (-(length - ((clampedShares length ds).map fun x => x.2).sum)) (by omega)
        (fun x hx => (hb x hx).1)
      have hal : allocate length ds = shrink
          (-(length - ((clampedShares length ds).map fun x => x.2).sum))
          (clampedShares length ds) := by
        unfold allocate
        simp only []
        rw [if_neg (by omega)]
      rw [hal]
      unfold clampedShares at hs ⊢
      rw [List.forall₂_map_left_iff] at hs
      exact hs
  · intro heq
    have hal : allocate length ds = grow 0 (clampedShares length ds) := by
      unfold allocate
      simp only []
      rw [if_pos (by omega)]
      congr 1
      omega
    rw [hal, grow_zero _ (fun x hx => (hb x hx).2), hsnd]

/-- Claim C16 as stated fails: there are pane configurations in which the
lengths of the panes of a dock do not add up to the length of the dock. In a
vertical dock of length 600, the pane of the layout scenario of the spec
(direction left, best size (200, 100), not resizable) keeps its best length
100, and so does any fixed pane that fits; a resizable pane with the maximum
length 150 gets 150. The rest of the dock stays free. -/
theorem allocatePanes_sum_not_length :
    allocatePanes false 600 scenarioLeftPane.m_panes = [100] ∧
    allocatePanes false 600 [scenarioFixedPane] = [100] ∧
    allocatePanes false 600 [scenarioCappedPane] = [150] ∧
    (allocatePanes false 600 [scenarioFixedPane]).sum ≠ 600 ∧
    (allocatePanes false 600 [scenarioCappedPane]).sum ≠ 600 := by
  decide

/-- Claim C16 as amended. The panes of a dock ask for the demands `ds` (a
fixed pane asks for its best size, clamped to its minimum and maximum, as its
least and its greatest length). The lengths the panes get add up to the
length of the dock brought between the sum of the least and the sum of the
greatest lengths; so they add up to the length of the dock exactly whenever
the length lies between these two sums. Every pane gets a length between its
bounds. The lengths are the proportional shares (what the fixed panes leave,
times the weight of the pane, divided by the sum of the weights, rounded
down; the fixed length for a fixed pane), clamped, with the difference to the
length of the dock redistributed: every pane gets its clamped share or more
when the shares leave an excess, its clamped share or less when they exceed
the length, and exactly its clamped share when they add up to the length. -/
theorem allocatePanes_sum (horizontal : Bool) (length : Int) (panes : List wxAuiPaneInfo)
    (ds : List Demand) (hds : ds = panes.map (demandOf horizontal length)) :
    (allocatePanes horizontal length panes).sum = max (sumLo ds) (min (sumHi ds) length) ∧
    (sumLo ds ≤ length → length ≤ sumHi ds →
      (allocatePanes horizontal length panes).sum = length) ∧
    List.Forall₂ (fun d v => d.lo ≤ v ∧ v ≤ d.hi) ds (allocatePanes horizontal length panes) ∧
    ((ds.map fun d => clampTo d.lo d.hi
        (if d.fixed then d.lo
         else if weightTotal ds ≤ 0 then 0
         else (length - fixedTotal ds) * d.weight / weightTotal ds)).sum ≤ length →
      List.Forall₂
        (fun d v => clampTo d.lo d.hi
          (if d.fixed then d.lo
           else if weightTotal ds ≤ 0 then 0
           else (length - fixedTotal ds) * d.weight / weightTotal ds) ≤ v)
        ds (allocatePanes horizontal length panes)) ∧
    (length ≤ (ds.map fun d => clampTo d.lo d.hi
        (if d.fixed then d.lo
         else if weightTotal ds ≤ 0 then 0
         else (length - fixedTotal ds) * d.weight / weightTotal ds)).sum →
      List.Forall₂
        (fun d v => v ≤ clampTo d.lo d.hi
          (if d.fixed then d.lo
           else if weightTotal ds ≤ 0 then 0
           else (length - fixedTotal ds) * d.weight / weightTotal ds))
        ds (allocatePanes horizontal length panes)) ∧
    ((ds.map fun d => clampTo d.lo d.hi
        (if d.fixed then d.lo
         else if weightTotal ds ≤ 0 then 0
         else (length - fixedTotal ds) * d.weight / weightTotal ds)).sum = length →
      allocatePanes horizontal length panes
        = ds.map fun d => clampTo d.lo d.hi
          (if d.fixed then d.lo
           else if weightTotal ds ≤ 0 then 0
           else (length - fixedTotal ds) * d.weight / weightTotal ds)) := by
  subst hds
  have h : ∀ d ∈ panes.map (demandOf horizontal length), d.lo ≤ d.hi := by
    intro d hd
    simp only [List.mem_map] at hd
    obtain ⟨p, _, rfl⟩ := hd
    exact demandOf_lo_le_hi horizontal length p
  have hs := allocate_shares length _ h
  refine ⟨?_, ?_, ?_, hs.1, hs.2.1, hs.2.2⟩
  · unfold allocatePanes
    exact allocate_sum _ _ h
  · intro hmin hmax
    unfold allocatePanes
    rw [allocate_sum _ _ h]
    omega
  · exact allocate_bounds length _ h

/-- Claim C16 as amended, at a vertical dock of length 600 with the three
panes of `scenarioDockPanes`, which get 400, 150 and 50, and with the two
panes of `scenarioSharingPanes`, whose shares 200 and 400 add up to the
length, so that they get 200 and 400. -/
theorem allocatePanes_sum_witness :
    sumLo (scenarioDockPanes.map (demandOf false 600)) ≤ 600 ∧
    600 ≤ sumHi (scenarioDockPanes.map (demandOf false 600)) ∧
    (allocatePanes false 600 scenarioDockPanes).sum = 600 ∧
    allocatePanes false 600 scenarioDockPanes = [400, 150, 50] ∧
    allocatePanes false 600 scenarioSharingPanes = [200, 400] :=
  ⟨by decide, by decide,
    (allocatePanes_sum false 600 scenarioDockPanes _ rfl).2.1 (by decide) (by decide),
    by decide,
    ((allocatePanes_sum false 600 scenarioSharingPanes _ rfl).2.2.2.2.2 (by decide)).trans
      (by decide)⟩

/-- Claim C17: the layout scenario. One pane is added with the direction left
and the best size (200, 100); the container is 800 by 600 and the dock size
constraint is the default 1/3. The layout has one dock, the left one, of
width 200, which is below the limit 800 / 3 = 266, with the rectangle
(0, 0, 200, 600), and the rectangle of the centre pane is
(200, 0, 600, 600). -/
theorem Update_left_pane_scenario :
    scenarioLeftPane.m_dockConstraintX = ⟨1, 3⟩ ∧
    dockLimit ⟨800, 600⟩ scenarioLeftPane.m_dockConstraintX scenarioLeftPane.m_dockConstraintY
      wxAuiManagerDock.wxAUI_DOCK_LEFT.value = 266 ∧
    ((Update scenarioLeftPane ⟨800, 600⟩).docks.map
        fun d => (d.dock_direction, d.size, d.rect))
      = [(wxAuiManagerDock.wxAUI_DOCK_LEFT.value, 200, ⟨0, 0, 200, 600⟩)] ∧
    (Update scenarioLeftPane ⟨800, 600⟩).center = ⟨200, 0, 600, 600⟩ := by
  decide

end wxAuiManager

namespace wxSplitterWindow

/-- Claim C18 as stated fails: in the drag scenario (vertical sash at 200,
width 800, minimum pane size 50, pointer moved 50 to the right) the release
commits the sash position 250 and sends one sash-position-changed
notification; the only datum it carries is the position 250, its old and new
size are 0, so it does not carry old = 200 and new = 250. -/
theorem release_notification_has_no_old_position :
    ((scenario.press ⟨202, 30⟩).release ⟨252, 30⟩ 0).1.m_sashPosition = 250 ∧
    (((scenario.press ⟨202, 30⟩).release ⟨252, 30⟩ 0).2.map
        fun e => (e.m_eventType, e.resize_pos, e.resize_oldSize, e.resize_newSize))
      = [(.wxEVT_SPLITTER_SASH_POS_CHANGED, 250, 0, 0)] ∧
    ¬ ∃ e ∈ ((scenario.press ⟨202, 30⟩).release ⟨252, 30⟩ 0).2,
        e.GetOldSize.value = 200 ∧ e.GetNewSize.value = 250 := by
  decide

/-- Claim C18 as amended: a vertical sash at 200 in a window 800 wide with
the minimum pane size 50 (and a border and a sash that leave room for it) is
dragged 50 to the right: the release commits the sash position 250 and sends
exactly one notification, of the type sash-position-changed, whose sash
position is 250; the notification has no datum for the old position, its old
and new size, which belong to the resize notification, are 0. -/
theorem release_commits_new_position (w : wxSplitterWindow) (start : wxPoint) (y garbage : Int)
    (hmode : w.m_splitMode = .wxSPLIT_VERTICAL)
    (hpos : w.m_sashPosition = 200)
    (hwidth : w.clientWidth = 800)
    (hmin : w.m_minimumPaneSize = 50)
    (hborder : w.borderSize ≤ 200)
    (hroom : w.borderSize + w.sashSize ≤ 500) :
    ((w.press start).release ⟨start.x + 50, y⟩ garbage).1.m_sashPosition = 250 ∧
    ((w.press start).release ⟨start.x + 50, y⟩ garbage).1.m_dragMode = wxSPLIT_DRAG_NONE ∧
    ((w.press start).release ⟨start.x + 50, y⟩ garbage).2
      = [{ m_eventType := .wxEVT_SPLITTER_SASH_POS_CHANGED, m_id := w.m_windowId,
           resize_pos := 250, resize_oldSize := 0, resize_newSize := 0,
           win := none }] ∧
    (({ m_eventType := .wxEVT_SPLITTER_SASH_POS_CHANGED, m_id := w.m_windowId,
        resize_pos := 250, resize_oldSize := 0, resize_newSize := 0,
        win := none } : wxSplitterEvent).GetSashPosition)
      = ⟨[true], 250⟩ := by
  obtain ⟨id, mode, one, two, drag, pos, req, pts, ss, mn, permit, cw, ch, sash, border⟩ := w
  simp only at hmode hpos hwidth hmin hborder hroom
  subst hmode hpos hwidth hmin
  have h1 : ¬ (250 : Int) < 50 + border := by omega
  have h2 : ¬ (750 : Int) - border - sash < 250 := by omega
  have hsum : (200 : Int) + (start.x + 50 - start.x) = 250 := by omega
  refine ⟨?_, ?_, ?_, rfl⟩ <;>
    simp [press, release, wxSPLIT_DRAG_DRAGGING, wxSPLIT_DRAG_NONE, SetSashPositionAndNotify,
      DoSetSashPosition, AdjustSashPosition, GetWindowSize, newEvent, hsum, h1, h2]

/-- Claim C18 as amended, at the splitter of the scenario with the pointer
pressed at (202, 30). -/
theorem release_commits_new_position_witness :
    scenario.m_splitMode = .wxSPLIT_VERTICAL ∧ scenario.m_sashPosition = 200 ∧
    scenario.clientWidth = 800 ∧ scenario.m_minimumPaneSize = 50 ∧
    ((scenario.press ⟨202, 30⟩).release ⟨202 + 50, 77⟩ 0).1.m_sashPosition = 250 ∧
    ((scenario.press ⟨202, 30⟩).release ⟨202 + 50, 77⟩ 0).2
      = [{ m_eventType := .wxEVT_SPLITTER_SASH_POS_CHANGED, m_id := scenario.m_windowId,
           resize_pos := 250, resize_oldSize := 0, resize_newSize := 0,
           win := none }] :=
  ⟨rfl, rfl, rfl, rfl,
    (release_commits_new_position scenario ⟨202, 30⟩ 77 0 rfl rfl rfl rfl (by decide)
      (by decide)).1,
    (release_commits_new_position scenario ⟨202, 30⟩ 77 0 rfl rfl rfl rfl (by decide)
      (by decide)).2.2.1⟩

end wxSplitterWindow


namespace wxInfoBarGeneric

/-! ## The nodes read by the scans -/

/-- A descending run of positions, one step longer. -/
theorem range_map_sub_succ (n len : Nat) :
    (List.range (len + 1)).map (fun k => n + 1 - k)
      = (n + 1) :: (List.range len).map (fun k => n - k) := by
  rw [List.range_succ_eq_map]
  simp only [List.map_cons, List.map_map, Nat.sub_zero]
  congr 1
  apply List.map_congr_left
  intro k _
  simp only [Function.comp, Nat.succ_eq_add_one]
  omega

/-- The loop of `GetButtonCount` reads consecutive nodes, going backwards
from the node it starts at. -/
theorem GetButtonCount_scan_backwards (items : List wxSizerItem) (mb : Option wxWindow) :
    ∀ node count, (GetButtonCount.scan items mb node count).visited
      = (List.range (GetButtonCount.scan items mb node count).visited.length).map
          (fun k => node - k) := by
  intro node
  induction node with
  | zero => intro count; rfl
  | succ n ih =>
    intro count
    unfold GetButtonCount.scan
    cases items[n + 1]? with
    | none => rfl
    | some item =>
      simp only []
      split
      · rfl
      · split
        · rfl
        · simp only [List.length_cons]
          rw [range_map_sub_succ, ← ih (count + 1)]

/-- The loop of `GetButtonCount` stops at the first spacer it reads: a spacer
it read is the last node it read. -/
theorem GetButtonCount_scan_stops_at_spacer (items : List wxSizerItem) (mb : Option wxWindow) :
    ∀ node count, ∀ i ∈ (GetButtonCount.scan items mb node count).visited,
      isSpacerAt items i = true →
        (GetButtonCount.scan items mb node count).visited.getLast? = some i := by
  intro node
  induction node with
  | zero => intro count i hi; simp [GetButtonCount.scan] at hi
  | succ n ih =>
    intro count i hi hsp
    unfold GetButtonCount.scan at hi ⊢
    cases hget : items[n + 1]? with
    | none => rw [hget] at hi; simp at hi
    | some item =>
      rw [hget] at hi
      simp only [] at hi ⊢
      cases h1 : item.IsSpacer with
      | true =>
        simp only [h1, if_true, List.mem_singleton] at hi ⊢
        simp [hi]
      | false =>
        have hne : i ≠ n + 1 := by
          intro h
          rw [h] at hsp
          simp [isSpacerAt, hget, h1] at hsp
        cases h2 : ptrEq item.GetWindow mb with
        | true =>
          simp only [h1, h2, Bool.false_eq_true, if_true, if_false, List.mem_singleton] at hi
          exact absurd hi hne
        | false =>
          simp only [h1, h2, Bool.false_eq_true, if_false, List.mem_cons] at hi ⊢
          rcases hi with h | h
          · exact absurd h hne
          · have hl := ih (count + 1) i h hsp
            rw [List.getLast?_cons, hl]
            rfl

/-- The loop of `GetButtonCount` returns 0 as soon as it reads the close
button: the button is the last node it read and the count is 0. -/
theorem GetButtonCount_scan_close_button (items : List wxSizerItem) (mb : Option wxWindow) :
    ∀ node count, ∀ i ∈ (GetButtonCount.scan items mb node count).visited,
      isCloseButtonAt items mb i = true →
        (GetButtonCount.scan items mb node count).visited.getLast? = some i ∧
        (GetButtonCount.scan items mb node count).count = 0 := by
  intro node
  induction node with
  | zero => intro count i hi; simp [GetButtonCount.scan] at hi
  | succ n ih =>
    intro count i hi hcb
    unfold GetButtonCount.scan at hi ⊢
    cases hget : items[n + 1]? with
    | none => rw [hget] at hi; simp at hi
    | some item =>
      rw [hget] at hi
      simp only [] at hi ⊢
      cases h1 : item.IsSpacer with
      | true =>
        simp only [h1, if_true, List.mem_singleton] at hi
        rw [hi] at hcb
        simp [isCloseButtonAt, hget, h1] at hcb
      | false =>
        cases h2 : ptrEq item.GetWindow mb with
        | true =>
          simp only [h1, h2, Bool.false_eq_true, if_true, if_false, List.mem_singleton] at hi ⊢
          simp [hi]
        | false =>
          have hne : i ≠ n + 1 := by
            intro h
            rw [h] at hcb
            simp [isCloseButtonAt, hget, h1, h2] at hcb
          simp only [h1, h2, Bool.false_eq_true, if_false, List.mem_cons] at hi ⊢
          rcases hi with h | h
          · exact absurd h hne
          · have hl := ih (count + 1) i h hcb
            rw [List.getLast?_cons, hl.1]
            exact ⟨rfl, hl.2⟩

/-- When the loop of `GetButtonCount` reads no close button, it adds to the
counter the number of nodes it read that are not spacers: the items it passed. -/
theorem GetButtonCount_scan_passed (items : List wxSizerItem) (mb : Option wxWindow) :
    ∀ node count,
      (∀ i ∈ (GetButtonCount.scan items mb node count).visited,
        isCloseButtonAt items mb i = false) →
      (GetButtonCount.scan items mb node count).count
        = count + ((GetButtonCount.scan items mb node count).visited.filter
            (fun i => !isSpacerAt items i)).length := by
  intro node
  induction node with
  | zero => intro count _; rfl
  | succ n ih =>
    intro count hno
    unfold GetButtonCount.scan at hno ⊢
    cases hget : items[n + 1]? with
    | none => rfl
    | some item =>
      rw [hget] at hno
      simp only [] at hno ⊢
      cases h1 : item.IsSpacer with
      | true => simp [h1, isSpacerAt, hget]
      | false =>
        cases h2 : ptrEq item.GetWindow mb with
        | true =>
          simp only [h1, h2, Bool.false_eq_true, if_true, if_false, List.mem_singleton] at hno
          have := hno (n + 1) rfl
          simp [isCloseButtonAt, hget, h1, h2] at this
        | false =>
          simp only [h1, h2, Bool.false_eq_true, if_false, List.mem_cons] at hno ⊢
          have hrest := ih (count + 1) (fun i hi => hno i (Or.inr hi))
          rw [hrest]
          simp [List.filter_cons, isSpacerAt, hget, h1]
          omega

/-- The loop of `GetButtonCount` adds at most one per node before the one it
started at, or returns 0. -/
theorem GetButtonCount_loop_le (items : List wxSizerItem) (mb : Option wxWindow) :
    ∀ node count, GetButtonCount.loop items mb node count ≤ count + node := by
  intro node
  induction node with
  | zero => intro count; simp [GetButtonCount.loop]
  | succ n ih =>
    intro count
    unfold GetButtonCount.loop
    cases items[n + 1]? with
    | none => simp
    | some item =>
      simp only []
      split
      · omega
      · split
        · omega
        · have := ih (count + 1)
          omega

/-- The items behind a spacer: when no spacer and no close button is among the
last `k` items of `post`, the loop started on the last of them passes all
`k` and stops at the spacer (or at the first node). -/
theorem GetButtonCount_loop_after_spacer (pre post : List wxSizerItem) (size : Int)
    (mb : Option wxWindow)
    (hsp : ∀ x ∈ post, x.IsSpacer = false)
    (hcb : ∀ x ∈ post, ptrEq x.GetWindow mb = false) :
    ∀ k count, k ≤ post.length →
      GetButtonCount.loop (pre ++ .Item_Spacer size :: post) mb (pre.length + k) count
        = count + k := by
  intro k
  induction k with
  | zero =>
    intro count _
    cases hp : pre.length with
    | zero => rfl
    | succ n =>
      have hget : (pre ++ wxSizerItem.Item_Spacer size :: post)[n + 1]?
          = some (.Item_Spacer size) := by
        rw [← hp, List.getElem?_append_right (Nat.le_refl _)]
        simp
      simp only [Nat.add_zero]
      unfold GetButtonCount.loop
      rw [hget]
      simp [wxSizerItem.IsSpacer]
  | succ k ih =>
    intro count hk
    have hlt : k < post.length := hk
    have hget : (pre ++ wxSizerItem.Item_Spacer size :: post)[pre.length + k + 1]?
        = some post[k] := by
      rw [List.getElem?_append_right (by omega)]
      have : pre.length + k + 1 - pre.length = k + 1 := by omega
      rw [this]
      simp [List.getElem?_eq_getElem hlt]
    have hmem : post[k] ∈ post := List.getElem_mem hlt
    rw [← Nat.add_assoc]
    unfold GetButtonCount.loop
    rw [hget]
    simp only [hsp _ hmem, hcb _ hmem, Bool.false_eq_true, if_false]
    rw [ih (count + 1) (by omega)]
    omega

/-- Claim C21: `GetButtonCount()` treats a spacer as the marker between the
buttons and the rest. For every bar whose sizer holds the sequence `items`,
its loop (recorded by `GetButtonCount.trace`, which returns the same count)
reads consecutive nodes from the last one backwards, never reads the first
node, stops at the first spacer it reads, returns 0 as soon as it reads the
close button (an item that is no spacer and whose window is `m_button`), and
otherwise returns the number of nodes it read that are not spacers. So the
result is at most the number of items less one (it is 0 for the empty
sequence and less than the number of items for every other one), and when a
spacer stands beyond the first position, with no spacer and no close button
after it, the result is the number of items after that spacer. -/
theorem GetButtonCount_spacer_marker (bar : wxInfoBarGeneric) (items : List wxSizerItem)
    (hsizer : bar.m_windowSizer = some items) :
    (GetButtonCount.trace bar).count = bar.GetButtonCount ∧
    (GetButtonCount.trace bar).visited
      = (List.range (GetButtonCount.trace bar).visited.length).map
          (fun k => items.length - 1 - k) ∧
    0 ∉ (GetButtonCount.trace bar).visited ∧
    (∀ i ∈ (GetButtonCount.trace bar).visited, isSpacerAt items i = true →
      (GetButtonCount.trace bar).visited.getLast? = some i) ∧
    (∀ i ∈ (GetButtonCount.trace bar).visited, isCloseButtonAt items bar.m_button i = true →
      (GetButtonCount.trace bar).visited.getLast? = some i ∧ bar.GetButtonCount = 0) ∧
    ((∀ i ∈ (GetButtonCount.trace bar).visited, isCloseButtonAt items bar.m_button i = false) →
      bar.GetButtonCount
        = ((GetButtonCount.trace bar).visited.filter (fun i => !isSpacerAt items i)).length) ∧
    bar.GetButtonCount ≤ items.length - 1 ∧
    (items = [] ∨ bar.GetButtonCount < items.length) ∧
    (∀ (pre post : List wxSizerItem) (size : Int),
      items = pre ++ .Item_Spacer size :: post → pre ≠ [] →
      (∀ x ∈ post, x.IsSpacer = false) →
      (∀ x ∈ post, ptrEq x.GetWindow bar.m_button = false) →
      bar.GetButtonCount = post.length) := by
  have htrace : GetButtonCount.trace bar
      = GetButtonCount.scan items bar.m_button (items.length - 1) 0 := by
    simp only [GetButtonCount.trace, hsizer]
  have hcount : bar.GetButtonCount
      = (GetButtonCount.scan items bar.m_button (items.length - 1) 0).count := by
    rw [← htrace, GetButtonCount_trace_count]
  have hloop : bar.GetButtonCount
      = GetButtonCount.loop items bar.m_button (items.length - 1) 0 := by
    rw [hcount, GetButtonCount_scan_count]
  rw [htrace, hcount]
  refine ⟨rfl, GetButtonCount_scan_backwards items bar.m_button _ 0, ?_,
    GetButtonCount_scan_stops_at_spacer items bar.m_button _ 0,
    GetButtonCount_scan_close_button items bar.m_button _ 0, ?_, ?_, ?_, ?_⟩
  · intro h
    have := (GetButtonCount_scan_positions items bar.m_button _ 0 0 h).1
    omega
  · intro h
    rw [GetButtonCount_scan_passed items bar.m_button _ 0 h, Nat.zero_add]
  · rw [GetButtonCount_scan_count]
    have := GetButtonCount_loop_le items bar.m_button (items.length - 1) 0
    omega
  · rw [GetButtonCount_scan_count]
    have := GetButtonCount_loop_le items bar.m_button (items.length - 1) 0
    cases items with
    | nil => exact Or.inl rfl
    | cons x xs =>
      right
      simp only [List.length_cons] at this ⊢
      omega
  · intro pre post size hitems _ hsp hcb
    rw [GetButtonCount_scan_count, hitems]
    have hlen : (pre ++ wxSizerItem.Item_Spacer size :: post).length - 1
        = pre.length + post.length := by
      simp only [List.length_append, List.length_cons]
      omega
    rw [hlen,
      GetButtonCount_loop_after_spacer pre post size bar.m_button hsp hcb post.length 0
        (Nat.le_refl _),
      Nat.zero_add]

/-- Claim C21 at the bar `spacerBar`, whose sizer holds a text window, the
spacer and two buttons: the loop reads the nodes 3, 2 and 1, the first node
is not among them, and the count is 2, the number of items after the spacer. -/
theorem GetButtonCount_spacer_marker_witness :
    spacerBar.m_windowSizer = some spacerItems ∧
    (GetButtonCount.trace spacerBar).visited = [3, 2, 1] ∧
    0 ∉ (GetButtonCount.trace spacerBar).visited ∧
    spacerBar.GetButtonCount ≤ 3 ∧
    spacerBar.GetButtonCount
      = [wxSizerItem.Item_Window ⟨3, 10⟩, wxSizerItem.Item_Window ⟨4, 11⟩].length :=
  ⟨rfl, by decide,
    (GetButtonCount_spacer_marker spacerBar spacerItems rfl).2.2.1,
    (GetButtonCount_spacer_marker spacerBar spacerItems rfl).2.2.2.2.2.2.1,
    (GetButtonCount_spacer_marker spacerBar spacerItems rfl).2.2.2.2.2.2.2.2
      [.Item_Window (newWindow 2 wxID_ANY)] [.Item_Window ⟨3, 10⟩, .Item_Window ⟨4, 11⟩] 0
      rfl (by simp) (by decide) (by decide)⟩

/-- For a bar that has a close button, the test of `isCloseButtonAt` says that
the item is a window item holding that very button. -/
theorem isCloseButtonAt_some (items : List wxSizerItem) (b : wxWindow) (i : Nat) :
    isCloseButtonAt items (some b) i = true
      ↔ ∃ w, items[i]? = some (.Item_Window w) ∧ w.addr = b.addr := by
  unfold isCloseButtonAt
  cases hget : items[i]? with
  | none => simp
  | some item =>
    cases item with
    | Item_Window w => simp [wxSizerItem.IsSpacer, wxSizerItem.GetWindow, ptrEq]
    | Item_Sizer s => simp [wxSizerItem.IsSpacer, wxSizerItem.GetWindow, ptrEq]
    | Item_Spacer s => simp [wxSizerItem.IsSpacer]

/-- Recording a visit puts the node in front of the nodes read later. -/
theorem Scan_visit_visited (i : Nat) (s : Scan) :
    (Scan.visit i s).visited = i :: s.visited := rfl

/-- From the null iterator the loop of `GetButtonId` reads no node. -/
theorem GetButtonId_loop_null (items : List wxSizerItem) (mb : Option wxWindow) (idx : Nat)
    (fuel : Nat) (fs : Bool) (count : Nat) :
    (GetButtonId.loop items mb idx fuel none fs count).visited = [] := by
  cases fuel with
  | zero => rfl
  | succ fuel =>
    unfold GetButtonId.loop
    split <;> rfl

/-- Once the spacer is found the loop of `GetButtonId` only goes forwards: it
reads no node before the one it is at. -/
theorem GetButtonId_loop_forwards (items : List wxSizerItem) (mb : Option wxWindow) (idx : Nat) :
    ∀ fuel i count, ∀ j ∈ (GetButtonId.loop items mb idx fuel (some i) true count).visited,
      i ≤ j := by
  intro fuel
  induction fuel with
  | zero => intro i count j hj; simp [GetButtonId.loop] at hj
  | succ fuel ih =>
    intro i count j hj
    have hnext : ∀ c, j ∈ (GetButtonId.loop items mb idx fuel (GetNext items i) true c).visited →
        i ≤ j := by
      intro c h
      unfold GetNext at h
      split at h
      · have := ih (i + 1) c j h
        omega
      · rw [GetButtonId_loop_null] at h
        simp at h
    unfold GetButtonId.loop at hj
    split at hj
    · simp only [] at hj
      cases hi : items[i]? with
      | none => rw [hi] at hj; simp at hj
      | some item =>
        rw [hi] at hj
        simp only [ite_self, if_true, Scan_visit_visited, List.mem_cons] at hj
        rcases hj with h | h
        · omega
        · split at h
          · split at h
            · split at h
              · split at h <;> simp at h
              · exact hnext _ h
            · exact hnext _ h
          · exact hnext _ h
    · simp at hj

/-- The loop of `GetButtonId` reads the first node at most once, whatever the
sequence of items, the button index and the node it starts at. -/
theorem GetButtonId_loop_first_once (items : List wxSizerItem) (mb : Option wxWindow)
    (idx : Nat) :
    ∀ fuel node count,
      (GetButtonId.loop items mb idx fuel node false count).visited.count 0 ≤ 1 := by
  intro fuel
  induction fuel with
  | zero => intro node count; simp [GetButtonId.loop]
  | succ fuel ih =>
    intro node count
    cases node with
    | none => rw [GetButtonId_loop_null]; simp
    | some i =>
      have hfwd : ∀ c,
          (GetButtonId.loop items mb idx fuel (GetNext items i) true c).visited.count 0 = 0 := by
        intro c
        apply List.count_eq_zero_of_not_mem
        intro h
        unfold GetNext at h
        split at h
        · have := GetButtonId_loop_forwards items mb idx fuel (i + 1) c 0 h
          omega
        · rw [GetButtonId_loop_null] at h
          simp at h
      unfold GetButtonId.loop
      split
      · simp only []
        cases hi : items[i]? with
        | none => simp
        | some item =>
          simp only [Scan_visit_visited, List.count_cons]
          cases hsp : item.IsSpacer with
          | true =>
            simp only [if_true, Bool.not_true, Bool.false_eq_true, if_false]
            rw [hfwd]
            split <;> omega
          | false =>
            simp only [Bool.false_eq_true, if_false]
            cases i with
            | zero =>
              have hprev : GetPrevious 0 = none := rfl
              rw [hprev, GetButtonId_loop_null]
              simp
            | succ k =>
              have := ih (GetPrevious (k + 1)) count
              simp only [beq_iff_eq, Nat.add_one_ne_zero, if_false]
              omega
      · simp

/-- The scan of `GetButtonId` reads the first node at most once. -/
theorem GetButtonId_first_once (bar : wxInfoBarGeneric) (idx : Nat) :
    (bar.GetButtonId idx).visited.count 0 ≤ 1 := by
  have h0 : (GetButtonCount.trace bar).visited.count 0 = 0 :=
    List.count_eq_zero_of_not_mem (GetButtonCount_trace_skips_first bar)
  unfold GetButtonId
  simp only []
  split
  · simp [h0]
  · cases bar.m_windowSizer with
    | none => simp [h0]
    | some items =>
      simp only [Scan.after, List.count_append, h0, Nat.zero_add]
      exact GetButtonId_loop_first_once items bar.m_button idx _ _ 0

/-- Claim C22 as stated fails: no sequence of sizer items, close button and
button index make the positional scan read the first sizer item twice. This
holds for the loop of `GetButtonId` started at the last node, however many
iterations it is given, and for `GetButtonId` itself. -/
theorem GetButtonId_never_reads_first_item_twice :
    (¬ ∃ (items : List wxSizerItem) (m_button : Option wxWindow) (idx fuel : Nat),
      2 ≤ (GetButtonId.loop items m_button idx fuel (GetLast items) false 0).visited.count 0) ∧
    (¬ ∃ (bar : wxInfoBarGeneric) (idx : Nat), 2 ≤ (bar.GetButtonId idx).visited.count 0) := by
  constructor
  · rintro ⟨items, mb, idx, fuel, h⟩
    have := GetButtonId_loop_first_once items mb idx fuel (GetLast items) 0
    omega
  · rintro ⟨bar, idx, h⟩
    have := GetButtonId_first_once bar idx
    omega

/-- Claim C22 as amended: for every bar and button index the call of
`GetButtonId`, the `GetButtonCount()` call of its check included, reads the
first sizer item at most once, and the counting loop of `GetButtonCount`
never reads it. There is a sequence and an index for which the scan does read
the first item, its loop boundary not stopping at the first node: in a sizer
that holds the spacer and then one button, the loop of `GetButtonId` for
index 0 reads the nodes 1, 0 and 1, the first item once and the last twice,
and returns the id of the button; the whole call reads the node 1 once more
before, in its check. -/
theorem GetButtonId_reads_first_item_at_most_once (bar : wxInfoBarGeneric) (idx : Nat) :
    (bar.GetButtonId idx).visited.count 0 ≤ 1 ∧
    0 ∉ (GetButtonCount.trace bar).visited ∧
    GetButtonId.loop [.Item_Spacer 0, .Item_Window ⟨3, 10⟩] spacerFirstBar.m_button 0 6
      (GetLast [.Item_Spacer 0, .Item_Window ⟨3, 10⟩]) false 0 = ⟨.ok 10, [1, 0, 1]⟩ ∧
    spacerFirstBar.GetButtonId 0 = ⟨.ok 10, [1] ++ [1, 0, 1]⟩ ∧
    (GetButtonCount.trace spacerFirstBar).visited = [1] :=
  ⟨GetButtonId_first_once bar idx, GetButtonCount_trace_skips_first bar, by decide, by decide,
    by decide⟩

end wxInfoBarGeneric

end WxGeneric
